import Mathlib

/-!
# Axis clamper (`src/pointing/axis_clamper.c`)

A shallow embedding of the ZMK input processor `zmk,axis-clamper` and the
properties of its lock state machine.

Conventions of the embedding.

* Machine integers are natural numbers (`Int` for the signed event value) with
  the reduction modulo `2^32` (`uint32_t`) or `2^16` (`uint16_t`) written out
  wherever the C code can wrap.
* A history buffer is `Option (List Nat)`: `none` is the NULL pointer, `some b`
  an allocated block holding the words `b`.
* Undefined behaviour and non-termination (a NULL or out-of-bounds access, a
  division or remainder by zero, the `uint16_t` loop counter never reaching a
  `history_size` above 65535) make the handler return `none`.
* The delayed work item `history_ttl_work` and `last_event_timestamp` are not
  part of the state: the handler writes them and never reads them.  The firing
  of the work item is the separate transition `clear_history`.
-/

namespace AxisClamper

/-! ## Data model -/

/-- The `struct zip_axis_clamper_config`: window length and the two percentages. -/
structure zip_axis_clamper_config where
  history_size : Nat
  threshold : Nat
  hysteresis : Nat
  deriving DecidableEq

/-- The `struct zip_axis_clamper_data` without the work item and the timestamp.
`history0` is `history[0]` (X axis), `history1` is `history[1]` (Y axis). -/
structure zip_axis_clamper_data where
  initialized : Bool
  history0 : Option (List Nat)
  history1 : Option (List Nat)
  x_index : Nat
  y_index : Nat
  x_captured : Nat
  y_captured : Nat
  clamped_to_x : Bool
  clamped_to_y : Bool
  deriving DecidableEq

/-- The fields of Zephyr's `struct input_event` that a processor can see. -/
structure input_event where
  sync : Bool
  type : Nat
  code : Nat
  value : Int
  deriving DecidableEq

/-- What one call of `sy_handle_event` leaves behind: the returned status, the
instance data and the event as it goes on down the pipeline. -/
structure Outcome where
  ret : Int
  data : zip_axis_clamper_data
  event : input_event
  deriving DecidableEq

/-- The results of the two `malloc` calls of `data_init`: `none` is NULL,
`some b` a block whose indeterminate initial contents are `b`. -/
structure Heap where
  first : Option (List Nat)
  second : Option (List Nat)
  deriving DecidableEq

/-! ## Environment: constants and macros of the host -/

/-- Modelled from the spec: the event code of the X axis (`INPUT_REL_X` of the
host's input event codes, not defined in the repository); the spec only needs
an axis identifier that is X or Y. -/
def INPUT_REL_X : Nat := 0

/-- Modelled from the spec: the event code of the Y axis (`INPUT_REL_Y` of the
host's input event codes, not defined in the repository). -/
def INPUT_REL_Y : Nat := 1

/-- Modelled from the spec: the host macro `CLAMP(val, low, high)`, not defined
in the repository; spec 4.1 has the captured count incremented "up to `N`",
which is `val` limited to the interval from `low` to `high`. -/
def CLAMP (val low high : Nat) : Nat :=
  if val ≤ low then low else if val < high then val else high

/-- The magnitude `abs(event->value)` as stored in a `uint32_t` slot. For
`INT32_MIN`, where C leaves `abs` undefined, this is the two's complement
result `2^31`. -/
def abs_u32 (v : Int) : Nat := v.natAbs % 2 ^ 32

/-- A block of `n` words returned by `malloc` (or NULL), given what the
allocator answered. -/
def malloc (n : Nat) (r : Option (List Nat)) : Option (List Nat) :=
  r.map fun b => (b ++ List.replicate n 0).take n

/-- The call `memset(p, 0, n * sizeof(uint32_t))`: the first `n` words of the
block become 0. NULL or a block shorter than `n` words is a fault. -/
def memset0 (p : Option (List Nat)) (n : Nat) : Option (List Nat) :=
  match p with
  | none => none
  | some b => if n ≤ b.length then some (List.replicate n 0 ++ b.drop n) else none

/-- The assignment `p[i] = v`. NULL or an index outside the block is a fault. -/
def store (p : Option (List Nat)) (i v : Nat) : Option (List Nat) :=
  match p with
  | none => none
  | some b => if i < b.length then some (b.set i v) else none

/-- The read `p[i]`. NULL or an index outside the block is a fault. -/
def load (p : Option (List Nat)) (i : Nat) : Option Nat :=
  match p with
  | none => none
  | some b => b.get? i

/-! ## The functions of `axis_clamper.c` -/

/-- The static instance `data = { .history = { 0 } }`: every field zero. -/
def static_data : zip_axis_clamper_data :=
  { initialized := false, history0 := none, history1 := none,
    x_index := 0, y_index := 0, x_captured := 0, y_captured := 0,
    clamped_to_x := false, clamped_to_y := false }

/-- The function `data_init` (lines 118-141). When an allocation fails the
pointers are kept as returned and nothing else is written. -/
def data_init (config : zip_axis_clamper_config) (heap : Heap)
    (data : zip_axis_clamper_data) : Option zip_axis_clamper_data :=
  let h0 := malloc config.history_size heap.first
  let h1 := malloc config.history_size heap.second
  if h0 = none ∨ h1 = none then
    some { data with history0 := h0, history1 := h1 }
  else
    match memset0 h0 config.history_size, memset0 h1 config.history_size with
    | some z0, some z1 =>
      some { data with
        history0 := some z0, history1 := some z1,
        x_index := 0, y_index := 0,
        clamped_to_x := false, clamped_to_y := false,
        initialized := true }
    | _, _ => none

/-- The work handler `clear_history` (lines 32-46), run when the decay timer
fires. -/
def clear_history (config : zip_axis_clamper_config)
    (data : zip_axis_clamper_data) : Option zip_axis_clamper_data :=
  match memset0 data.history0 config.history_size,
        memset0 data.history1 config.history_size with
  | some z0, some z1 =>
    some { data with
      history0 := some z0, history1 := some z1,
      x_index := 0, x_captured := 0, y_index := 0, y_captured := 0,
      clamped_to_x := false, clamped_to_y := false }
  | _, _ => none

/-- Lines 61-68 for an X or Y event: record the magnitude in the axis's ring,
advance its cursor and its captured count. Other codes leave `none` here and
are dealt with by the caller (line 70). -/
def push (config : zip_axis_clamper_config) (data : zip_axis_clamper_data)
    (event : input_event) : Option zip_axis_clamper_data :=
  if event.code = INPUT_REL_X then
    match store data.history0 data.x_index (abs_u32 event.value) with
    | none => none
    | some h0 =>
      if config.history_size = 0 then none
      else some { data with
        history0 := some h0,
        x_index := (data.x_index + 1) % config.history_size % 2 ^ 16,
        x_captured := CLAMP (data.x_captured + 1) 0 config.history_size % 2 ^ 16 }
  else if event.code = INPUT_REL_Y then
    match store data.history1 data.y_index (abs_u32 event.value) with
    | none => none
    | some h1 =>
      if config.history_size = 0 then none
      else some { data with
        history1 := some h1,
        y_index := (data.y_index + 1) % config.history_size % 2 ^ 16,
        y_captured := CLAMP (data.y_captured + 1) 0 config.history_size % 2 ^ 16 }
  else none

/-- The body of the loop of lines 75-78, `n` iterations starting at index `i`. -/
def sum_loop (h0 h1 : Option (List Nat)) : Nat → Nat → Nat → Nat → Option (Nat × Nat)
  | 0, _, x_sum, y_sum => some (x_sum, y_sum)
  | n + 1, i, x_sum, y_sum =>
    match load h0 i, load h1 i with
    | some a, some b =>
      sum_loop h0 h1 n (i + 1) ((x_sum + a) % 2 ^ 32) ((y_sum + b) % 2 ^ 32)
    | _, _ => none

/-- Lines 73-78: `x_sum` and `y_sum` over all `history_size` slots. The counter
is a `uint16_t`, so the loop ends only when `history_size` is at most 65535. -/
def history_sums (config : zip_axis_clamper_config)
    (data : zip_axis_clamper_data) : Option (Nat × Nat) :=
  if config.history_size < 2 ^ 16 then
    sum_loop data.history0 data.history1 config.history_size 0 0 0
  else none

/-- The warm-up guard of line 80. -/
def warming_up (config : zip_axis_clamper_config) (data : zip_axis_clamper_data) : Bool :=
  decide (data.x_captured < config.history_size / 2) ||
    decide (data.y_captured < config.history_size / 2)

/-- The `uint32_t` division of lines 84-85; dividing by zero is a fault. -/
def average (sum captured : Nat) : Option Nat :=
  if captured = 0 then none else some (sum / captured)

/-- Line 86: `total = x_avg + y_avg` in `uint32_t`. -/
def total_of (x_avg y_avg : Nat) : Nat := (x_avg + y_avg) % 2 ^ 32

/-- Lines 91-92: `(avg * 100) / total` in `uint32_t`. -/
def percent_of (avg total : Nat) : Nat := avg * 100 % 2 ^ 32 / total

/-- The `uint32_t` difference `threshold - hysteresis` of lines 100 and 104. -/
def release_bound (config : zip_axis_clamper_config) : Nat :=
  (config.threshold + 2 ^ 32 - config.hysteresis % 2 ^ 32) % 2 ^ 32

/-- Lines 93-107: the lock state machine. -/
def update_lock (config : zip_axis_clamper_config) (data : zip_axis_clamper_data)
    (x_percent y_percent : Nat) : zip_axis_clamper_data :=
  if data.clamped_to_x = false ∧ data.clamped_to_y = false then
    if x_percent ≥ config.threshold then { data with clamped_to_x := true }
    else if y_percent ≥ config.threshold then { data with clamped_to_y := true }
    else data
  else if data.clamped_to_x = true then
    if x_percent < release_bound config then { data with clamped_to_x := false }
    else data
  else if data.clamped_to_y = true then
    if y_percent < release_bound config then { data with clamped_to_y := false }
    else data
  else data

/-- Lines 109-113: the output gate. -/
def gate (data : zip_axis_clamper_data) (event : input_event) : input_event :=
  if (data.clamped_to_x = true ∧ event.code = INPUT_REL_Y) ∨
      (data.clamped_to_y = true ∧ event.code = INPUT_REL_X) then
    { event with value := 0, sync := false }
  else event

/-- Lines 54-56: the lazy initialisation on the first event. -/
def ensure_init (config : zip_axis_clamper_config) (heap : Heap)
    (data : zip_axis_clamper_data) : Option zip_axis_clamper_data :=
  if data.initialized = false then data_init config heap data else some data

/-- Lines 80-115 once the sums are known. -/
def decide_and_gate (config : zip_axis_clamper_config) (data : zip_axis_clamper_data)
    (event : input_event) (x_sum y_sum : Nat) : Option Outcome :=
  if warming_up config data = true then
    some { ret := 0, data := data, event := event }
  else
    match average x_sum data.x_captured, average y_sum data.y_captured with
    | some x_avg, some y_avg =>
      let total := total_of x_avg y_avg
      if total = 0 then
        some { ret := 0, data := data, event := event }
      else
        let x_percent := percent_of x_avg total
        let y_percent := percent_of y_avg total
        let data := update_lock config data x_percent y_percent
        some { ret := 0, data := data, event := gate data event }
    | _, _ => none

/-- The event handler `sy_handle_event` (lines 49-116). -/
def sy_handle_event (config : zip_axis_clamper_config) (heap : Heap)
    (data : zip_axis_clamper_data) (event : input_event) : Option Outcome :=
  match ensure_init config heap data with
  | none => none
  | some data =>
    if event.code = INPUT_REL_X ∨ event.code = INPUT_REL_Y then
      match push config data event with
      | none => none
      | some data =>
        match history_sums config data with
        | none => none
        | some (x_sum, y_sum) => decide_and_gate config data event x_sum y_sum
    else
      some { ret := 0, data := data, event := event }

/-! ## Runs, reachable states and the view of a decision cycle -/

/-- The instance right after a successful `data_init` on the static data. -/
def fresh (config : zip_axis_clamper_config) : zip_axis_clamper_data :=
  { initialized := true,
    history0 := some (List.replicate config.history_size 0),
    history1 := some (List.replicate config.history_size 0),
    x_index := 0, y_index := 0, x_captured := 0, y_captured := 0,
    clamped_to_x := false, clamped_to_y := false }

/-- Feeding a list of events through `sy_handle_event`, one call after the
other; the result is the final instance data and the events as forwarded. -/
def run (config : zip_axis_clamper_config) (heap : Heap) :
    zip_axis_clamper_data → List input_event →
      Option (zip_axis_clamper_data × List input_event)
  | data, [] => some (data, [])
  | data, event :: rest =>
    match sy_handle_event config heap data event with
    | none => none
    | some out =>
      match run config heap out.data rest with
      | none => none
      | some (final, outs) => some (final, out.event :: outs)

/-- States reached from the fresh instance by handled events and decay
firings. -/
inductive Reachable (config : zip_axis_clamper_config) : zip_axis_clamper_data → Prop
  | init : Reachable config (fresh config)
  | event (heap : Heap) (data : zip_axis_clamper_data) (event : input_event)
      (out : Outcome) :
      Reachable config data → sy_handle_event config heap data event = some out →
      Reachable config out.data
  | decay (data data' : zip_axis_clamper_data) :
      Reachable config data → clear_history config data = some data' →
      Reachable config data'

/-- Both buffers are allocated blocks of `history_size` words and the lazy
initialisation is done. -/
def Allocated (config : zip_axis_clamper_config) (data : zip_axis_clamper_data) : Prop :=
  data.initialized = true ∧
  (∃ b0, data.history0 = some b0 ∧ b0.length = config.history_size) ∧
  (∃ b1, data.history1 = some b1 ∧ b1.length = config.history_size)

/-- An allocated instance whose two cursors point into the buffers. -/
def WellFormed (config : zip_axis_clamper_config) (data : zip_axis_clamper_data) : Prop :=
  Allocated config data ∧
  data.x_index < config.history_size ∧ data.y_index < config.history_size

/-- The lock state `Unlocked`: neither flag is set. -/
def Unlocked (data : zip_axis_clamper_data) : Prop :=
  data.clamped_to_x = false ∧ data.clamped_to_y = false

/-- The lock state `LockedX`: `clamped_to_x` alone is set. -/
def LockedX (data : zip_axis_clamper_data) : Prop :=
  data.clamped_to_x = true ∧ data.clamped_to_y = false

/-- The lock state `LockedY`: `clamped_to_y` alone is set. -/
def LockedY (data : zip_axis_clamper_data) : Prop :=
  data.clamped_to_x = false ∧ data.clamped_to_y = true

instance (data : zip_axis_clamper_data) : Decidable (Unlocked data) :=
  inferInstanceAs (Decidable (_ ∧ _))

instance (data : zip_axis_clamper_data) : Decidable (LockedX data) :=
  inferInstanceAs (Decidable (_ ∧ _))

instance (data : zip_axis_clamper_data) : Decidable (LockedY data) :=
  inferInstanceAs (Decidable (_ ∧ _))

/-- The local variables of a call of `sy_handle_event` that gets to line 86:
the instance data after the push, the two sums and the two averages. -/
structure Cycle where
  data : zip_axis_clamper_data
  x_sum : Nat
  y_sum : Nat
  x_avg : Nat
  y_avg : Nat
  deriving DecidableEq

/-- The local `total` of line 86. -/
def Cycle.total (c : Cycle) : Nat := total_of c.x_avg c.y_avg

/-- The local `x_percent` of line 91. -/
def Cycle.x_percent (c : Cycle) : Nat := percent_of c.x_avg c.total

/-- The local `y_percent` of line 92. -/
def Cycle.y_percent (c : Cycle) : Nat := percent_of c.y_avg c.total

/-- Lines 54-86 of `sy_handle_event` as far as the averages: `none` when the
call does not get there (another event code, the warm-up guard, a fault). -/
def cycle (config : zip_axis_clamper_config) (heap : Heap)
    (data : zip_axis_clamper_data) (event : input_event) : Option Cycle :=
  match ensure_init config heap data with
  | none => none
  | some data =>
    match push config data event with
    | none => none
    | some data =>
      match history_sums config data with
      | none => none
      | some (x_sum, y_sum) =>
        if warming_up config data = true then none
        else
          match average x_sum data.x_captured, average y_sum data.y_captured with
          | some x_avg, some y_avg =>
            some { data := data, x_sum := x_sum, y_sum := y_sum,
                   x_avg := x_avg, y_avg := y_avg }
          | _, _ => none

/-! ## The end-to-end scenario of the spec: `N = 4`, threshold 35, hysteresis 5 -/

/-- The configuration of the scenario. -/
def scenario_config : zip_axis_clamper_config :=
  { history_size := 4, threshold := 35, hysteresis := 5 }

/-- An X-axis event of magnitude `m`. -/
def x_move (m : Nat) (e : input_event) : Prop :=
  e.code = INPUT_REL_X ∧ e.value.natAbs = m

/-- A Y-axis event of magnitude `m`. -/
def y_move (m : Nat) (e : input_event) : Prop :=
  e.code = INPUT_REL_Y ∧ e.value.natAbs = m

instance (m : Nat) (e : input_event) : Decidable (x_move m e) :=
  inferInstanceAs (Decidable (_ ∧ _))

instance (m : Nat) (e : input_event) : Decidable (y_move m e) :=
  inferInstanceAs (Decidable (_ ∧ _))

/-- The number of X-axis events in a list. -/
def count_x (evs : List input_event) : Nat :=
  evs.countP fun e => decide (e.code = INPUT_REL_X)

/-- The number of Y-axis events in a list. -/
def count_y (evs : List input_event) : Nat :=
  evs.countP fun e => decide (e.code = INPUT_REL_Y)

/-- An interleaving of four X events of magnitude 10 (value 10 or -10) and four
Y events of magnitude 1. -/
def Interleaving (evs : List input_event) : Prop :=
  (∀ e ∈ evs, x_move 10 e ∨ y_move 1 e) ∧ count_x evs = 4 ∧ count_y evs = 4

instance (evs : List input_event) : Decidable (Interleaving evs) :=
  inferInstanceAs (Decidable (_ ∧ _))

/-- The instance data of the scenario after `a` X events and `b` Y events, in
any order, `a` and `b` at most 4. -/
def scenario_state (a b : Nat) : zip_axis_clamper_data :=
  { initialized := true,
    history0 := some (List.replicate a 10 ++ List.replicate (4 - a) 0),
    history1 := some (List.replicate b 1 ++ List.replicate (4 - b) 0),
    x_index := a % 4, y_index := b % 4, x_captured := a, y_captured := b,
    clamped_to_x := decide (2 ≤ a ∧ 2 ≤ b), clamped_to_y := false }

/-- The event of code `code` and value `m` with the sync flag set. -/
def plain_event (code : Nat) (m : Int) : input_event :=
  { sync := true, type := 2, code := code, value := m }

/-! ## Concrete instances used as examples -/

/-- An allocator that has nothing to give; an initialised instance never asks. -/
def no_heap : Heap := { first := none, second := none }

/-- Two X events of 10 and two Y events of 0 lock the X axis, then four X
events of 0 empty the X ring. -/
def still_events : List input_event :=
  [plain_event INPUT_REL_X 10, plain_event INPUT_REL_X 10,
   plain_event INPUT_REL_Y 0, plain_event INPUT_REL_Y 0,
   plain_event INPUT_REL_X 0, plain_event INPUT_REL_X 0,
   plain_event INPUT_REL_X 0, plain_event INPUT_REL_X 0]

/-- The instance data after `still_events`: locked to X with both rings empty. -/
def still_state : zip_axis_clamper_data :=
  { initialized := true,
    history0 := some [0, 0, 0, 0], history1 := some [0, 0, 0, 0],
    x_index := 2, y_index := 2, x_captured := 4, y_captured := 2,
    clamped_to_x := true, clamped_to_y := false }

/-- The configuration of the tie example: `N = 2`, threshold 50. -/
def tie_config : zip_axis_clamper_config :=
  { history_size := 2, threshold := 50, hysteresis := 5 }

/-- The instance data of the tie example after one X event of 1. -/
def tie_state : zip_axis_clamper_data :=
  { initialized := true,
    history0 := some [1, 0], history1 := some [0, 0],
    x_index := 1, y_index := 0, x_captured := 1, y_captured := 0,
    clamped_to_x := false, clamped_to_y := false }

/-- The cycle of the tie example: a Y event of 1 handled in `tie_state`. -/
def tie_cycle : Cycle :=
  { data := { tie_state with history1 := some [1, 0], y_index := 1, y_captured := 1 },
    x_sum := 1, y_sum := 1, x_avg := 1, y_avg := 1 }

/-- The cycle of a Y event of magnitude `m` handled in the locked scenario
state `scenario_state 4 4`. -/
def y_cycle (m : Nat) : Cycle :=
  { data := { scenario_state 4 4 with history1 := some [m, 1, 1, 1], y_index := 1 },
    x_sum := 40, y_sum := m + 3, x_avg := 10, y_avg := (m + 3) / 4 }

/-- What the handler returns for an X event of -7 in the locked scenario state. -/
def pass_out : Outcome :=
  { ret := 0,
    data := { scenario_state 4 4 with history0 := some [7, 10, 10, 10], x_index := 1 },
    event := plain_event INPUT_REL_X (-7) }

/-- What the handler returns for a Y event of 93 in the locked scenario state. -/
def release_out : Outcome :=
  { ret := 0,
    data := { scenario_state 4 4 with
      history1 := some [93, 1, 1, 1], y_index := 1, clamped_to_x := false },
    event := plain_event INPUT_REL_Y 93 }

/-- The instance data after a Y event of 1 handled in `still_state`. -/
def still_after : zip_axis_clamper_data :=
  { still_state with history1 := some [0, 0, 1, 0], y_index := 3, y_captured := 3 }

/-- The cycle of a Y event of 1 handled in `still_state`: both averages are 0. -/
def still_cycle : Cycle :=
  { data := still_after, x_sum := 0, y_sum := 1, x_avg := 0, y_avg := 0 }

/-- Three large X events and no Y event: the Y ring is still warming up. -/
def warm_events : List input_event :=
  [plain_event INPUT_REL_X 100, plain_event INPUT_REL_X (-100), plain_event INPUT_REL_X 100]

/-- The instance data after `warm_events`. -/
def warm_state : zip_axis_clamper_data :=
  { initialized := true,
    history0 := some [100, 100, 100, 0], history1 := some [0, 0, 0, 0],
    x_index := 3, y_index := 0, x_captured := 3, y_captured := 0,
    clamped_to_x := false, clamped_to_y := false }

/-- One interleaving of the scenario: X and Y alternate, with mixed signs. -/
def scenario_events : List input_event :=
  [plain_event INPUT_REL_X 10, plain_event INPUT_REL_Y 1,
   plain_event INPUT_REL_X (-10), plain_event INPUT_REL_Y 1,
   plain_event INPUT_REL_X 10, plain_event INPUT_REL_Y (-1),
   plain_event INPUT_REL_X 10, plain_event INPUT_REL_Y 1]

/-- The cycle of the eighth event of an interleaving of the scenario. -/
def lock_cycle : Cycle :=
  { data := scenario_state 4 4, x_sum := 40, y_sum := 4, x_avg := 10, y_avg := 1 }

/-- The locked scenario state after further X events of magnitude `m`: `f` of
the four X slots hold `m`, the others still 10, the cursor is at `i` and
`clamped_to_x` is `lx`. -/
def drift_state (m f i : Nat) (lx : Bool) : zip_axis_clamper_data :=
  { scenario_state 4 4 with
    history0 := some (List.replicate f m ++ List.replicate (4 - f) 10),
    x_index := i, clamped_to_x := lx }

/-- What the handler returns for a Y event of 5 in the locked scenario state. -/
def suppress_out : Outcome :=
  { ret := 0,
    data := { scenario_state 4 4 with history1 := some [5, 1, 1, 1], y_index := 1 },
    event := { plain_event INPUT_REL_Y 5 with value := 0, sync := false } }

/-- An event on another axis (code 8, the wheel), value 3. -/
def wheel_event : input_event :=
  { sync := true, type := 2, code := 8, value := 3 }

/-- The scenario with the hysteresis above the threshold: `N = 4`, threshold 35,
hysteresis 40. -/
def wrap_config : zip_axis_clamper_config :=
  { history_size := 4, threshold := 35, hysteresis := 40 }

/-- Two X events of 10 and two Y events of 1: enough to lock the X axis. -/
def wrap_events : List input_event :=
  [plain_event INPUT_REL_X 10, plain_event INPUT_REL_X 10,
   plain_event INPUT_REL_Y 1, plain_event INPUT_REL_Y 1]

/-- The smallest configuration: `N = 1`. -/
def one_config : zip_axis_clamper_config :=
  { history_size := 1, threshold := 35, hysteresis := 5 }

/-- The instance data of `one_config` after the push of a first X event of 10. -/
def one_pushed : zip_axis_clamper_data :=
  { fresh one_config with history0 := some [10], x_captured := 1 }

/-- An allocator whose first block is granted, with stale contents, and whose
second is refused. -/
def half_heap : Heap := { first := some [7, 7, 7, 7], second := none }

/-- The configuration of the share example: `N = 2`, threshold 35. -/
def share_config : zip_axis_clamper_config :=
  { history_size := 2, threshold := 35, hysteresis := 5 }

/-- The instance data of the share example after one X event of 2. -/
def share_state : zip_axis_clamper_data :=
  { fresh share_config with history0 := some [2, 0], x_index := 1, x_captured := 1 }

/-- The cycle of the share example: a Y event of 3 handled in `share_state`. -/
def share_cycle : Cycle :=
  { data := { share_state with history1 := some [3, 0], y_index := 1, y_captured := 1 },
    x_sum := 2, y_sum := 3, x_avg := 2, y_avg := 3 }

/-- Every magnitude stored in either history buffer is at most `M`. -/
def SlotsWithin (M : Nat) (data : zip_axis_clamper_data) : Prop :=
  (∀ b, data.history0 = some b → ∀ x ∈ b, x ≤ M) ∧
  (∀ b, data.history1 = some b → ∀ x ∈ b, x ≤ M)

/-- The number of non-zero slots of a buffer. -/
def nonzero_slots (b : List Nat) : Nat := b.countP fun x => decide (x ≠ 0)

/-- The configuration of the wraparound example: `N = 2`, threshold 35. -/
def big_state : zip_axis_clamper_data :=
  { fresh share_config with
    history0 := some [50000000, 0], x_index := 1, x_captured := 1 }

/-- The cycle of the wraparound example: a Y event of 1 handled in `big_state`. -/
def big_cycle : Cycle :=
  { data := { big_state with history1 := some [1, 0], y_index := 1, y_captured := 1 },
    x_sum := 50000000, y_sum := 1, x_avg := 50000000, y_avg := 1 }

/-! ## The rolling window -/

/-- The magnitudes of the X events of a list, in the order of the events. -/
def x_magnitudes (evs : List input_event) : List Nat :=
  (evs.filter fun e => decide (e.code = INPUT_REL_X)).map fun e => abs_u32 e.value

/-- The magnitudes of the Y events of a list, in the order of the events. -/
def y_magnitudes (evs : List input_event) : List Nat :=
  (evs.filter fun e => decide (e.code = INPUT_REL_Y)).map fun e => abs_u32 e.value

/-- The last `min k N` of `k` magnitudes. -/
def last_magnitudes (N : Nat) (vs : List Nat) : List Nat :=
  vs.drop (vs.length - min vs.length N)

/-- What a ring of `N` slots holds after the pushes `vs` onto zeros, oldest slot
first. -/
def ring_window (N : Nat) (vs : List Nat) : List Nat :=
  (List.replicate N 0 ++ vs).drop vs.length

/-- The buffer `p` with cursor `index` and count `captured` is the ring of `N`
slots after the pushes `vs` since the last reset: the cursor is at the oldest
slot. -/
def RingOf (N : Nat) (p : Option (List Nat)) (index captured : Nat) (vs : List Nat) : Prop :=
  ∃ b, p = some b ∧ b.length = N ∧ index = vs.length % N ∧
    captured = min vs.length N ∧ b.rotate index = ring_window N vs

/-- The instance data holds, on each axis, the ring of the magnitudes `xs` and
`ys` pushed since the last reset. -/
def RingState (config : zip_axis_clamper_config) (data : zip_axis_clamper_data)
    (xs ys : List Nat) : Prop :=
  data.initialized = true ∧
  RingOf config.history_size data.history0 data.x_index data.x_captured xs ∧
  RingOf config.history_size data.history1 data.y_index data.y_captured ys

/-- The captured count, the sum and the average that a cycle uses for an axis are
those of the last `min k N` of the magnitudes `vs` pushed on that axis: the sum
modulo `2^32`, the average truncated, so the truncated mean when the sum does
not wrap around, and 0 when those magnitudes are all 0. -/
def WindowMean (N : Nat) (vs : List Nat) (captured sum avg : Nat) : Prop :=
  captured = min vs.length N ∧
  sum = (last_magnitudes N vs).sum % 2 ^ 32 ∧
  avg = sum / captured ∧
  ((last_magnitudes N vs).sum < 2 ^ 32 →
    avg = (last_magnitudes N vs).sum / min vs.length N) ∧
  ((∀ v ∈ last_magnitudes N vs, v = 0) → avg = 0)

/-- The events that `sy_handle_event` hands on for `scenario_events`: the Y
events are suppressed from the fourth event on. -/
def scenario_outs : List input_event :=
  [plain_event INPUT_REL_X 10, plain_event INPUT_REL_Y 1,
   plain_event INPUT_REL_X (-10),
   { plain_event INPUT_REL_Y 1 with value := 0, sync := false },
   plain_event INPUT_REL_X 10,
   { plain_event INPUT_REL_Y (-1) with value := 0, sync := false },
   plain_event INPUT_REL_X 10,
   { plain_event INPUT_REL_Y 1 with value := 0, sync := false }]

/-- An allocator that grants both blocks, with stale contents. -/
def full_heap : Heap := { first := some [7, 7, 7, 7], second := some [7, 7, 7, 7] }

/-! ## Basic facts about the handler -/

/-- Lines 54-56 do nothing on an initialised instance. -/
theorem ensure_init_of_initialized (config : zip_axis_clamper_config) (heap : Heap)
    (data : zip_axis_clamper_data) (h : data.initialized = true) :
    ensure_init config heap data = some data := by
  simp [ensure_init, h]

/-- A call that gets to line 86 returns, and what it returns is fixed by the
locals of the cycle. -/
theorem sy_handle_event_of_cycle (config : zip_axis_clamper_config) (heap : Heap)
    (data : zip_axis_clamper_data) (event : input_event) (c : Cycle)
    (hc : cycle config heap data event = some c) :
    sy_handle_event config heap data event =
      if c.total = 0 then some { ret := 0, data := c.data, event := event }
      else some { ret := 0, data := update_lock config c.data c.x_percent c.y_percent,
                  event := gate (update_lock config c.data c.x_percent c.y_percent) event } := by
  unfold cycle at hc
  unfold sy_handle_event
  cases h0 : ensure_init config heap data with
  | none => simp [h0] at hc
  | some d0 =>
    simp only [h0] at hc ⊢
    cases h1 : push config d0 event with
    | none => simp [h1] at hc
    | some d1 =>
      have hcode : event.code = INPUT_REL_X ∨ event.code = INPUT_REL_Y := by
        unfold push at h1
        by_contra hne
        push_neg at hne
        simp [hne.1, hne.2] at h1
      simp only [h1, hcode, if_true] at hc ⊢
      cases h2 : history_sums config d1 with
      | none => simp [h2] at hc
      | some s =>
        obtain ⟨x_sum, y_sum⟩ := s
        simp only [h2] at hc ⊢
        unfold decide_and_gate
        by_cases hw : warming_up config d1 = true
        · simp [hw] at hc
        · have hw' : warming_up config d1 = false := by simpa using hw
          simp only [hw', Bool.false_eq_true, if_false] at hc ⊢
          cases ha : average x_sum d1.x_captured with
          | none => simp [ha] at hc
          | some x_avg =>
            cases hb : average y_sum d1.y_captured with
            | none => simp [ha, hb] at hc
            | some y_avg =>
              simp only [ha, hb, Option.some.injEq] at hc ⊢
              subst hc
              simp only [Cycle.total, Cycle.x_percent, Cycle.y_percent]



/-- The push touches neither lock flag nor the `initialized` flag. -/
theorem push_flags (config : zip_axis_clamper_config) (data d1 : zip_axis_clamper_data)
    (event : input_event) (h : push config data event = some d1) :
    d1.clamped_to_x = data.clamped_to_x ∧ d1.clamped_to_y = data.clamped_to_y ∧
      d1.initialized = data.initialized := by
  unfold push at h
  split at h
  · split at h
    · simp at h
    · split at h
      · simp at h
      · simp only [Option.some.injEq] at h
        subst h
        simp
  · split at h
    · split at h
      · simp at h
      · split at h
        · simp at h
        · simp only [Option.some.injEq] at h
          subst h
          simp
    · simp at h

/-- Only X and Y events are pushed. -/
theorem push_code (config : zip_axis_clamper_config) (data d1 : zip_axis_clamper_data)
    (event : input_event) (h : push config data event = some d1) :
    event.code = INPUT_REL_X ∨ event.code = INPUT_REL_Y := by
  unfold push at h
  by_contra hne
  push_neg at hne
  simp [hne.1, hne.2] at h

/-- The data of a cycle is the pushed data, past the warm-up guard, with both
averages defined. -/
theorem cycle_inv (config : zip_axis_clamper_config) (heap : Heap)
    (data : zip_axis_clamper_data) (event : input_event) (c : Cycle)
    (hc : cycle config heap data event = some c) :
    ∃ d0, ensure_init config heap data = some d0 ∧ push config d0 event = some c.data ∧
      history_sums config c.data = some (c.x_sum, c.y_sum) ∧
      warming_up config c.data = false ∧
      average c.x_sum c.data.x_captured = some c.x_avg ∧
      average c.y_sum c.data.y_captured = some c.y_avg := by
  unfold cycle at hc
  cases h0 : ensure_init config heap data with
  | none => simp [h0] at hc
  | some d0 =>
    simp only [h0] at hc
    cases h1 : push config d0 event with
    | none => simp [h1] at hc
    | some d1 =>
      simp only [h1] at hc
      cases h2 : history_sums config d1 with
      | none => simp [h2] at hc
      | some s =>
        obtain ⟨x_sum, y_sum⟩ := s
        simp only [h2] at hc
        by_cases hw : warming_up config d1 = true
        · simp [hw] at hc
        · have hw' : warming_up config d1 = false := by simpa using hw
          simp only [hw', Bool.false_eq_true, if_false] at hc
          cases ha : average x_sum d1.x_captured with
          | none => simp [ha] at hc
          | some x_avg =>
            cases hb : average y_sum d1.y_captured with
            | none => simp [ha, hb] at hc
            | some y_avg =>
              simp only [ha, hb, Option.some.injEq] at hc
              subst hc
              exact ⟨d0, rfl, h1, h2, hw', ha, hb⟩

/-- Every returning call of the handler took one of its four exits: line 70,
line 81, line 88 or line 115. -/
theorem sy_handle_event_cases (config : zip_axis_clamper_config) (heap : Heap)
    (data : zip_axis_clamper_data) (event : input_event) (out : Outcome)
    (h : sy_handle_event config heap data event = some out) :
    ∃ d0, ensure_init config heap data = some d0 ∧
      ((event.code ≠ INPUT_REL_X ∧ event.code ≠ INPUT_REL_Y ∧
          out = { ret := 0, data := d0, event := event }) ∨
       (∃ d1, push config d0 event = some d1 ∧ warming_up config d1 = true ∧
          out = { ret := 0, data := d1, event := event }) ∨
       (∃ c, cycle config heap data event = some c ∧ push config d0 event = some c.data ∧
          warming_up config c.data = false ∧ c.total = 0 ∧
          out = { ret := 0, data := c.data, event := event }) ∨
       (∃ c, cycle config heap data event = some c ∧ push config d0 event = some c.data ∧
          warming_up config c.data = false ∧ c.total ≠ 0 ∧
          out = { ret := 0, data := update_lock config c.data c.x_percent c.y_percent,
                  event := gate (update_lock config c.data c.x_percent c.y_percent) event })) := by
  cases h0 : ensure_init config heap data with
  | none => simp [sy_handle_event, h0] at h
  | some d0 =>
    refine ⟨d0, rfl, ?_⟩
    by_cases hcode : event.code = INPUT_REL_X ∨ event.code = INPUT_REL_Y
    · cases h1 : push config d0 event with
      | none => simp [sy_handle_event, h0, hcode, h1] at h
      | some d1 =>
        cases h2 : history_sums config d1 with
        | none => simp [sy_handle_event, h0, hcode, h1, h2] at h
        | some s =>
          obtain ⟨x_sum, y_sum⟩ := s
          by_cases hw : warming_up config d1 = true
          · simp [sy_handle_event, h0, hcode, h1, h2, decide_and_gate, hw] at h
            exact Or.inr (Or.inl ⟨d1, rfl, hw, h.symm⟩)
          · have hw' : warming_up config d1 = false := by simpa using hw
            cases ha : average x_sum d1.x_captured with
            | none => simp [sy_handle_event, h0, hcode, h1, h2, decide_and_gate, hw', ha] at h
            | some x_avg =>
              cases hb : average y_sum d1.y_captured with
              | none =>
                simp [sy_handle_event, h0, hcode, h1, h2, decide_and_gate, hw', ha, hb] at h
              | some y_avg =>
                have hc : cycle config heap data event =
                    some { data := d1, x_sum := x_sum, y_sum := y_sum,
                           x_avg := x_avg, y_avg := y_avg } := by
                  simp [cycle, h0, h1, h2, hw', ha, hb]
                have hs := sy_handle_event_of_cycle config heap data event _ hc
                rw [h] at hs
                by_cases ht : total_of x_avg y_avg = 0
                · simp only [Cycle.total, ht, if_true, Option.some.injEq] at hs
                  exact Or.inr (Or.inr (Or.inl ⟨_, hc, rfl, hw', ht, hs⟩))
                · simp only [Cycle.total, ht, if_false, Option.some.injEq] at hs
                  exact Or.inr (Or.inr (Or.inr ⟨_, hc, rfl, hw', ht, hs⟩))
    · push_neg at hcode
      simp [sy_handle_event, h0, hcode.1, hcode.2] at h
      exact Or.inl ⟨hcode.1, hcode.2, h.symm⟩

/-- The gate changes the event only when it suppresses it. -/
theorem gate_eq (data : zip_axis_clamper_data) (event : input_event) :
    gate data event =
      if (data.clamped_to_x = true ∧ event.code = INPUT_REL_Y) ∨
          (data.clamped_to_y = true ∧ event.code = INPUT_REL_X) then
        { event with value := 0, sync := false }
      else event := rfl

/-- C4: unless the lock state after the call is LockedX with the event on the Y
axis, or LockedY with the event on the X axis, `sy_handle_event` hands the event
on exactly as it came in. -/
theorem pass_through_unchanged (config : zip_axis_clamper_config) (heap : Heap)
    (data : zip_axis_clamper_data) (event : input_event) (out : Outcome)
    (h : sy_handle_event config heap data event = some out)
    (hx : ¬ (out.data.clamped_to_x = true ∧ event.code = INPUT_REL_Y))
    (hy : ¬ (out.data.clamped_to_y = true ∧ event.code = INPUT_REL_X)) :
    out.event = event := by
  obtain ⟨d0, -, hcase⟩ := sy_handle_event_cases config heap data event out h
  rcases hcase with ⟨-, -, rfl⟩ | ⟨d1, -, -, rfl⟩ | ⟨c, -, -, -, -, rfl⟩ | ⟨c, -, -, -, -, rfl⟩
  · rfl
  · rfl
  · rfl
  · simp only [gate_eq] at hx hy ⊢
    rw [if_neg]
    rintro (h1 | h1)
    · exact hx h1
    · exact hy h1

/-- For an initialised instance the data of a cycle carries the lock flags the
call started with. -/
theorem cycle_flags (config : zip_axis_clamper_config) (heap : Heap)
    (data : zip_axis_clamper_data) (event : input_event) (c : Cycle)
    (hinit : data.initialized = true) (hc : cycle config heap data event = some c) :
    c.data.clamped_to_x = data.clamped_to_x ∧ c.data.clamped_to_y = data.clamped_to_y := by
  obtain ⟨d0, h0, hp, -⟩ := cycle_inv config heap data event c hc
  rw [ensure_init_of_initialized config heap data hinit, Option.some.injEq] at h0
  subst h0
  exact ⟨(push_flags config data c.data event hp).1, (push_flags config data c.data event hp).2.1⟩

/-- With `hysteresis ≤ threshold` the `uint32_t` difference of lines 100 and
104 is the plain difference. -/
theorem release_bound_eq (config : zip_axis_clamper_config)
    (hh : config.hysteresis ≤ config.threshold) (ht : config.threshold < 2 ^ 32) :
    release_bound config = config.threshold - config.hysteresis := by
  unfold release_bound
  have h1 : config.hysteresis % 2 ^ 32 = config.hysteresis :=
    Nat.mod_eq_of_lt (lt_of_le_of_lt hh ht)
  rw [h1]
  omega

/-- C2: an X or Y event handled in state Unlocked whose cycle gets past the
warm-up guard with `total > 0` ends in LockedX if `x_percent ≥ threshold`,
otherwise in LockedY if `y_percent ≥ threshold`, otherwise in Unlocked; on the
exact tie `x_percent = y_percent = threshold` the result is LockedX. -/
theorem lock_acquisition_x_first (config : zip_axis_clamper_config) (heap : Heap)
    (data : zip_axis_clamper_data) (event : input_event) (c : Cycle)
    (hinit : data.initialized = true) (hun : Unlocked data)
    (hc : cycle config heap data event = some c) (ht : 0 < c.total) :
    ∃ out, sy_handle_event config heap data event = some out ∧
      (config.threshold ≤ c.x_percent → LockedX out.data) ∧
      (c.x_percent < config.threshold → config.threshold ≤ c.y_percent →
        LockedY out.data) ∧
      (c.x_percent < config.threshold → c.y_percent < config.threshold →
        Unlocked out.data) ∧
      (c.x_percent = config.threshold → c.y_percent = config.threshold →
        LockedX out.data) := by
  obtain ⟨hfx, hfy⟩ := cycle_flags config heap data event c hinit hc
  rw [hun.1] at hfx
  rw [hun.2] at hfy
  have hx : config.threshold ≤ c.x_percent → LockedX
      (update_lock config c.data c.x_percent c.y_percent) := by
    intro h
    simp [update_lock, hfx, hfy, h, LockedX]
  rw [sy_handle_event_of_cycle config heap data event c hc, if_neg (Nat.pos_iff_ne_zero.mp ht)]
  refine ⟨_, rfl, ?_, ?_, ?_, ?_⟩
  · exact hx
  · intro h1 h2
    simp [update_lock, hfx, hfy, Nat.not_le.mpr h1, h2, LockedY]
  · intro h1 h2
    simp [update_lock, hfx, hfy, Nat.not_le.mpr h1, Nat.not_le.mpr h2, Unlocked]
  · intro h1 _
    exact hx (le_of_eq h1.symm)

/-- An event that is neither X nor Y starts no cycle. -/
theorem cycle_none_of_other_code (config : zip_axis_clamper_config) (heap : Heap)
    (data : zip_axis_clamper_data) (event : input_event)
    (hx : event.code ≠ INPUT_REL_X) (hy : event.code ≠ INPUT_REL_Y) :
    cycle config heap data event = none := by
  cases hc : cycle config heap data event with
  | none => rfl
  | some c =>
    obtain ⟨d0, -, hp, -⟩ := cycle_inv config heap data event c hc
    rcases push_code config d0 c.data event hp with h | h
    · exact absurd h hx
    · exact absurd h hy

/-- A call stopped by the warm-up guard starts no cycle. -/
theorem cycle_none_of_warming_up (config : zip_axis_clamper_config) (heap : Heap)
    (data d0 d1 : zip_axis_clamper_data) (event : input_event)
    (h0 : ensure_init config heap data = some d0)
    (hp : push config d0 event = some d1) (hw : warming_up config d1 = true) :
    cycle config heap data event = none := by
  cases hc : cycle config heap data event with
  | none => rfl
  | some c =>
    obtain ⟨d0', h0', hp', -, hw', -⟩ := cycle_inv config heap data event c hc
    rw [h0, Option.some.injEq] at h0'
    subst h0'
    rw [hp, Option.some.injEq] at hp'
    subst hp'
    rw [hw] at hw'
    exact absurd hw' (by decide)

/-- Lines 99-102: what the state machine does in LockedX. -/
theorem update_lock_of_lockedX (config : zip_axis_clamper_config)
    (data : zip_axis_clamper_data) (x_percent y_percent : Nat) (h : LockedX data) :
    update_lock config data x_percent y_percent =
      if x_percent < release_bound config then { data with clamped_to_x := false }
      else data := by
  simp [update_lock, h.1, h.2]

/-- Lines 103-106: what the state machine does in LockedY. -/
theorem update_lock_of_lockedY (config : zip_axis_clamper_config)
    (data : zip_axis_clamper_data) (x_percent y_percent : Nat) (h : LockedY data) :
    update_lock config data x_percent y_percent =
      if y_percent < release_bound config then { data with clamped_to_y := false }
      else data := by
  simp [update_lock, h.1, h.2]

/-- One handled event in LockedX: the X half of the hysteresis property. -/
theorem lockedX_step (config : zip_axis_clamper_config) (heap : Heap)
    (data : zip_axis_clamper_data) (event : input_event) (out : Outcome)
    (hh : config.hysteresis ≤ config.threshold) (hthr : config.threshold < 2 ^ 32)
    (hinit : data.initialized = true)
    (hout : sy_handle_event config heap data event = some out) (hl : LockedX data) :
    (LockedX out.data ∨ Unlocked out.data) ∧ ¬ LockedY out.data ∧
      (Unlocked out.data ↔
        ∃ c, cycle config heap data event = some c ∧ c.total ≠ 0 ∧
          c.x_percent < config.threshold - config.hysteresis) ∧
      (event.code = INPUT_REL_X → out.event = event) := by
  have hrb := release_bound_eq config hh hthr
  have hinit0 := ensure_init_of_initialized config heap data hinit
  obtain ⟨d0, h0, hcase⟩ := sy_handle_event_cases config heap data event out hout
  have hd0 : d0 = data := by
    rw [hinit0, Option.some.injEq] at h0
    exact h0.symm
  subst hd0
  have keep : ∀ d1 : zip_axis_clamper_data, d1.clamped_to_x = d0.clamped_to_x →
      d1.clamped_to_y = d0.clamped_to_y → LockedX d1 := by
    intro d1 fx fy
    exact ⟨fx.trans hl.1, fy.trans hl.2⟩
  have stay : ∀ d1 : zip_axis_clamper_data, LockedX d1 →
      (LockedX d1 ∨ Unlocked d1) ∧ ¬ LockedY d1 ∧ ¬ Unlocked d1 := by
    intro d1 h1
    refine ⟨Or.inl h1, ?_, ?_⟩
    · intro h2
      exact absurd (h1.1.symm.trans h2.1) (by decide)
    · intro h2
      exact absurd (h1.1.symm.trans h2.1) (by decide)
  rcases hcase with ⟨hnx, hny, rfl⟩ | ⟨d1, hp, hw, rfl⟩ | ⟨c, hc, hp, -, ht, rfl⟩ |
    ⟨c, hc, hp, -, ht, rfl⟩
  · obtain ⟨s1, s2, s3⟩ := stay d0 hl
    refine ⟨s1, s2, ⟨fun hu => absurd hu s3, ?_⟩, fun _ => rfl⟩
    rintro ⟨c, hc, -⟩
    rw [cycle_none_of_other_code config heap d0 event hnx hny] at hc
    exact absurd hc (by simp)
  · obtain ⟨fx, fy, -⟩ := push_flags config d0 d1 event hp
    obtain ⟨s1, s2, s3⟩ := stay d1 (keep d1 fx fy)
    refine ⟨s1, s2, ⟨fun hu => absurd hu s3, ?_⟩, fun _ => rfl⟩
    rintro ⟨c, hc, -⟩
    rw [cycle_none_of_warming_up config heap d0 d0 d1 event h0 hp hw] at hc
    exact absurd hc (by simp)
  · obtain ⟨fx, fy, -⟩ := push_flags config d0 c.data event hp
    obtain ⟨s1, s2, s3⟩ := stay c.data (keep c.data fx fy)
    refine ⟨s1, s2, ⟨fun hu => absurd hu s3, ?_⟩, fun _ => rfl⟩
    rintro ⟨c', hc', ht', -⟩
    rw [hc, Option.some.injEq] at hc'
    subst hc'
    exact absurd ht ht'
  · obtain ⟨fx, fy, -⟩ := push_flags config d0 c.data event hp
    have hlc : LockedX c.data := keep c.data fx fy
    have hu := update_lock_of_lockedX config c.data c.x_percent c.y_percent hlc
    rw [hrb] at hu
    by_cases hlt : c.x_percent < config.threshold - config.hysteresis
    · rw [if_pos hlt] at hu
      have hun : Unlocked (update_lock config c.data c.x_percent c.y_percent) := by
        rw [hu]
        exact ⟨rfl, hlc.2⟩
      refine ⟨Or.inr hun, ?_, ⟨fun _ => ⟨c, hc, ht, hlt⟩, fun _ => hun⟩, ?_⟩
      · intro h2
        exact absurd (hun.2.symm.trans h2.2) (by decide)
      · intro hcode
        have hxy : INPUT_REL_X ≠ INPUT_REL_Y := by decide
        simp [gate_eq, hun.1, hun.2, hcode, hxy]
    · rw [if_neg hlt] at hu
      obtain ⟨s1, s2, s3⟩ := stay c.data hlc
      simp only [hu]
      refine ⟨s1, s2, ⟨fun h => absurd h s3, ?_⟩, ?_⟩
      · rintro ⟨c', hc', -, hlt'⟩
        rw [hc, Option.some.injEq] at hc'
        subst hc'
        exact absurd hlt' hlt
      · intro hcode
        have hxy : INPUT_REL_X ≠ INPUT_REL_Y := by decide
        simp [gate_eq, hlc.2, hcode, hxy]

/-- One handled event in LockedY: the Y half of the hysteresis property. -/
theorem lockedY_step (config : zip_axis_clamper_config) (heap : Heap)
    (data : zip_axis_clamper_data) (event : input_event) (out : Outcome)
    (hh : config.hysteresis ≤ config.threshold) (hthr : config.threshold < 2 ^ 32)
    (hinit : data.initialized = true)
    (hout : sy_handle_event config heap data event = some out) (hl : LockedY data) :
    (LockedY out.data ∨ Unlocked out.data) ∧ ¬ LockedX out.data ∧
      (Unlocked out.data ↔
        ∃ c, cycle config heap data event = some c ∧ c.total ≠ 0 ∧
          c.y_percent < config.threshold - config.hysteresis) ∧
      (event.code = INPUT_REL_Y → out.event = event) := by
  have hrb := release_bound_eq config hh hthr
  have hinit0 := ensure_init_of_initialized config heap data hinit
  obtain ⟨d0, h0, hcase⟩ := sy_handle_event_cases config heap data event out hout
  have hd0 : d0 = data := by
    rw [hinit0, Option.some.injEq] at h0
    exact h0.symm
  subst hd0
  have keep : ∀ d1 : zip_axis_clamper_data, d1.clamped_to_x = d0.clamped_to_x →
      d1.clamped_to_y = d0.clamped_to_y → LockedY d1 := by
    intro d1 fx fy
    exact ⟨fx.trans hl.1, fy.trans hl.2⟩
  have stay : ∀ d1 : zip_axis_clamper_data, LockedY d1 →
      (LockedY d1 ∨ Unlocked d1) ∧ ¬ LockedX d1 ∧ ¬ Unlocked d1 := by
    intro d1 h1
    refine ⟨Or.inl h1, ?_, ?_⟩
    · intro h2
      exact absurd (h1.2.symm.trans h2.2) (by decide)
    · intro h2
      exact absurd (h1.2.symm.trans h2.2) (by decide)
  rcases hcase with ⟨hnx, hny, rfl⟩ | ⟨d1, hp, hw, rfl⟩ | ⟨c, hc, hp, -, ht, rfl⟩ |
    ⟨c, hc, hp, -, ht, rfl⟩
  · obtain ⟨s1, s2, s3⟩ := stay d0 hl
    refine ⟨s1, s2, ⟨fun hu => absurd hu s3, ?_⟩, fun _ => rfl⟩
    rintro ⟨c, hc, -⟩
    rw [cycle_none_of_other_code config heap d0 event hnx hny] at hc
    exact absurd hc (by simp)
  · obtain ⟨fx, fy, -⟩ := push_flags config d0 d1 event hp
    obtain ⟨s1, s2, s3⟩ := stay d1 (keep d1 fx fy)
    refine ⟨s1, s2, ⟨fun hu => absurd hu s3, ?_⟩, fun _ => rfl⟩
    rintro ⟨c, hc, -⟩
    rw [cycle_none_of_warming_up config heap d0 d0 d1 event h0 hp hw] at hc
    exact absurd hc (by simp)
  · obtain ⟨fx, fy, -⟩ := push_flags config d0 c.data event hp
    obtain ⟨s1, s2, s3⟩ := stay c.data (keep c.data fx fy)
    refine ⟨s1, s2, ⟨fun hu => absurd hu s3, ?_⟩, fun _ => rfl⟩
    rintro ⟨c', hc', ht', -⟩
    rw [hc, Option.some.injEq] at hc'
    subst hc'
    exact absurd ht ht'
  · obtain ⟨fx, fy, -⟩ := push_flags config d0 c.data event hp
    have hlc : LockedY c.data := keep c.data fx fy
    have hu := update_lock_of_lockedY config c.data c.x_percent c.y_percent hlc
    rw [hrb] at hu
    by_cases hlt : c.y_percent < config.threshold - config.hysteresis
    · rw [if_pos hlt] at hu
      have hun : Unlocked (update_lock config c.data c.x_percent c.y_percent) := by
        rw [hu]
        exact ⟨hlc.1, rfl⟩
      refine ⟨Or.inr hun, ?_, ⟨fun _ => ⟨c, hc, ht, hlt⟩, fun _ => hun⟩, ?_⟩
      · intro h2
        exact absurd (hun.1.symm.trans h2.1) (by decide)
      · intro hcode
        have hxy : INPUT_REL_Y ≠ INPUT_REL_X := by decide
        simp [gate_eq, hun.1, hun.2, hcode, hxy]
    · rw [if_neg hlt] at hu
      obtain ⟨s1, s2, s3⟩ := stay c.data hlc
      simp only [hu]
      refine ⟨s1, s2, ⟨fun h => absurd h s3, ?_⟩, ?_⟩
      · rintro ⟨c', hc', -, hlt'⟩
        rw [hc, Option.some.injEq] at hc'
        subst hc'
        exact absurd hlt' hlt
      · intro hcode
        have hxy : INPUT_REL_Y ≠ INPUT_REL_X := by decide
        simp [gate_eq, hlc.1, hcode, hxy]

/-- C3: with `hysteresis ≤ threshold`, an event handled in state LockedX leaves
the state LockedX, except that it is Unlocked exactly when the event's cycle
ran and computed `x_percent < threshold - hysteresis`; it is never LockedY, and
an X event is handed on unchanged. The same holds for LockedY with
`y_percent`. -/
theorem hysteresis_release (config : zip_axis_clamper_config) (heap : Heap)
    (data : zip_axis_clamper_data) (event : input_event) (out : Outcome)
    (hh : config.hysteresis ≤ config.threshold) (hthr : config.threshold < 2 ^ 32)
    (hinit : data.initialized = true)
    (hout : sy_handle_event config heap data event = some out) :
    (LockedX data →
      (LockedX out.data ∨ Unlocked out.data) ∧ ¬ LockedY out.data ∧
      (Unlocked out.data ↔
        ∃ c, cycle config heap data event = some c ∧ c.total ≠ 0 ∧
          c.x_percent < config.threshold - config.hysteresis) ∧
      (event.code = INPUT_REL_X → out.event = event)) ∧
    (LockedY data →
      (LockedY out.data ∨ Unlocked out.data) ∧ ¬ LockedX out.data ∧
      (Unlocked out.data ↔
        ∃ c, cycle config heap data event = some c ∧ c.total ≠ 0 ∧
          c.y_percent < config.threshold - config.hysteresis) ∧
      (event.code = INPUT_REL_Y → out.event = event)) :=
  ⟨lockedX_step config heap data event out hh hthr hinit hout,
   lockedY_step config heap data event out hh hthr hinit hout⟩

/-- Every state on a run from a reachable state is reachable. -/
theorem reachable_of_run (config : zip_axis_clamper_config) (heap : Heap) :
    ∀ (evs : List input_event) (data final : zip_axis_clamper_data)
      (outs : List input_event),
      Reachable config data → run config heap data evs = some (final, outs) →
      Reachable config final := by
  intro evs
  induction evs with
  | nil =>
    intro data final outs hr h
    simp only [run, Option.some.injEq, Prod.mk.injEq] at h
    rw [← h.1]
    exact hr
  | cons e rest ih =>
    intro data final outs hr h
    unfold run at h
    cases h1 : sy_handle_event config heap data e with
    | none => simp [h1] at h
    | some out =>
      simp only [h1] at h
      cases h2 : run config heap out.data rest with
      | none => simp [h2] at h
      | some p =>
        obtain ⟨f, os⟩ := p
        simp only [h2, Option.some.injEq, Prod.mk.injEq] at h
        rw [← h.1]
        exact ih out.data f os (Reachable.event heap data e out hr h1) h2

/-- C1 (counterexample): with `N = 4`, threshold 35, hysteresis 5 the events
X 10, X 10, Y 0, Y 0, X 0, X 0, X 0, X 0 lead from the fresh instance to a state
locked to X with an all-zero X ring; a Y event of value 1 then has
`total == 0`, so the call returns at line 88: the state afterwards is LockedX,
the event is on the Y axis, and it leaves with value 1 and `sync` still set. -/
theorem suppression_skipped_when_total_zero :
    (1 ≤ scenario_config.history_size ∧ scenario_config.history_size ≤ 65535) ∧
    run scenario_config no_heap (fresh scenario_config) still_events =
      some (still_state,
        [plain_event INPUT_REL_X 10, plain_event INPUT_REL_X 10,
         plain_event INPUT_REL_Y 0, { plain_event INPUT_REL_Y 0 with sync := false },
         plain_event INPUT_REL_X 0, plain_event INPUT_REL_X 0,
         plain_event INPUT_REL_X 0, plain_event INPUT_REL_X 0]) ∧
    Reachable scenario_config still_state ∧
    sy_handle_event scenario_config no_heap still_state (plain_event INPUT_REL_Y 1) =
      some { ret := 0,
             data := { still_state with
               history1 := some [0, 0, 1, 0], y_index := 3, y_captured := 3 },
             event := plain_event INPUT_REL_Y 1 } ∧
    LockedX { still_state with history1 := some [0, 0, 1, 0], y_index := 3, y_captured := 3 } ∧
    (plain_event INPUT_REL_Y 1).code = INPUT_REL_Y ∧
    (plain_event INPUT_REL_Y 1).value = 1 ∧ (plain_event INPUT_REL_Y 1).sync = true := by
  have hrun : run scenario_config no_heap (fresh scenario_config) still_events =
      some (still_state,
        [plain_event INPUT_REL_X 10, plain_event INPUT_REL_X 10,
         plain_event INPUT_REL_Y 0, { plain_event INPUT_REL_Y 0 with sync := false },
         plain_event INPUT_REL_X 0, plain_event INPUT_REL_X 0,
         plain_event INPUT_REL_X 0, plain_event INPUT_REL_X 0]) := by decide
  refine ⟨by decide, hrun, ?_, by decide, by decide, rfl, rfl, rfl⟩
  exact reachable_of_run scenario_config no_heap still_events (fresh scenario_config)
    still_state _ Reachable.init hrun

/-- Witness of C2: with `N = 2` and threshold 50, an X event of 1 followed by a
Y event of 1 gives `x_percent = y_percent = 50`, and the state is LockedX. -/
theorem lock_acquisition_x_first_witness :
    Unlocked tie_state ∧
    cycle tie_config no_heap tie_state (plain_event INPUT_REL_Y 1) = some tie_cycle ∧
    tie_cycle.total = 2 ∧ tie_cycle.x_percent = 50 ∧ tie_cycle.y_percent = 50 ∧
    ∃ out, sy_handle_event tie_config no_heap tie_state (plain_event INPUT_REL_Y 1) =
      some out ∧ LockedX out.data :=
  ⟨by decide, by decide, by decide, by decide, by decide,
   match lock_acquisition_x_first tie_config no_heap tie_state (plain_event INPUT_REL_Y 1)
      tie_cycle (by decide) (by decide) (by decide) (by decide) with
   | ⟨out, h, _, _, _, htie⟩ => ⟨out, h, htie (by decide) (by decide)⟩⟩

/-- Witness of C3: a Y event of 93 handled in the locked scenario state computes
`x_percent = 29 < 35 - 5` and releases the lock. -/
theorem hysteresis_release_witness :
    LockedX (scenario_state 4 4) ∧
    sy_handle_event scenario_config no_heap (scenario_state 4 4)
        (plain_event INPUT_REL_Y 93) = some release_out ∧
    (y_cycle 93).x_percent = 29 ∧
    (Unlocked release_out.data ↔
      ∃ c, cycle scenario_config no_heap (scenario_state 4 4)
          (plain_event INPUT_REL_Y 93) = some c ∧ c.total ≠ 0 ∧
        c.x_percent < scenario_config.threshold - scenario_config.hysteresis) :=
  ⟨by decide, by decide, by decide,
   ((hysteresis_release scenario_config no_heap (scenario_state 4 4)
      (plain_event INPUT_REL_Y 93) release_out (by decide) (by decide) (by decide)
      (by decide)).1 (by decide)).2.2.1⟩

/-- Witness of C4: an X event of -7 handled in the locked scenario state is
handed on as it came. -/
theorem pass_through_unchanged_witness :
    sy_handle_event scenario_config no_heap (scenario_state 4 4)
        (plain_event INPUT_REL_X (-7)) = some pass_out ∧
    pass_out.event = plain_event INPUT_REL_X (-7) :=
  ⟨by decide,
   pass_through_unchanged scenario_config no_heap (scenario_state 4 4)
     (plain_event INPUT_REL_X (-7)) pass_out (by decide) (by decide) (by decide)⟩

/-! ## Totality on well-formed instances -/

/-- The summing loop reads inside both blocks and so runs to its end. -/
theorem sum_loop_some (b0 b1 : List Nat) :
    ∀ (n i x_sum y_sum : Nat), i + n ≤ b0.length → i + n ≤ b1.length →
      ∃ s, sum_loop (some b0) (some b1) n i x_sum y_sum = some s := by
  intro n
  induction n with
  | zero =>
    intro i x_sum y_sum _ _
    exact ⟨_, rfl⟩
  | succ n ih =>
    intro i x_sum y_sum h0 h1
    have l0 : i < b0.length := by omega
    have l1 : i < b1.length := by omega
    unfold sum_loop
    simp only [load, List.get?_eq_getElem?, List.getElem?_eq_getElem l0,
      List.getElem?_eq_getElem l1]
    exact ih (i + 1) _ _ (by omega) (by omega)

/-- On an allocated instance with `history_size ≤ 65535` lines 73-78 finish. -/
theorem history_sums_some (config : zip_axis_clamper_config) (data : zip_axis_clamper_data)
    (ha : Allocated config data) (hN : config.history_size ≤ 65535) :
    ∃ s, history_sums config data = some s := by
  obtain ⟨-, ⟨b0, e0, l0⟩, ⟨b1, e1, l1⟩⟩ := ha
  unfold history_sums
  rw [if_pos (by omega), e0, e1]
  exact sum_loop_some b0 b1 config.history_size 0 0 0 (by omega) (by omega)

/-- On a well-formed instance the push of an X or Y event succeeds and leaves a
well-formed instance. -/
theorem push_some (config : zip_axis_clamper_config) (data : zip_axis_clamper_data)
    (event : input_event) (hwf : WellFormed config data) (h1 : 1 ≤ config.history_size)
    (hcode : event.code = INPUT_REL_X ∨ event.code = INPUT_REL_Y) :
    ∃ d1, push config data event = some d1 ∧ WellFormed config d1 := by
  obtain ⟨⟨hi, ⟨b0, e0, l0⟩, ⟨b1, e1, l1⟩⟩, hx, hy⟩ := hwf
  have hne : config.history_size ≠ 0 := by omega
  have hpos : 0 < config.history_size := by omega
  unfold push
  by_cases hX : event.code = INPUT_REL_X
  · rw [if_pos hX, e0]
    simp only [store, l0, hx, if_true, hne, if_false]
    refine ⟨_, rfl, ⟨hi, ⟨_, rfl, ?_⟩, ⟨b1, e1, l1⟩⟩, ?_, hy⟩
    · simp [l0]
    · exact lt_of_le_of_lt (Nat.mod_le _ _) (Nat.mod_lt _ hpos)
  · have hY : event.code = INPUT_REL_Y := by
      rcases hcode with h | h
      · exact absurd h hX
      · exact h
    rw [if_neg hX, if_pos hY, e1]
    simp only [store, l1, hy, if_true, hne, if_false]
    refine ⟨_, rfl, ⟨hi, ⟨b0, e0, l0⟩, ⟨_, rfl, ?_⟩⟩, hx, ?_⟩
    · simp [l1]
    · exact lt_of_le_of_lt (Nat.mod_le _ _) (Nat.mod_lt _ hpos)

/-- The lock state machine writes the two lock flags and nothing else. -/
theorem update_lock_frame (config : zip_axis_clamper_config) (data : zip_axis_clamper_data)
    (x_percent y_percent : Nat) :
    ∃ fx fy, update_lock config data x_percent y_percent =
      { data with clamped_to_x := fx, clamped_to_y := fy } := by
  unfold update_lock
  split_ifs
  · exact ⟨true, data.clamped_to_y, rfl⟩
  · exact ⟨data.clamped_to_x, true, rfl⟩
  · exact ⟨data.clamped_to_x, data.clamped_to_y, rfl⟩
  · exact ⟨false, data.clamped_to_y, rfl⟩
  · exact ⟨data.clamped_to_x, data.clamped_to_y, rfl⟩
  · exact ⟨data.clamped_to_x, false, rfl⟩
  · exact ⟨data.clamped_to_x, data.clamped_to_y, rfl⟩
  · exact ⟨data.clamped_to_x, data.clamped_to_y, rfl⟩

/-- Well-formedness does not look at the lock flags. -/
theorem wellFormed_update_lock (config : zip_axis_clamper_config)
    (data : zip_axis_clamper_data) (x_percent y_percent : Nat)
    (h : WellFormed config data) :
    WellFormed config (update_lock config data x_percent y_percent) := by
  obtain ⟨fx, fy, e⟩ := update_lock_frame config data x_percent y_percent
  rw [e]
  exact h

/-- Clearing an allocated instance gives the fresh instance. -/
theorem clear_history_eq_fresh (config : zip_axis_clamper_config)
    (data : zip_axis_clamper_data) (ha : Allocated config data) :
    clear_history config data = some (fresh config) := by
  obtain ⟨hi, ⟨b0, e0, l0⟩, ⟨b1, e1, l1⟩⟩ := ha
  unfold clear_history
  simp only [e0, e1, memset0, l0, l1, le_refl, if_true]
  have d0 : List.drop config.history_size b0 = [] := List.drop_eq_nil_of_le (le_of_eq l0)
  have d1 : List.drop config.history_size b1 = [] := List.drop_eq_nil_of_le (le_of_eq l1)
  simp [fresh, d0, d1, hi]

/-- The fresh instance is well-formed. -/
theorem wellFormed_fresh (config : zip_axis_clamper_config) (h1 : 1 ≤ config.history_size) :
    WellFormed config (fresh config) := by
  refine ⟨⟨rfl, ⟨_, rfl, ?_⟩, ⟨_, rfl, ?_⟩⟩, ?_, ?_⟩
  · simp
  · simp
  · exact h1
  · exact h1

/-- A returning call on a well-formed instance leaves a well-formed instance. -/
theorem wellFormed_step (config : zip_axis_clamper_config) (heap : Heap)
    (data : zip_axis_clamper_data) (event : input_event) (out : Outcome)
    (h1 : 1 ≤ config.history_size) (hwf : WellFormed config data)
    (hout : sy_handle_event config heap data event = some out) :
    WellFormed config out.data := by
  obtain ⟨d0, h0, hcase⟩ := sy_handle_event_cases config heap data event out hout
  rw [ensure_init_of_initialized config heap data hwf.1.1, Option.some.injEq] at h0
  subst h0
  have hpush : ∀ d1, push config data event = some d1 → WellFormed config d1 := by
    intro d1 hp
    obtain ⟨d1', hp', hw'⟩ := push_some config data event hwf h1 (push_code config data d1 event hp)
    rw [hp, Option.some.injEq] at hp'
    rw [hp']
    exact hw'
  rcases hcase with ⟨-, -, rfl⟩ | ⟨d1, hp, -, rfl⟩ | ⟨c, -, hp, -, -, rfl⟩ |
    ⟨c, -, hp, -, -, rfl⟩
  · exact hwf
  · exact hpush d1 hp
  · exact hpush c.data hp
  · exact wellFormed_update_lock config c.data _ _ (hpush c.data hp)

/-- Every reachable state is well-formed. -/
theorem wellFormed_of_reachable (config : zip_axis_clamper_config)
    (data : zip_axis_clamper_data) (h1 : 1 ≤ config.history_size)
    (hr : Reachable config data) : WellFormed config data := by
  induction hr with
  | init => exact wellFormed_fresh config h1
  | event heap d e out _ hout ih => exact wellFormed_step config heap d e out h1 ih hout
  | decay d d' _ hc ih =>
    rw [clear_history_eq_fresh config d ih.1, Option.some.injEq] at hc
    rw [← hc]
    exact wellFormed_fresh config h1

/-- On a well-formed instance with `1 ≤ history_size ≤ 65535` a call for an X
or Y event returns unless it divides by a captured count of zero. -/
theorem sy_handle_event_total (config : zip_axis_clamper_config) (heap : Heap)
    (data : zip_axis_clamper_data) (event : input_event)
    (h1 : 1 ≤ config.history_size) (hN : config.history_size ≤ 65535)
    (hwf : WellFormed config data)
    (hcode : event.code = INPUT_REL_X ∨ event.code = INPUT_REL_Y) :
    ∃ d1, push config data event = some d1 ∧
      (warming_up config d1 = true →
        sy_handle_event config heap data event =
          some { ret := 0, data := d1, event := event }) ∧
      (warming_up config d1 = false → d1.x_captured ≠ 0 → d1.y_captured ≠ 0 →
        ∃ c, cycle config heap data event = some c ∧ c.data = d1) := by
  obtain ⟨d1, hp, hw1⟩ := push_some config data event hwf h1 hcode
  obtain ⟨s, hs⟩ := history_sums_some config d1 hw1.1 hN
  obtain ⟨x_sum, y_sum⟩ := s
  have h0 := ensure_init_of_initialized config heap data hwf.1.1
  refine ⟨d1, hp, ?_, ?_⟩
  · intro hw
    simp [sy_handle_event, h0, hcode, hp, hs, decide_and_gate, hw]
  · intro hw hx hy
    refine ⟨{ data := d1, x_sum := x_sum, y_sum := y_sum,
              x_avg := x_sum / d1.x_captured, y_avg := y_sum / d1.y_captured }, ?_, rfl⟩
    simp [cycle, h0, hp, hs, hw, average, hx, hy]

/-- C6: for an X or Y event whose push leaves a captured count below
`history_size / 2`, or whose cycle computes `total == 0`, `sy_handle_event`
returns 0, hands the event on unmodified and leaves both lock flags as they
were (the instance data is the pushed data). -/
theorem skipped_cycle_changes_nothing (config : zip_axis_clamper_config) (heap : Heap)
    (data : zip_axis_clamper_data) (event : input_event)
    (h1 : 1 ≤ config.history_size) (hN : config.history_size ≤ 65535)
    (hwf : WellFormed config data)
    (hcode : event.code = INPUT_REL_X ∨ event.code = INPUT_REL_Y) :
    ∃ d1, push config data event = some d1 ∧
      d1.clamped_to_x = data.clamped_to_x ∧ d1.clamped_to_y = data.clamped_to_y ∧
      ((d1.x_captured < config.history_size / 2 ∨ d1.y_captured < config.history_size / 2 ∨
          ∃ c, cycle config heap data event = some c ∧ c.total = 0) →
        sy_handle_event config heap data event =
          some { ret := 0, data := d1, event := event }) := by
  obtain ⟨d1, hp, hwarm, -⟩ := sy_handle_event_total config heap data event h1 hN hwf hcode
  obtain ⟨fx, fy, -⟩ := push_flags config data d1 event hp
  refine ⟨d1, hp, fx, fy, ?_⟩
  have h0 := ensure_init_of_initialized config heap data hwf.1.1
  rintro (hx | hy | ⟨c, hc, ht⟩)
  · exact hwarm (by simp [warming_up, hx])
  · exact hwarm (by simp [warming_up, hy])
  · obtain ⟨d0, h0', hp', -⟩ := cycle_inv config heap data event c hc
    rw [h0, Option.some.injEq] at h0'
    subst h0'
    rw [hp, Option.some.injEq] at hp'
    rw [sy_handle_event_of_cycle config heap data event c hc, if_pos ht, hp']

/-- Witness of C6: in `still_state` (locked to X, X ring all zero) a Y event of 1
computes `total == 0`; the call returns 0 with the event and the lock flags
untouched. -/
theorem skipped_cycle_changes_nothing_witness :
    WellFormed scenario_config still_state ∧
    cycle scenario_config no_heap still_state (plain_event INPUT_REL_Y 1) = some still_cycle ∧
    still_cycle.total = 0 ∧
    sy_handle_event scenario_config no_heap still_state (plain_event INPUT_REL_Y 1) =
      some { ret := 0, data := still_after, event := plain_event INPUT_REL_Y 1 } := by
  have hwf : WellFormed scenario_config still_state :=
    ⟨⟨rfl, ⟨_, rfl, rfl⟩, ⟨_, rfl, rfl⟩⟩, by decide, by decide⟩
  obtain ⟨d1, hp, -, -, h⟩ := skipped_cycle_changes_nothing scenario_config no_heap
    still_state (plain_event INPUT_REL_Y 1) (by decide) (by decide) hwf (by decide)
  have e : push scenario_config still_state (plain_event INPUT_REL_Y 1) = some still_after := by
    decide
  rw [e, Option.some.injEq] at hp
  subst hp
  exact ⟨hwf, by decide, by decide, h (Or.inr (Or.inr ⟨still_cycle, by decide, by decide⟩))⟩

/-! ## The warm-up invariant -/

/-- A captured count at or above `history_size / 2` stays there when it is
incremented by line 64 or 68. -/
theorem captured_step (n c : Nat) (hN : n ≤ 65535) (h : n / 2 ≤ c) :
    n / 2 ≤ CLAMP (c + 1) 0 n % 2 ^ 16 := by
  have hc : CLAMP (c + 1) 0 n = min (c + 1) n := by
    unfold CLAMP
    split_ifs <;> omega
  rw [hc]
  have hlt : min (c + 1) n < 2 ^ 16 := by
    have : min (c + 1) n ≤ n := Nat.min_le_right _ _
    omega
  rw [Nat.mod_eq_of_lt hlt]
  omega

/-- The push never takes a captured count below `history_size / 2` again. -/
theorem push_captured_mono (config : zip_axis_clamper_config)
    (data d1 : zip_axis_clamper_data) (event : input_event)
    (hN : config.history_size ≤ 65535) (h : push config data event = some d1) :
    (config.history_size / 2 ≤ data.x_captured → config.history_size / 2 ≤ d1.x_captured) ∧
    (config.history_size / 2 ≤ data.y_captured → config.history_size / 2 ≤ d1.y_captured) := by
  unfold push at h
  split at h
  · split at h
    · simp at h
    · split at h
      · simp at h
      · simp only [Option.some.injEq] at h
        subst h
        exact ⟨captured_step _ _ hN, fun hy => hy⟩
  · split at h
    · split at h
      · simp at h
      · split at h
        · simp at h
        · simp only [Option.some.injEq] at h
          subst h
          exact ⟨fun hx => hx, captured_step _ _ hN⟩
    · simp at h

/-- In every reachable state a set lock flag comes with both captured counts at
or above `history_size / 2`. -/
theorem locked_implies_captured (config : zip_axis_clamper_config)
    (data : zip_axis_clamper_data) (h1 : 1 ≤ config.history_size)
    (hN : config.history_size ≤ 65535) (hr : Reachable config data) :
    (data.clamped_to_x = true ∨ data.clamped_to_y = true) →
      config.history_size / 2 ≤ data.x_captured ∧
      config.history_size / 2 ≤ data.y_captured := by
  induction hr with
  | init =>
    intro h
    simp [fresh] at h
  | event heap d e out hr hout ih =>
    have hwf := wellFormed_of_reachable config d h1 hr
    obtain ⟨d0, h0, hcase⟩ := sy_handle_event_cases config heap d e out hout
    rw [ensure_init_of_initialized config heap d hwf.1.1, Option.some.injEq] at h0
    subst h0
    have hpush : ∀ d1, push config d e = some d1 →
        (d1.clamped_to_x = true ∨ d1.clamped_to_y = true) →
        config.history_size / 2 ≤ d1.x_captured ∧
        config.history_size / 2 ≤ d1.y_captured := by
      intro d1 hp hl
      obtain ⟨fx, fy, -⟩ := push_flags config d d1 e hp
      rw [fx, fy] at hl
      obtain ⟨mx, my⟩ := push_captured_mono config d d1 e hN hp
      exact ⟨mx (ih hl).1, my (ih hl).2⟩
    rcases hcase with ⟨-, -, rfl⟩ | ⟨d1, hp, -, rfl⟩ | ⟨c, -, hp, -, -, rfl⟩ |
      ⟨c, -, hp, hw, -, rfl⟩
    · exact ih
    · exact hpush d1 hp
    · exact hpush c.data hp
    · intro _
      obtain ⟨fx, fy, e⟩ := update_lock_frame config c.data c.x_percent c.y_percent
      simp only [e]
      simp only [warming_up, Bool.or_eq_false_iff, decide_eq_false_iff_not, Nat.not_lt] at hw
      exact hw
  | decay d d' hr hc _ =>
    have hwf := wellFormed_of_reachable config d h1 hr
    rw [clear_history_eq_fresh config d hwf.1, Option.some.injEq] at hc
    intro h
    rw [← hc] at h
    simp [fresh] at h

/-- C5: with `1 ≤ history_size ≤ 65535`, in every state reached from the fresh
instance by handled events and decay firings, a captured count below
`history_size / 2` on either axis means that the lock state is Unlocked. -/
theorem warm_up_invariant (config : zip_axis_clamper_config)
    (data : zip_axis_clamper_data) (h1 : 1 ≤ config.history_size)
    (hN : config.history_size ≤ 65535) (hr : Reachable config data)
    (hlow : data.x_captured < config.history_size / 2 ∨
      data.y_captured < config.history_size / 2) :
    Unlocked data := by
  have inv := locked_implies_captured config data h1 hN hr
  constructor
  · cases hx : data.clamped_to_x with
    | false => rfl
    | true =>
      have := inv (Or.inl hx)
      omega
  · cases hy : data.clamped_to_y with
    | false => rfl
    | true =>
      have := inv (Or.inr hy)
      omega

/-- Witness of C5: after three X events of magnitude 100 and no Y event the Y
count is 0, below `4 / 2`, and the state is Unlocked. -/
theorem warm_up_invariant_witness :
    Reachable scenario_config warm_state ∧
    (warm_state.x_captured < scenario_config.history_size / 2 ∨
      warm_state.y_captured < scenario_config.history_size / 2) ∧
    Unlocked warm_state := by
  have hrun : run scenario_config no_heap (fresh scenario_config) warm_events =
      some (warm_state, warm_events) := by decide
  have hr : Reachable scenario_config warm_state :=
    reachable_of_run scenario_config no_heap warm_events (fresh scenario_config)
      warm_state _ Reachable.init hrun
  exact ⟨hr, by decide,
    warm_up_invariant scenario_config warm_state (by decide) (by decide) hr (by decide)⟩

/-! ## Decay -/

/-- A successful `data_init` on the static data gives the fresh instance,
whatever the allocated blocks held. -/
theorem data_init_static (config : zip_axis_clamper_config) (b0 b1 : List Nat) :
    data_init config { first := some b0, second := some b1 } static_data =
      some (fresh config) := by
  have len : ∀ b : List Nat,
      ((b ++ List.replicate config.history_size 0).take config.history_size).length =
        config.history_size := by
    intro b
    simp
  have ms : ∀ b : List Nat,
      memset0 (some ((b ++ List.replicate config.history_size 0).take config.history_size))
        config.history_size = some (List.replicate config.history_size 0) := by
    intro b
    simp only [memset0, len b, le_refl, if_true]
    rw [List.drop_eq_nil_of_le (le_of_eq (len b))]
    simp
  simp only [data_init, malloc, Option.map_some', ms]
  simp [fresh, static_data]

/-- C7: on every allocated instance `clear_history` succeeds and leaves both
buffers all zero, both cursors and both captured counts 0 and the lock state
Unlocked; this is the instance a successful `data_init` produces, so every list
of events is handled after a decay firing as it is by a fresh instance: same
forwarded events, same states. -/
theorem decay_resets_to_fresh (config : zip_axis_clamper_config)
    (data : zip_axis_clamper_data) (ha : Allocated config data) :
    ∃ cleared, clear_history config data = some cleared ∧
      cleared.history0 = some (List.replicate config.history_size 0) ∧
      cleared.history1 = some (List.replicate config.history_size 0) ∧
      cleared.x_index = 0 ∧ cleared.y_index = 0 ∧
      cleared.x_captured = 0 ∧ cleared.y_captured = 0 ∧ Unlocked cleared ∧
      (∀ b0 b1, data_init config { first := some b0, second := some b1 } static_data =
        some cleared) ∧
      (∀ heap evs, run config heap cleared evs = run config heap (fresh config) evs) :=
  ⟨fresh config, clear_history_eq_fresh config data ha, rfl, rfl, rfl, rfl, rfl, rfl,
    ⟨rfl, rfl⟩, data_init_static config, fun _ _ => rfl⟩

/-- Witness of C7: the decay timer firing in the locked scenario state. -/
theorem decay_resets_to_fresh_witness :
    Allocated scenario_config (scenario_state 4 4) ∧
    LockedX (scenario_state 4 4) ∧
    clear_history scenario_config (scenario_state 4 4) = some (fresh scenario_config) ∧
    Unlocked (fresh scenario_config) := by
  have ha : Allocated scenario_config (scenario_state 4 4) :=
    ⟨rfl, ⟨_, rfl, rfl⟩, ⟨_, rfl, rfl⟩⟩
  obtain ⟨cleared, hc, -, -, -, -, -, -, hu, hi, -⟩ :=
    decay_resets_to_fresh scenario_config (scenario_state 4 4) ha
  have e := hi [] []
  rw [data_init_static, Option.some.injEq] at e
  subst e
  exact ⟨ha, by decide, hc, hu⟩

/-! ## The handler sees an event through its code and its magnitude -/

/-- The push depends on the event's code and magnitude only. -/
theorem push_congr (config : zip_axis_clamper_config) (data : zip_axis_clamper_data)
    (e e' : input_event) (hcode : e.code = e'.code)
    (hval : abs_u32 e.value = abs_u32 e'.value) :
    push config data e = push config data e' := by
  unfold push
  rw [hcode, hval]

/-- On an initialised instance the cycle depends on the event's code and
magnitude only, and not on the allocator. -/
theorem cycle_congr (config : zip_axis_clamper_config) (heap heap' : Heap)
    (data : zip_axis_clamper_data) (e e' : input_event)
    (hinit : data.initialized = true) (hcode : e.code = e'.code)
    (hval : abs_u32 e.value = abs_u32 e'.value) :
    cycle config heap data e = cycle config heap' data e' := by
  unfold cycle
  simp only [ensure_init_of_initialized config heap data hinit,
    ensure_init_of_initialized config heap' data hinit,
    push_congr config data e e' hcode hval]

/-- On an initialised instance the data a call leaves depends on the event's
code and magnitude only, and not on the allocator. -/
theorem sy_handle_event_data_congr (config : zip_axis_clamper_config) (heap heap' : Heap)
    (data : zip_axis_clamper_data) (e e' : input_event)
    (hinit : data.initialized = true) (hcode : e.code = e'.code)
    (hval : abs_u32 e.value = abs_u32 e'.value) :
    (sy_handle_event config heap data e).map Outcome.data =
      (sy_handle_event config heap' data e').map Outcome.data := by
  unfold sy_handle_event
  simp only [ensure_init_of_initialized config heap data hinit,
    ensure_init_of_initialized config heap' data hinit,
    push_congr config data e e' hcode hval, hcode]
  split_ifs
  · cases push config data e' with
    | none => rfl
    | some d1 =>
      simp only
      cases history_sums config d1 with
      | none => rfl
      | some s =>
        obtain ⟨x_sum, y_sum⟩ := s
        simp only [decide_and_gate]
        split_ifs
        · rfl
        · cases average x_sum d1.x_captured with
          | none => rfl
          | some x_avg =>
            cases average y_sum d1.y_captured with
            | none => rfl
            | some y_avg =>
              simp only
              split_ifs <;> rfl
  · rfl

/-- The magnitude stored for an event of magnitude `m < 2^32`. -/
theorem abs_u32_of_natAbs (v : Int) (m : Nat) (h : v.natAbs = m) :
    abs_u32 v = abs_u32 (m : Int) := by
  unfold abs_u32
  rw [h, Int.natAbs_ofNat]

/-- An X event of magnitude `m` is handled like the plain X event of value `m`. -/
theorem x_move_data (config : zip_axis_clamper_config) (heap : Heap)
    (data : zip_axis_clamper_data) (e : input_event) (m : Nat)
    (hinit : data.initialized = true) (he : x_move m e) :
    (sy_handle_event config heap data e).map Outcome.data =
      (sy_handle_event config no_heap data (plain_event INPUT_REL_X m)).map Outcome.data ∧
    cycle config heap data e = cycle config no_heap data (plain_event INPUT_REL_X m) :=
  ⟨sy_handle_event_data_congr config heap no_heap data e _ hinit he.1
      (abs_u32_of_natAbs e.value m he.2),
   cycle_congr config heap no_heap data e _ hinit he.1 (abs_u32_of_natAbs e.value m he.2)⟩

/-- A Y event of magnitude `m` is handled like the plain Y event of value `m`. -/
theorem y_move_data (config : zip_axis_clamper_config) (heap : Heap)
    (data : zip_axis_clamper_data) (e : input_event) (m : Nat)
    (hinit : data.initialized = true) (he : y_move m e) :
    (sy_handle_event config heap data e).map Outcome.data =
      (sy_handle_event config no_heap data (plain_event INPUT_REL_Y m)).map Outcome.data ∧
    cycle config heap data e = cycle config no_heap data (plain_event INPUT_REL_Y m) :=
  ⟨sy_handle_event_data_congr config heap no_heap data e _ hinit he.1
      (abs_u32_of_natAbs e.value m he.2),
   cycle_congr config heap no_heap data e _ hinit he.1 (abs_u32_of_natAbs e.value m he.2)⟩

/-- Handling a non-empty list of events: the first call, then the others. -/
theorem run_cons (config : zip_axis_clamper_config) (heap : Heap)
    (data : zip_axis_clamper_data) (e : input_event) (rest : List input_event) :
    run config heap data (e :: rest) =
      match sy_handle_event config heap data e with
      | none => none
      | some out =>
        match run config heap out.data rest with
        | none => none
        | some (final, outs) => some (final, out.event :: outs) := rfl

/-- Handling a list of events, then another. -/
theorem run_append (config : zip_axis_clamper_config) (heap : Heap) :
    ∀ (xs ys : List input_event) (data : zip_axis_clamper_data),
      run config heap data (xs ++ ys) =
        match run config heap data xs with
        | none => none
        | some (mid, o1) =>
          match run config heap mid ys with
          | none => none
          | some (final, o2) => some (final, o1 ++ o2) := by
  intro xs
  induction xs with
  | nil =>
    intro ys data
    simp only [List.nil_append, run]
    cases run config heap data ys with
    | none => rfl
    | some p => rfl
  | cons e rest ih =>
    intro ys data
    cases h : sy_handle_event config heap data e with
    | none => rw [List.cons_append, run_cons, run_cons, h]
    | some out =>
      have ih' := ih ys out.data
      cases h1 : run config heap out.data rest with
      | none =>
        rw [h1] at ih'
        rw [List.cons_append, run_cons, run_cons, h]
        simp only [h1, ih']
      | some p =>
        obtain ⟨mid, o1⟩ := p
        rw [h1] at ih'
        simp only at ih'
        cases h2 : run config heap mid ys with
        | none =>
          rw [h2] at ih'
          rw [List.cons_append, run_cons, run_cons, h]
          simp only [h1, h2, ih']
        | some q =>
          obtain ⟨final, o2⟩ := q
          rw [h2] at ih'
          rw [List.cons_append, run_cons, run_cons, h]
          simp only [h1, h2, ih', List.cons_append]

/-! ## The end-to-end scenario -/

/-- One X event of 10 in the scenario, by evaluation. -/
theorem scenario_step_x_plain : ∀ a : Fin 4, ∀ b : Fin 5,
    (sy_handle_event scenario_config no_heap (scenario_state a b)
      (plain_event INPUT_REL_X (10 : Nat))).map Outcome.data =
      some (scenario_state (a + 1) b) := by decide

/-- One Y event of 1 in the scenario, by evaluation. -/
theorem scenario_step_y_plain : ∀ a : Fin 5, ∀ b : Fin 4,
    (sy_handle_event scenario_config no_heap (scenario_state a b)
      (plain_event INPUT_REL_Y (1 : Nat))).map Outcome.data =
      some (scenario_state a (b + 1)) := by decide

/-- One X event of magnitude 10 in the scenario. -/
theorem scenario_step_x (heap : Heap) (a b : Nat) (e : input_event)
    (ha : a < 4) (hb : b ≤ 4) (he : x_move 10 e) :
    ∃ out, sy_handle_event scenario_config heap (scenario_state a b) e = some out ∧
      out.data = scenario_state (a + 1) b := by
  have h := (x_move_data scenario_config heap (scenario_state a b) e 10 rfl he).1
  have hp := scenario_step_x_plain ⟨a, ha⟩ ⟨b, Nat.lt_succ_of_le hb⟩
  simp only at hp
  rw [hp] at h
  cases hs : sy_handle_event scenario_config heap (scenario_state a b) e with
  | none =>
    rw [hs] at h
    exact absurd h (by simp)
  | some out =>
    rw [hs, Option.map_some', Option.some.injEq] at h
    exact ⟨out, rfl, h⟩

/-- One Y event of magnitude 1 in the scenario. -/
theorem scenario_step_y (heap : Heap) (a b : Nat) (e : input_event)
    (ha : a ≤ 4) (hb : b < 4) (he : y_move 1 e) :
    ∃ out, sy_handle_event scenario_config heap (scenario_state a b) e = some out ∧
      out.data = scenario_state a (b + 1) := by
  have h := (y_move_data scenario_config heap (scenario_state a b) e 1 rfl he).1
  have hp := scenario_step_y_plain ⟨a, Nat.lt_succ_of_le ha⟩ ⟨b, hb⟩
  simp only at hp
  rw [hp] at h
  cases hs : sy_handle_event scenario_config heap (scenario_state a b) e with
  | none =>
    rw [hs] at h
    exact absurd h (by simp)
  | some out =>
    rw [hs, Option.map_some', Option.some.injEq] at h
    exact ⟨out, rfl, h⟩

/-- An event on the X axis is counted by `count_x`, not by `count_y`. -/
theorem count_cons_x (e : input_event) (rest : List input_event) (m : Nat)
    (he : x_move m e) :
    count_x (e :: rest) = count_x rest + 1 ∧ count_y (e :: rest) = count_y rest := by
  have hx : e.code = INPUT_REL_X := he.1
  have hy : ¬ e.code = INPUT_REL_Y := by
    rw [hx]
    decide
  have hxy : ¬ INPUT_REL_X = INPUT_REL_Y := by decide
  simp [count_x, count_y, List.countP_cons, hx, hxy]

/-- An event on the Y axis is counted by `count_y`, not by `count_x`. -/
theorem count_cons_y (e : input_event) (rest : List input_event) (m : Nat)
    (he : y_move m e) :
    count_x (e :: rest) = count_x rest ∧ count_y (e :: rest) = count_y rest + 1 := by
  have hy : e.code = INPUT_REL_Y := he.1
  have hx : ¬ e.code = INPUT_REL_X := by
    rw [hy]
    decide
  have hyx : ¬ INPUT_REL_Y = INPUT_REL_X := by decide
  simp [count_x, count_y, List.countP_cons, hy, hyx]

/-- Any mix of X events of magnitude 10 and Y events of magnitude 1, at most four
of each, takes the scenario from `scenario_state a b` to the state that counts
the events of each axis. -/
theorem run_scenario (heap : Heap) :
    ∀ (evs : List input_event) (a b : Nat),
      (∀ e ∈ evs, x_move 10 e ∨ y_move 1 e) →
      a + count_x evs ≤ 4 → b + count_y evs ≤ 4 →
      (run scenario_config heap (scenario_state a b) evs).map Prod.fst =
        some (scenario_state (a + count_x evs) (b + count_y evs)) := by
  intro evs
  induction evs with
  | nil =>
    intro a b _ _ _
    simp [run, count_x, count_y]
  | cons e rest ih =>
    intro a b hall ha hb
    have hrest : ∀ e' ∈ rest, x_move 10 e' ∨ y_move 1 e' := fun e' he' =>
      hall e' (List.mem_cons_of_mem e he')
    rcases hall e (List.mem_cons_self e rest) with he | he
    · obtain ⟨cx, cy⟩ := count_cons_x e rest 10 he
      rw [cx] at ha
      rw [cy] at hb
      obtain ⟨out, ho, hd⟩ := scenario_step_x heap a b e (by omega) (by omega) he
      have hi := ih (a + 1) b hrest (by omega) hb
      rw [run_cons, ho, cx, cy]
      simp only [hd]
      cases hr : run scenario_config heap (scenario_state (a + 1) b) rest with
      | none =>
        rw [hr] at hi
        exact absurd hi (by simp)
      | some p =>
        rw [hr] at hi
        simp only [Option.map_some', Option.some.injEq] at hi ⊢
        rw [hi]
        congr 1
        omega
    · obtain ⟨cx, cy⟩ := count_cons_y e rest 1 he
      rw [cx] at ha
      rw [cy] at hb
      obtain ⟨out, ho, hd⟩ := scenario_step_y heap a b e (by omega) (by omega) he
      have hi := ih a (b + 1) hrest ha (by omega)
      rw [run_cons, ho, cx, cy]
      simp only [hd]
      cases hr : run scenario_config heap (scenario_state a (b + 1)) rest with
      | none =>
        rw [hr] at hi
        exact absurd hi (by simp)
      | some p =>
        rw [hr] at hi
        simp only [Option.map_some', Option.some.injEq] at hi ⊢
        rw [hi]
        congr 1
        omega

/-- Every interleaving of the scenario ends in `scenario_state 4 4`. -/
theorem run_interleaving (heap : Heap) (evs : List input_event) (h : Interleaving evs) :
    (run scenario_config heap (fresh scenario_config) evs).map Prod.fst =
      some (scenario_state 4 4) := by
  obtain ⟨hall, hx, hy⟩ := h
  have hr := run_scenario heap evs 0 0 hall (by omega) (by omega)
  rw [hx, hy] at hr
  exact hr

/-- The cycle of a Y event of magnitude `m` handled in the locked scenario state. -/
theorem y_cycle_eq (m : Nat) (hm : m ≤ 2 ^ 31) :
    cycle scenario_config no_heap (scenario_state 4 4) (plain_event INPUT_REL_Y (m : Int)) =
      some (y_cycle m) := by
  have h1 : m % 4294967296 = m := Nat.mod_eq_of_lt (by omega)
  have h2 : (m + 1) % 4294967296 = m + 1 := Nat.mod_eq_of_lt (by omega)
  have h3 : (m + 1 + 1) % 4294967296 = m + 1 + 1 := Nat.mod_eq_of_lt (by omega)
  have h4 : (m + 1 + 1 + 1) % 4294967296 = m + 3 := Nat.mod_eq_of_lt (by omega)
  simp [cycle, ensure_init, scenario_state, push, plain_event, INPUT_REL_X, INPUT_REL_Y, store,
    abs_u32, history_sums, scenario_config, sum_loop, load, warming_up, average, CLAMP, y_cycle,
    h1, h2, h3, h4]

/-- The state part of a run over two lists, one after the other. -/
theorem run_append_state (config : zip_axis_clamper_config) (heap : Heap)
    (xs ys : List input_event) (data mid : zip_axis_clamper_data)
    (h : (run config heap data xs).map Prod.fst = some mid) :
    (run config heap data (xs ++ ys)).map Prod.fst =
      (run config heap mid ys).map Prod.fst := by
  rw [run_append]
  cases hr : run config heap data xs with
  | none =>
    rw [hr] at h
    exact absurd h (by simp)
  | some p =>
    obtain ⟨mid', o1⟩ := p
    rw [hr, Option.map_some', Option.some.injEq] at h
    simp only at h
    subst h
    simp only
    cases run config heap mid' ys with
    | none => rfl
    | some q => rfl

/-- The eighth event of an interleaving, by evaluation. -/
theorem last_cycle_plain :
    cycle scenario_config no_heap (scenario_state 3 4) (plain_event INPUT_REL_X (10 : Nat)) =
      some lock_cycle ∧
    cycle scenario_config no_heap (scenario_state 4 3) (plain_event INPUT_REL_Y (1 : Nat)) =
      some lock_cycle := by decide

/-- C8: with `N = 4`, threshold 35, hysteresis 5, every interleaving of four X
events of magnitude 10 (value 10 or -10) and four Y events of magnitude 1 takes
the fresh instance to a LockedX state, and the cycle of the eighth event
computes `x_avg = 10`, `y_avg = 1`, `total = 11` and `x_percent = 90`. -/
theorem end_to_end_lock (heap : Heap) (evs : List input_event) (h : Interleaving evs) :
    (run scenario_config heap (fresh scenario_config) evs).map Prod.fst =
      some (scenario_state 4 4) ∧
    LockedX (scenario_state 4 4) ∧
    ∃ pre last before c, evs = pre ++ [last] ∧
      (run scenario_config heap (fresh scenario_config) pre).map Prod.fst = some before ∧
      cycle scenario_config heap before last = some c ∧
      c.x_avg = 10 ∧ c.y_avg = 1 ∧ c.total = 11 ∧ c.x_percent = 90 := by
  refine ⟨run_interleaving heap evs h, by decide, ?_⟩
  obtain ⟨hall, hx, hy⟩ := h
  rcases List.eq_nil_or_concat evs with hnil | ⟨pre, last, hcat⟩
  · rw [hnil] at hx
    simp [count_x] at hx
  · rw [List.concat_eq_append] at hcat
    subst hcat
    have hpre : ∀ e ∈ pre, x_move 10 e ∨ y_move 1 e := fun e he =>
      hall e (List.mem_append_left _ he)
    have hlast : x_move 10 last ∨ y_move 1 last :=
      hall last (List.mem_append_right _ (List.mem_singleton_self last))
    have cxa : count_x (pre ++ [last]) = count_x pre + count_x [last] := by
      simp [count_x, List.countP_append]
    have cya : count_y (pre ++ [last]) = count_y pre + count_y [last] := by
      simp [count_y, List.countP_append]
    rw [cxa] at hx
    rw [cya] at hy
    rcases hlast with he | he
    · obtain ⟨c1, c2⟩ := count_cons_x last [] 10 he
      have z1 : count_x ([] : List input_event) = 0 := rfl
      have z2 : count_y ([] : List input_event) = 0 := rfl
      rw [c1, z1] at hx
      rw [c2, z2] at hy
      have hr := run_scenario heap pre 0 0 hpre (by omega) (by omega)
      have e3 : 0 + count_x pre = 3 := by omega
      have e4 : 0 + count_y pre = 4 := by omega
      rw [e3, e4] at hr
      refine ⟨pre, last, scenario_state 3 4, lock_cycle, rfl, hr, ?_, rfl, rfl, by decide,
        by decide⟩
      rw [(x_move_data scenario_config heap (scenario_state 3 4) last 10 rfl he).2]
      exact last_cycle_plain.1
    · obtain ⟨c1, c2⟩ := count_cons_y last [] 1 he
      have z1 : count_x ([] : List input_event) = 0 := rfl
      have z2 : count_y ([] : List input_event) = 0 := rfl
      rw [c1, z1] at hx
      rw [c2, z2] at hy
      have hr := run_scenario heap pre 0 0 hpre (by omega) (by omega)
      have e3 : 0 + count_x pre = 4 := by omega
      have e4 : 0 + count_y pre = 3 := by omega
      rw [e3, e4] at hr
      refine ⟨pre, last, scenario_state 4 3, lock_cycle, rfl, hr, ?_, rfl, rfl, by decide,
        by decide⟩
      rw [(y_move_data scenario_config heap (scenario_state 4 3) last 1 rfl he).2]
      exact last_cycle_plain.2

/-- Witness of C8: the alternating interleaving with mixed signs. -/
theorem end_to_end_lock_witness :
    Interleaving scenario_events ∧
    (run scenario_config no_heap (fresh scenario_config) scenario_events).map Prod.fst =
      some (scenario_state 4 4) ∧
    LockedX (scenario_state 4 4) :=
  ⟨by decide,
   (end_to_end_lock no_heap scenario_events (by decide)).1,
   (end_to_end_lock no_heap scenario_events (by decide)).2.1⟩

/-- C9 (counterexample): after the alternating interleaving has locked the X
axis, a Y event of value 93 gives `y_avg = 24`, `total = 34` and
`x_percent = 29 < 30`: the lock is released and the event leaves with value 93
and `sync` still set. -/
theorem large_y_event_not_suppressed :
    Interleaving scenario_events ∧
    (run scenario_config no_heap (fresh scenario_config) scenario_events).map Prod.fst =
      some (scenario_state 4 4) ∧
    LockedX (scenario_state 4 4) ∧
    cycle scenario_config no_heap (scenario_state 4 4) (plain_event INPUT_REL_Y 93) =
      some (y_cycle 93) ∧
    (y_cycle 93).y_avg = 24 ∧ (y_cycle 93).total = 34 ∧ (y_cycle 93).x_percent = 29 ∧
    sy_handle_event scenario_config no_heap (scenario_state 4 4)
      (plain_event INPUT_REL_Y 93) = some release_out ∧
    release_out.event.value = 93 ∧ release_out.event.sync = true ∧
    Unlocked release_out.data := by decide

/-- C9 (amended): after any interleaving of the scenario has locked the X axis,
a further Y event of value `v` is suppressed (value 0, `sync = false`, state
still LockedX) whenever `|v| ≤ 92`; for `93 ≤ |v| ≤ 2^31` its cycle computes
`x_percent < 30`, the lock is released and the event is handed on unchanged. -/
theorem end_to_end_suppression (heap : Heap) (evs : List input_event) (e : input_event)
    (h : Interleaving evs) (hy : e.code = INPUT_REL_Y) :
    (run scenario_config heap (fresh scenario_config) evs).map Prod.fst =
      some (scenario_state 4 4) ∧
    LockedX (scenario_state 4 4) ∧
    (e.value.natAbs ≤ 92 →
      ∃ out, sy_handle_event scenario_config heap (scenario_state 4 4) e = some out ∧
        out.event.value = 0 ∧ out.event.sync = false ∧ LockedX out.data) ∧
    (93 ≤ e.value.natAbs → e.value.natAbs ≤ 2 ^ 31 →
      ∃ out, sy_handle_event scenario_config heap (scenario_state 4 4) e = some out ∧
        out.event = e ∧ Unlocked out.data) := by
  refine ⟨run_interleaving heap evs h, by decide, ?_, ?_⟩
  · intro hm
    have hc : cycle scenario_config heap (scenario_state 4 4) e =
        some (y_cycle e.value.natAbs) := by
      rw [(y_move_data scenario_config heap (scenario_state 4 4) e _ rfl ⟨hy, rfl⟩).2]
      exact y_cycle_eq _ (by omega)
    have hl : LockedX (y_cycle e.value.natAbs).data := ⟨rfl, rfl⟩
    have htot : (y_cycle e.value.natAbs).total = 10 + (e.value.natAbs + 3) / 4 := by
      simp only [Cycle.total, total_of, y_cycle]
      exact Nat.mod_eq_of_lt (by omega)
    have hxp : ¬ (y_cycle e.value.natAbs).x_percent < release_bound scenario_config := by
      have hb : release_bound scenario_config = 30 := by decide
      have hx : (y_cycle e.value.natAbs).x_percent =
          1000 / (10 + (e.value.natAbs + 3) / 4) := by
        unfold Cycle.x_percent percent_of
        rw [htot]
        have hten : (y_cycle e.value.natAbs).x_avg = 10 := rfl
        rw [hten]
        have hk : 10 * 100 % 2 ^ 32 = 1000 := by norm_num
        rw [hk]
      rw [hb, Nat.not_lt, hx]
      exact (Nat.le_div_iff_mul_le (by omega)).mpr (by omega)
    rw [sy_handle_event_of_cycle scenario_config heap _ e _ hc,
      if_neg (by rw [htot]; omega),
      update_lock_of_lockedX scenario_config _ _ _ hl, if_neg hxp]
    refine ⟨_, rfl, ?_, ?_, hl⟩
    · simp [gate_eq, hl.1, hy]
    · simp [gate_eq, hl.1, hy]
  · intro hlo hhi
    have hc : cycle scenario_config heap (scenario_state 4 4) e =
        some (y_cycle e.value.natAbs) := by
      rw [(y_move_data scenario_config heap (scenario_state 4 4) e _ rfl ⟨hy, rfl⟩).2]
      exact y_cycle_eq _ hhi
    have hl : LockedX (y_cycle e.value.natAbs).data := ⟨rfl, rfl⟩
    have htot : (y_cycle e.value.natAbs).total = 10 + (e.value.natAbs + 3) / 4 := by
      simp only [Cycle.total, total_of, y_cycle]
      exact Nat.mod_eq_of_lt (by omega)
    have hxp : (y_cycle e.value.natAbs).x_percent < release_bound scenario_config := by
      have hb : release_bound scenario_config = 30 := by decide
      have hx : (y_cycle e.value.natAbs).x_percent =
          1000 / (10 + (e.value.natAbs + 3) / 4) := by
        unfold Cycle.x_percent percent_of
        rw [htot]
        have hten : (y_cycle e.value.natAbs).x_avg = 10 := rfl
        rw [hten]
        have hk : 10 * 100 % 2 ^ 32 = 1000 := by norm_num
        rw [hk]
      rw [hb, hx]
      exact (Nat.div_lt_iff_lt_mul (by omega)).mpr (by omega)
    rw [sy_handle_event_of_cycle scenario_config heap _ e _ hc,
      if_neg (by rw [htot]; omega),
      update_lock_of_lockedX scenario_config _ _ _ hl, if_pos hxp]
    refine ⟨_, rfl, ?_, ⟨rfl, rfl⟩⟩
    have hyx : ¬ INPUT_REL_Y = INPUT_REL_X := by decide
    simp [gate_eq, hl.2, hy, hyx]

/-- Witness of C9 (amended): after the alternating interleaving a Y event of
value -92 is suppressed. -/
theorem end_to_end_suppression_witness :
    Interleaving scenario_events ∧
    (plain_event INPUT_REL_Y (-92)).code = INPUT_REL_Y ∧
    (plain_event INPUT_REL_Y (-92)).value.natAbs ≤ 92 ∧
    ∃ out, sy_handle_event scenario_config no_heap (scenario_state 4 4)
        (plain_event INPUT_REL_Y (-92)) = some out ∧
      out.event.value = 0 ∧ out.event.sync = false ∧ LockedX out.data :=
  ⟨by decide, rfl, by decide,
   (end_to_end_suppression no_heap scenario_events (plain_event INPUT_REL_Y (-92))
     (by decide) rfl).2.2.1 (by decide)⟩

/-! ## The release scenario -/

/-- On an initialised instance the handler does not look at the allocator. -/
theorem sy_handle_event_heap (config : zip_axis_clamper_config) (heap heap' : Heap)
    (data : zip_axis_clamper_data) (e : input_event) (hinit : data.initialized = true) :
    sy_handle_event config heap data e = sy_handle_event config heap' data e := by
  unfold sy_handle_event
  rw [ensure_init_of_initialized config heap data hinit,
    ensure_init_of_initialized config heap' data hinit]

/-- A returning call leaves an initialised instance initialised. -/
theorem initialized_step (config : zip_axis_clamper_config) (heap : Heap)
    (data : zip_axis_clamper_data) (e : input_event) (out : Outcome)
    (hinit : data.initialized = true)
    (hout : sy_handle_event config heap data e = some out) :
    out.data.initialized = true := by
  obtain ⟨d0, h0, hcase⟩ := sy_handle_event_cases config heap data e out hout
  rw [ensure_init_of_initialized config heap data hinit, Option.some.injEq] at h0
  subst h0
  rcases hcase with ⟨-, -, rfl⟩ | ⟨d1, hp, -, rfl⟩ | ⟨c, -, hp, -, -, rfl⟩ |
    ⟨c, -, hp, -, -, rfl⟩
  · exact hinit
  · exact (push_flags config data d1 e hp).2.2.trans hinit
  · exact (push_flags config data c.data e hp).2.2.trans hinit
  · obtain ⟨fx, fy, he⟩ := update_lock_frame config c.data c.x_percent c.y_percent
    simp only [he]
    exact (push_flags config data c.data e hp).2.2.trans hinit

/-- A run from an initialised instance does not look at the allocator. -/
theorem run_heap (config : zip_axis_clamper_config) (heap heap' : Heap) :
    ∀ (evs : List input_event) (data : zip_axis_clamper_data),
      data.initialized = true → run config heap data evs = run config heap' data evs := by
  intro evs
  induction evs with
  | nil =>
    intro data _
    rfl
  | cons e rest ih =>
    intro data hinit
    rw [run_cons, run_cons, sy_handle_event_heap config heap heap' data e hinit]
    cases hs : sy_handle_event config heap' data e with
    | none => rfl
    | some out =>
      simp only
      rw [ih out.data (initialized_step config heap' data e out hinit hs)]

/-- One X event of 1 after the lock, by evaluation: the state stays LockedX and
the cycle computes `x_percent ≥ 50`. -/
theorem drift_one_plain : ∀ f : Fin 5, ∀ i : Fin 4, ((f : Nat) < 4 → (i : Nat) = f) →
    (sy_handle_event scenario_config no_heap (drift_state 1 f i true)
        (plain_event INPUT_REL_X (1 : Nat))).map Outcome.data =
      some (drift_state 1 (min (f + 1) 4) ((i + 1) % 4) true) ∧
    (cycle scenario_config no_heap (drift_state 1 f i true)
        (plain_event INPUT_REL_X (1 : Nat))).map
      (fun c => decide (c.total ≠ 0 ∧ 50 ≤ c.x_percent)) = some true := by decide

/-- X events of 0 after the lock, by evaluation: the state after `k` of them, up
to four, and the `x_percent` the next one computes. -/
theorem drift_zero_plain :
    (∀ k : Fin 5,
      (run scenario_config no_heap (scenario_state 4 4)
          (List.replicate k (plain_event INPUT_REL_X 0))).map Prod.fst =
        some (drift_state 0 k (k % 4) (decide ((k : Nat) < 4)))) ∧
    (∀ k : Fin 4,
      (cycle scenario_config no_heap (drift_state 0 k (k % 4) true)
          (plain_event INPUT_REL_X 0)).map (fun c => (c.total, c.x_percent)) =
        some ([(8, 87), (6, 83), (3, 66), (1, 0)].getD k (0, 0))) := by decide

/-- Any number of X events of magnitude 1 after the lock leaves the scenario in
one of the states `drift_state 1 f i true`. -/
theorem run_drift_one (heap : Heap) :
    ∀ (xs : List input_event) (f i : Nat),
      (∀ e ∈ xs, x_move 1 e) → f ≤ 4 → i < 4 → (f < 4 → i = f) →
      ∃ f' i', f' ≤ 4 ∧ i' < 4 ∧ (f' < 4 → i' = f') ∧
        (run scenario_config heap (drift_state 1 f i true) xs).map Prod.fst =
          some (drift_state 1 f' i' true) := by
  intro xs
  induction xs with
  | nil =>
    intro f i _ hf hi hfi
    exact ⟨f, i, hf, hi, hfi, rfl⟩
  | cons e rest ih =>
    intro f i hall hf hi hfi
    have he : x_move 1 e := hall e (List.mem_cons_self e rest)
    have hrest : ∀ e' ∈ rest, x_move 1 e' := fun e' he' =>
      hall e' (List.mem_cons_of_mem e he')
    have hd := (x_move_data scenario_config heap (drift_state 1 f i true) e 1 rfl he).1
    have hp := (drift_one_plain ⟨f, Nat.lt_succ_of_le hf⟩ ⟨i, hi⟩ hfi).1
    simp only at hp
    rw [hp] at hd
    cases hs : sy_handle_event scenario_config heap (drift_state 1 f i true) e with
    | none =>
      rw [hs] at hd
      exact absurd hd (by simp)
    | some out =>
      rw [hs, Option.map_some', Option.some.injEq] at hd
      obtain ⟨f', i', hf', hi', hfi', hr⟩ := ih (min (f + 1) 4) ((i + 1) % 4) hrest
        (Nat.min_le_right _ _) (Nat.mod_lt _ (by omega)) (by omega)
      refine ⟨f', i', hf', hi', hfi', ?_⟩
      rw [run_cons, hs]
      simp only [hd]
      cases hr' : run scenario_config heap
          (drift_state 1 (min (f + 1) 4) ((i + 1) % 4) true) rest with
      | none =>
        rw [hr'] at hr
        exact absurd hr (by simp)
      | some p =>
        rw [hr'] at hr
        simpa using hr

/-- C10 (counterexample): after the alternating interleaving has locked the X
axis, no number `k ≥ 1` of further X events of value 1 ends in Unlocked: the
claimed release never comes. -/
theorem magnitude_one_never_releases :
    Interleaving scenario_events ∧
    ¬ ∃ k, 1 ≤ k ∧ ∃ final,
      (run scenario_config no_heap (fresh scenario_config)
        (scenario_events ++ List.replicate k (plain_event INPUT_REL_X 1))).map Prod.fst =
        some final ∧ Unlocked final := by
  refine ⟨by decide, ?_⟩
  rintro ⟨k, -, final, hrun, hu⟩
  rw [run_append_state scenario_config no_heap scenario_events _ (fresh scenario_config)
    (scenario_state 4 4) (run_interleaving no_heap scenario_events (by decide))] at hrun
  have hall : ∀ e ∈ List.replicate k (plain_event INPUT_REL_X 1), x_move 1 e := by
    intro e he
    rw [List.eq_of_mem_replicate he]
    decide
  obtain ⟨f', i', -, -, -, hr⟩ := run_drift_one no_heap _ 0 0 hall (by omega) (by omega)
    (fun _ => rfl)
  have hs : scenario_state 4 4 = drift_state 1 0 0 true := by decide
  rw [hs, hr, Option.some.injEq] at hrun
  rw [← hrun] at hu
  exact absurd hu.1 (by simp [drift_state])

/-- C10 (amended): from the LockedX state that any interleaving of the scenario
reaches, the state is LockedX after every one of any number of further X events
of magnitude 1, and each of them computes `x_percent ≥ 50`, never below 30.
With further X events of value 0 the state is LockedX after the first three,
whose cycles compute `x_percent` 87, 83 and 66, and Unlocked after the fourth,
which is the first to compute an `x_percent` below 30 (it computes 0). -/
theorem release_scenario (heap : Heap) (evs : List input_event) (h : Interleaving evs) :
    (run scenario_config heap (fresh scenario_config) evs).map Prod.fst =
      some (scenario_state 4 4) ∧
    LockedX (scenario_state 4 4) ∧
    (∀ xs, (∀ e ∈ xs, x_move 1 e) →
      ∃ final, (run scenario_config heap (scenario_state 4 4) xs).map Prod.fst = some final ∧
        LockedX final ∧
        ∀ e, x_move 1 e →
          ∃ c, cycle scenario_config heap final e = some c ∧ c.total ≠ 0 ∧
            50 ≤ c.x_percent) ∧
    (∀ k, k < 4 →
      ∃ d c, (run scenario_config heap (scenario_state 4 4)
          (List.replicate k (plain_event INPUT_REL_X 0))).map Prod.fst = some d ∧
        LockedX d ∧
        cycle scenario_config heap d (plain_event INPUT_REL_X 0) = some c ∧ c.total ≠ 0 ∧
        (k < 3 → 30 ≤ c.x_percent) ∧ (k = 3 → c.x_percent = 0)) ∧
    (∃ d, (run scenario_config heap (scenario_state 4 4)
        (List.replicate 4 (plain_event INPUT_REL_X 0))).map Prod.fst = some d ∧
      Unlocked d) := by
  refine ⟨run_interleaving heap evs h, by decide, ?_, ?_, ?_⟩
  · intro xs hall
    have hs : scenario_state 4 4 = drift_state 1 0 0 true := by decide
    obtain ⟨f', i', hf', hi', hfi', hr⟩ := run_drift_one heap xs 0 0 hall (by omega)
      (by omega) (fun _ => rfl)
    rw [← hs] at hr
    refine ⟨_, hr, ⟨rfl, rfl⟩, ?_⟩
    intro e he
    rw [(x_move_data scenario_config heap (drift_state 1 f' i' true) e 1 rfl he).2]
    have hp := (drift_one_plain ⟨f', Nat.lt_succ_of_le hf'⟩ ⟨i', hi'⟩ hfi').2
    simp only at hp
    cases hc : cycle scenario_config no_heap (drift_state 1 f' i' true)
        (plain_event INPUT_REL_X (1 : Nat)) with
    | none =>
      rw [hc] at hp
      exact absurd hp (by simp)
    | some c =>
      rw [hc, Option.map_some', Option.some.injEq, decide_eq_true_eq] at hp
      exact ⟨c, rfl, hp.1, hp.2⟩
  · intro k hk
    have hr := drift_zero_plain.1 ⟨k, by omega⟩
    have hc := drift_zero_plain.2 ⟨k, hk⟩
    simp only at hr hc
    rw [Nat.mod_eq_of_lt hk] at hr hc
    rw [decide_eq_true hk] at hr
    rw [run_heap scenario_config heap no_heap _ _ rfl]
    have hh := cycle_congr scenario_config heap no_heap (drift_state 0 k k true)
      (plain_event INPUT_REL_X 0) (plain_event INPUT_REL_X 0) rfl rfl rfl
    cases hcy : cycle scenario_config no_heap (drift_state 0 k k true)
        (plain_event INPUT_REL_X 0) with
    | none =>
      rw [hcy] at hc
      exact absurd hc (by simp)
    | some c =>
      rw [hcy, Option.map_some', Option.some.injEq, Prod.mk.injEq] at hc
      refine ⟨_, c, hr, ⟨rfl, rfl⟩, hh.trans hcy, ?_, ?_, ?_⟩
      · rw [hc.1]
        interval_cases k <;> decide
      · intro hk3
        rw [hc.2]
        interval_cases k <;> decide
      · intro hk3
        subst hk3
        rw [hc.2]
        decide
  · have hr := drift_zero_plain.1 ⟨4, by omega⟩
    simp only at hr
    rw [run_heap scenario_config heap no_heap _ _ rfl]
    exact ⟨_, hr, by decide⟩

/-- Witness of C10 (amended): after the alternating interleaving, four further X
events of value 0 release the lock. -/
theorem release_scenario_witness :
    Interleaving scenario_events ∧
    ∃ d, (run scenario_config no_heap (scenario_state 4 4)
        (List.replicate 4 (plain_event INPUT_REL_X 0))).map Prod.fst = some d ∧
      Unlocked d :=
  ⟨by decide, (release_scenario no_heap scenario_events (by decide)).2.2.2.2⟩

/-! ## The output gate on reachable states -/

/-- The state part of a run from a reachable state is reachable. -/
theorem reachable_of_run_state (config : zip_axis_clamper_config) (heap : Heap)
    (evs : List input_event) (data final : zip_axis_clamper_data)
    (hr : Reachable config data)
    (h : (run config heap data evs).map Prod.fst = some final) :
    Reachable config final := by
  cases hrun : run config heap data evs with
  | none =>
    rw [hrun] at h
    exact absurd h (by simp)
  | some p =>
    obtain ⟨d, outs⟩ := p
    rw [hrun, Option.map_some', Option.some.injEq] at h
    simp only at h
    subst h
    exact reachable_of_run config heap evs data d outs hr hrun

/-- C1 (amended): for every configuration with `1 ≤ history_size ≤ 65535`, every
reachable state and every incoming event whose call does not return at the
`total == 0` check of line 88: if the lock state after `sy_handle_event` is
LockedX (`clamped_to_x`) and the event is on the Y axis, the event leaves with
value 0 and `sync = false`; likewise for LockedY and an X event. -/
theorem gate_suppresses_unless_total_zero (config : zip_axis_clamper_config) (heap : Heap)
    (data : zip_axis_clamper_data) (event : input_event) (out : Outcome)
    (h1 : 1 ≤ config.history_size) (hN : config.history_size ≤ 65535)
    (hr : Reachable config data)
    (hout : sy_handle_event config heap data event = some out)
    (hnz : ∀ c, cycle config heap data event = some c → c.total ≠ 0) :
    (out.data.clamped_to_x = true → event.code = INPUT_REL_Y →
      out.event.value = 0 ∧ out.event.sync = false) ∧
    (out.data.clamped_to_y = true → event.code = INPUT_REL_X →
      out.event.value = 0 ∧ out.event.sync = false) := by
  have hro : Reachable config out.data := Reachable.event heap data event out hr hout
  have inv := locked_implies_captured config out.data h1 hN hro
  obtain ⟨d0, -, hcase⟩ := sy_handle_event_cases config heap data event out hout
  rcases hcase with ⟨hnx, hny, -⟩ | ⟨d1, -, hw, rfl⟩ | ⟨c, hc, -, -, ht, -⟩ |
    ⟨c, -, -, -, -, rfl⟩
  · exact ⟨fun _ hy => absurd hy hny, fun _ hx => absurd hx hnx⟩
  · have hlow : d1.x_captured < config.history_size / 2 ∨
        d1.y_captured < config.history_size / 2 := by
      simpa [warming_up] using hw
    constructor
    · intro hx _
      have h2 := inv (Or.inl hx)
      simp only at h2
      exfalso
      omega
    · intro hy _
      have h2 := inv (Or.inr hy)
      simp only at h2
      exfalso
      omega
  · exact absurd ht (hnz c hc)
  · constructor
    · intro hx hcode
      simp only at hx
      simp [gate_eq, hx, hcode]
    · intro hy hcode
      simp only at hy
      simp [gate_eq, hy, hcode]

/-- Witness of C1 (amended): a Y event of 5 handled in the locked scenario state
runs its cycle with `total = 12` and is suppressed. -/
theorem gate_suppresses_unless_total_zero_witness :
    Reachable scenario_config (scenario_state 4 4) ∧
    sy_handle_event scenario_config no_heap (scenario_state 4 4)
      (plain_event INPUT_REL_Y 5) = some suppress_out ∧
    (y_cycle 5).total = 12 ∧
    suppress_out.data.clamped_to_x = true ∧
    suppress_out.event.value = 0 ∧ suppress_out.event.sync = false := by
  have hr : Reachable scenario_config (scenario_state 4 4) :=
    reachable_of_run_state scenario_config no_heap scenario_events (fresh scenario_config)
      _ Reachable.init (run_interleaving no_heap scenario_events (by decide))
  have hc : cycle scenario_config no_heap (scenario_state 4 4) (plain_event INPUT_REL_Y 5) =
      some (y_cycle 5) := by decide
  have hnz : ∀ c, cycle scenario_config no_heap (scenario_state 4 4)
      (plain_event INPUT_REL_Y 5) = some c → c.total ≠ 0 := by
    intro c h
    rw [hc, Option.some.injEq] at h
    rw [← h]
    decide
  have hs := (gate_suppresses_unless_total_zero scenario_config no_heap (scenario_state 4 4)
    (plain_event INPUT_REL_Y 5) suppress_out (by decide) (by decide) hr (by decide) hnz).1
    (by decide) rfl
  exact ⟨hr, by decide, by decide, by decide, hs.1, hs.2⟩

/-! ## The instance before its first event -/

/-- The first call on the static instance, when both allocations succeed, is the
same call on the fresh instance. -/
theorem sy_handle_event_static (config : zip_axis_clamper_config) (b0 b1 : List Nat)
    (e : input_event) :
    sy_handle_event config { first := some b0, second := some b1 } static_data e =
      sy_handle_event config { first := some b0, second := some b1 } (fresh config) e := by
  have h1 : ensure_init config { first := some b0, second := some b1 } static_data =
      some (fresh config) := by
    have hs : static_data.initialized = false := rfl
    unfold ensure_init
    rw [if_pos hs]
    exact data_init_static config b0 b1
  have h2 : ensure_init config { first := some b0, second := some b1 } (fresh config) =
      some (fresh config) := ensure_init_of_initialized _ _ _ rfl
  unfold sy_handle_event
  rw [h1, h2]

/-- A non-empty run from the static instance, when both allocations succeed, is
the run from the fresh instance. -/
theorem run_static (config : zip_axis_clamper_config) (b0 b1 : List Nat)
    (e : input_event) (rest : List input_event) :
    run config { first := some b0, second := some b1 } static_data (e :: rest) =
      run config { first := some b0, second := some b1 } (fresh config) (e :: rest) := by
  rw [run_cons, run_cons, sy_handle_event_static]

/-! ## What one call writes -/

/-- A returning call for an X or Y event has pushed the event and summed the
buffers, and the data it leaves is the pushed data up to the two lock flags. -/
theorem sy_handle_event_pushed (config : zip_axis_clamper_config) (heap : Heap)
    (data : zip_axis_clamper_data) (event : input_event) (out : Outcome)
    (hout : sy_handle_event config heap data event = some out)
    (hcode : event.code = INPUT_REL_X ∨ event.code = INPUT_REL_Y) :
    ∃ d0 d1 s, ensure_init config heap data = some d0 ∧ push config d0 event = some d1 ∧
      history_sums config d1 = some s ∧ out.ret = 0 ∧
      ∃ fx fy, out.data = { d1 with clamped_to_x := fx, clamped_to_y := fy } := by
  cases h0 : ensure_init config heap data with
  | none => simp [sy_handle_event, h0] at hout
  | some d0 =>
    cases h1 : push config d0 event with
    | none => simp [sy_handle_event, h0, hcode, h1] at hout
    | some d1 =>
      cases h2 : history_sums config d1 with
      | none => simp [sy_handle_event, h0, hcode, h1, h2] at hout
      | some s =>
        refine ⟨d0, d1, s, rfl, h1, h2, ?_⟩
        obtain ⟨d0', h0', hcase⟩ := sy_handle_event_cases config heap data event out hout
        rw [h0, Option.some.injEq] at h0'
        subst h0'
        rcases hcase with ⟨hnx, hny, -⟩ | ⟨d1', hp, -, rfl⟩ | ⟨c, -, hp, -, -, rfl⟩ |
          ⟨c, -, hp, -, -, rfl⟩
        · rcases hcode with h | h
          · exact absurd h hnx
          · exact absurd h hny
        · rw [h1, Option.some.injEq] at hp
          subst hp
          exact ⟨rfl, d1.clamped_to_x, d1.clamped_to_y, rfl⟩
        · rw [h1, Option.some.injEq] at hp
          rw [← hp]
          exact ⟨rfl, d1.clamped_to_x, d1.clamped_to_y, rfl⟩
        · rw [h1, Option.some.injEq] at hp
          rw [← hp]
          obtain ⟨fx, fy, e⟩ := update_lock_frame config d1 c.x_percent c.y_percent
          exact ⟨rfl, fx, fy, e⟩

/-- The summing loop ends only for `history_size ≤ 65535`. -/
theorem history_sums_bound (config : zip_axis_clamper_config) (data : zip_axis_clamper_data)
    (s : Nat × Nat) (h : history_sums config data = some s) :
    config.history_size < 2 ^ 16 := by
  unfold history_sums at h
  by_contra hn
  rw [if_neg hn] at h
  exact absurd h (by simp)

/-- The capped increment of lines 64 and 68, for `history_size ≤ 65535`. -/
theorem CLAMP_eq_min (c n : Nat) (hn : n < 2 ^ 16) :
    CLAMP (c + 1) 0 n % 2 ^ 16 = min (c + 1) n := by
  have hc : CLAMP (c + 1) 0 n = min (c + 1) n := by
    unfold CLAMP
    split_ifs <;> omega
  rw [hc]
  exact Nat.mod_eq_of_lt (lt_of_le_of_lt (Nat.min_le_right _ _) hn)

/-- Lines 62-64: what the push of an X event writes. -/
theorem push_x_eq (config : zip_axis_clamper_config) (data d1 : zip_axis_clamper_data)
    (event : input_event) (hcode : event.code = INPUT_REL_X)
    (h : push config data event = some d1) :
    ∃ b0, data.history0 = some b0 ∧ data.x_index < b0.length ∧ config.history_size ≠ 0 ∧
      d1 = { data with
        history0 := some (b0.set data.x_index (abs_u32 event.value)),
        x_index := (data.x_index + 1) % config.history_size % 2 ^ 16,
        x_captured := CLAMP (data.x_captured + 1) 0 config.history_size % 2 ^ 16 } := by
  unfold push at h
  rw [if_pos hcode] at h
  cases hb : data.history0 with
  | none => simp [hb, store] at h
  | some b0 =>
    simp only [hb, store] at h
    by_cases hi : data.x_index < b0.length
    · by_cases hz : config.history_size = 0
      · simp [hi, hz] at h
      · simp only [hi, hz, if_true, if_false, Option.some.injEq] at h
        exact ⟨b0, rfl, hi, hz, h.symm⟩
    · simp [hi] at h

/-- Lines 66-68: what the push of a Y event writes. -/
theorem push_y_eq (config : zip_axis_clamper_config) (data d1 : zip_axis_clamper_data)
    (event : input_event) (hcode : event.code = INPUT_REL_Y)
    (h : push config data event = some d1) :
    ∃ b1, data.history1 = some b1 ∧ data.y_index < b1.length ∧ config.history_size ≠ 0 ∧
      d1 = { data with
        history1 := some (b1.set data.y_index (abs_u32 event.value)),
        y_index := (data.y_index + 1) % config.history_size % 2 ^ 16,
        y_captured := CLAMP (data.y_captured + 1) 0 config.history_size % 2 ^ 16 } := by
  have hnx : ¬ event.code = INPUT_REL_X := by
    rw [hcode]
    decide
  unfold push at h
  rw [if_neg hnx, if_pos hcode] at h
  cases hb : data.history1 with
  | none => simp [hb, store] at h
  | some b1 =>
    simp only [hb, store] at h
    by_cases hi : data.y_index < b1.length
    · by_cases hz : config.history_size = 0
      · simp [hi, hz] at h
      · simp only [hi, hz, if_true, if_false, Option.some.injEq] at h
        exact ⟨b1, rfl, hi, hz, h.symm⟩
    · simp [hi] at h

/-- Line 70 on an initialised instance: an event of another code changes
nothing. -/
theorem sy_handle_event_other_code (config : zip_axis_clamper_config) (heap : Heap)
    (data : zip_axis_clamper_data) (event : input_event)
    (hinit : data.initialized = true)
    (hx : event.code ≠ INPUT_REL_X) (hy : event.code ≠ INPUT_REL_Y) :
    sy_handle_event config heap data event =
      some { ret := 0, data := data, event := event } := by
  unfold sy_handle_event
  rw [ensure_init_of_initialized config heap data hinit]
  simp [hx, hy]

/-- Lines 122-141 when both allocations succeed: both blocks zeroed, cursors and
lock flags cleared, `initialized` set; the captured counts are not written. -/
theorem data_init_success (config : zip_axis_clamper_config) (heap : Heap)
    (data : zip_axis_clamper_data)
    (h1 : heap.first ≠ none) (h2 : heap.second ≠ none) :
    data_init config heap data =
      some { data with
        history0 := some (List.replicate config.history_size 0),
        history1 := some (List.replicate config.history_size 0),
        x_index := 0, y_index := 0,
        clamped_to_x := false, clamped_to_y := false,
        initialized := true } := by
  obtain ⟨b0, e0⟩ := Option.ne_none_iff_exists'.mp h1
  obtain ⟨b1, e1⟩ := Option.ne_none_iff_exists'.mp h2
  have len : ∀ b : List Nat,
      ((b ++ List.replicate config.history_size 0).take config.history_size).length =
        config.history_size := by
    intro b
    simp
  have ms : ∀ b : List Nat,
      memset0 (some ((b ++ List.replicate config.history_size 0).take config.history_size))
        config.history_size = some (List.replicate config.history_size 0) := by
    intro b
    simp only [memset0, len b, le_refl, if_true]
    rw [List.drop_eq_nil_of_le (le_of_eq (len b))]
    simp
  simp only [data_init, e0, e1, malloc, Option.map_some', ms]
  simp

/-- Lines 122-128 when an allocation fails: the two pointers are replaced by
what `malloc` returned and nothing else is written. -/
theorem data_init_failure (config : zip_axis_clamper_config) (heap : Heap)
    (data : zip_axis_clamper_data)
    (hfail : heap.first = none ∨ heap.second = none) :
    data_init config heap data =
      some { data with
        history0 := malloc config.history_size heap.first,
        history1 := malloc config.history_size heap.second } := by
  have hm : malloc config.history_size heap.first = none ∨
      malloc config.history_size heap.second = none := by
    rcases hfail with h | h
    · exact Or.inl (by rw [h]; rfl)
    · exact Or.inr (by rw [h]; rfl)
  unfold data_init
  simp only
  rw [if_pos hm]

/-- C20 (counterexample): on the static instance, not yet initialised, a wheel
event (code 8) makes `sy_handle_event` run `data_init` first: with both
allocations granted the history pointers go from NULL to zeroed blocks and
`initialized` is set, so the history buffers are not left as they were. -/
theorem lazy_init_on_other_code :
    wheel_event.code ≠ INPUT_REL_X ∧ wheel_event.code ≠ INPUT_REL_Y ∧
    static_data.history0 = none ∧ static_data.history1 = none ∧
    sy_handle_event scenario_config full_heap static_data wheel_event =
      some { ret := 0, data := fresh scenario_config, event := wheel_event } ∧
    (fresh scenario_config).history0 = some [0, 0, 0, 0] ∧
    (fresh scenario_config).history1 = some [0, 0, 0, 0] ∧
    (fresh scenario_config).history0 ≠ static_data.history0 ∧
    (fresh scenario_config).history1 ≠ static_data.history1 := by decide

/-- C20 (amended): for every state and every event whose code is neither
`INPUT_REL_X` nor `INPUT_REL_Y`, `sy_handle_event` returns 0 and leaves the
event's value and `sync` flag and both captured counts as they were. On an
initialised instance it leaves the whole instance data (buffers, cursors, lock
flags) unchanged. On an instance not yet initialised it leaves what the lazy
`data_init` of lines 54-56 leaves: with both allocations granted, two zeroed
buffers, both cursors 0, both lock flags cleared and `initialized` set; with an
allocation refused, only the two history pointers replaced. -/
theorem other_codes_inert (config : zip_axis_clamper_config) (heap : Heap)
    (data : zip_axis_clamper_data) (event : input_event)
    (hx : event.code ≠ INPUT_REL_X) (hy : event.code ≠ INPUT_REL_Y) :
    ∃ out, sy_handle_event config heap data event = some out ∧ out.ret = 0 ∧
      out.event.value = event.value ∧ out.event.sync = event.sync ∧ out.event = event ∧
      out.data.x_captured = data.x_captured ∧ out.data.y_captured = data.y_captured ∧
      (data.initialized = true → out.data = data) ∧
      (data.initialized = false → heap.first ≠ none → heap.second ≠ none →
        out.data = { data with
          history0 := some (List.replicate config.history_size 0),
          history1 := some (List.replicate config.history_size 0),
          x_index := 0, y_index := 0,
          clamped_to_x := false, clamped_to_y := false,
          initialized := true }) ∧
      (data.initialized = false → (heap.first = none ∨ heap.second = none) →
        out.data = { data with
          history0 := malloc config.history_size heap.first,
          history1 := malloc config.history_size heap.second }) := by
  have hret : ∀ d0, ensure_init config heap data = some d0 →
      sy_handle_event config heap data event =
        some { ret := 0, data := d0, event := event } := by
    intro d0 h0
    unfold sy_handle_event
    rw [h0]
    simp [hx, hy]
  by_cases hinit : data.initialized = true
  · have h0 := ensure_init_of_initialized config heap data hinit
    refine ⟨_, hret data h0, rfl, rfl, rfl, rfl, rfl, rfl, fun _ => rfl, ?_, ?_⟩
    · intro h
      rw [hinit] at h
      exact absurd h (by decide)
    · intro h
      rw [hinit] at h
      exact absurd h (by decide)
  · have hi : data.initialized = false := by simpa using hinit
    have h0 : ensure_init config heap data = data_init config heap data := by
      unfold ensure_init
      rw [if_pos hi]
    by_cases hok : heap.first ≠ none ∧ heap.second ≠ none
    · rw [data_init_success config heap data hok.1 hok.2] at h0
      refine ⟨_, hret _ h0, rfl, rfl, rfl, rfl, rfl, rfl, ?_, fun _ _ _ => rfl, ?_⟩
      · intro h
        exact absurd h hinit
      · intro _ hfail
        rcases hfail with h | h
        · exact absurd h hok.1
        · exact absurd h hok.2
    · have hfail : heap.first = none ∨ heap.second = none := by
        by_contra hn
        push_neg at hn
        exact hok hn
      rw [data_init_failure config heap data hfail] at h0
      refine ⟨_, hret _ h0, rfl, rfl, rfl, rfl, rfl, rfl, ?_, ?_, fun _ _ => rfl⟩
      · intro h
        exact absurd h hinit
      · intro _ h1 h2
        exact absurd ⟨h1, h2⟩ hok

/-- Witness of C20 (amended): a wheel event leaves the locked scenario state, an
initialised instance, as it was; handled on the static instance with both
allocations granted it leaves the fresh instance, with the captured counts
still 0. -/
theorem other_codes_inert_witness :
    wheel_event.code ≠ INPUT_REL_X ∧ wheel_event.code ≠ INPUT_REL_Y ∧
    (scenario_state 4 4).initialized = true ∧
    (∃ out, sy_handle_event scenario_config no_heap (scenario_state 4 4) wheel_event =
        some out ∧
      out.ret = 0 ∧ out.event = wheel_event ∧ out.data = scenario_state 4 4) ∧
    static_data.initialized = false ∧
    (∃ out, sy_handle_event scenario_config full_heap static_data wheel_event = some out ∧
      out.ret = 0 ∧ out.event = wheel_event ∧
      out.data.x_captured = static_data.x_captured ∧
      out.data.y_captured = static_data.y_captured ∧
      out.data = fresh scenario_config) := by
  obtain ⟨out, h, hr, -, -, he, -, -, hd, -, -⟩ :=
    other_codes_inert scenario_config no_heap (scenario_state 4 4) wheel_event
      (by decide) (by decide)
  obtain ⟨out', h', hr', -, -, he', cx, cy, -, hd', -⟩ :=
    other_codes_inert scenario_config full_heap static_data wheel_event
      (by decide) (by decide)
  exact ⟨by decide, by decide, rfl, ⟨out, h, hr, he, hd rfl⟩, rfl,
    ⟨out', h', hr', he', cx, cy, (hd' rfl (by decide) (by decide)).trans (by decide)⟩⟩

/-- C12: a returning call for an X event of value `v`, `|v| ≤ 2^31 - 1`, leaves
`|v|` in the X slot at the old `x_index` and every other X slot as it was,
`x_index = (old x_index + 1) mod N`, `x_captured = min (old x_captured + 1) N`,
and the Y buffer, `y_index` and `y_captured` untouched, whether or not the
event itself is suppressed. The same holds for a Y event with the axes
exchanged. -/
theorem push_records_magnitude (config : zip_axis_clamper_config) (heap : Heap)
    (data : zip_axis_clamper_data) (event : input_event) (out : Outcome)
    (hinit : data.initialized = true) (hv : event.value.natAbs ≤ 2 ^ 31 - 1)
    (hout : sy_handle_event config heap data event = some out) :
    (event.code = INPUT_REL_X →
      ∃ b0, data.history0 = some b0 ∧ data.x_index < b0.length ∧
        out.data.history0 = some (b0.set data.x_index event.value.natAbs) ∧
        out.data.x_index = (data.x_index + 1) % config.history_size ∧
        out.data.x_captured = min (data.x_captured + 1) config.history_size ∧
        out.data.history1 = data.history1 ∧ out.data.y_index = data.y_index ∧
        out.data.y_captured = data.y_captured) ∧
    (event.code = INPUT_REL_Y →
      ∃ b1, data.history1 = some b1 ∧ data.y_index < b1.length ∧
        out.data.history1 = some (b1.set data.y_index event.value.natAbs) ∧
        out.data.y_index = (data.y_index + 1) % config.history_size ∧
        out.data.y_captured = min (data.y_captured + 1) config.history_size ∧
        out.data.history0 = data.history0 ∧ out.data.x_index = data.x_index ∧
        out.data.x_captured = data.x_captured) := by
  have habs : abs_u32 event.value = event.value.natAbs := by
    unfold abs_u32
    exact Nat.mod_eq_of_lt (by omega)
  constructor
  · intro hcode
    obtain ⟨d0, d1, s, h0, hp, hs, -, fx, fy, hd⟩ :=
      sy_handle_event_pushed config heap data event out hout (Or.inl hcode)
    rw [ensure_init_of_initialized config heap data hinit, Option.some.injEq] at h0
    subst h0
    have hn := history_sums_bound config d1 s hs
    obtain ⟨b0, hb, hi, hz, he⟩ := push_x_eq config data d1 event hcode hp
    have hpos : 0 < config.history_size := Nat.pos_of_ne_zero hz
    refine ⟨b0, hb, hi, ?_, ?_, ?_, ?_, ?_, ?_⟩
    · rw [hd, he, habs]
    · rw [hd, he]
      exact Nat.mod_eq_of_lt (lt_trans (Nat.mod_lt _ hpos) hn)
    · rw [hd, he]
      exact CLAMP_eq_min _ _ hn
    · rw [hd, he]
    · rw [hd, he]
    · rw [hd, he]
  · intro hcode
    obtain ⟨d0, d1, s, h0, hp, hs, -, fx, fy, hd⟩ :=
      sy_handle_event_pushed config heap data event out hout (Or.inr hcode)
    rw [ensure_init_of_initialized config heap data hinit, Option.some.injEq] at h0
    subst h0
    have hn := history_sums_bound config d1 s hs
    obtain ⟨b1, hb, hi, hz, he⟩ := push_y_eq config data d1 event hcode hp
    have hpos : 0 < config.history_size := Nat.pos_of_ne_zero hz
    refine ⟨b1, hb, hi, ?_, ?_, ?_, ?_, ?_, ?_⟩
    · rw [hd, he, habs]
    · rw [hd, he]
      exact Nat.mod_eq_of_lt (lt_trans (Nat.mod_lt _ hpos) hn)
    · rw [hd, he]
      exact CLAMP_eq_min _ _ hn
    · rw [hd, he]
    · rw [hd, he]
    · rw [hd, he]

/-- Witness of C12: the Y event of 5 handled in the locked scenario state is
suppressed, and the Y ring holds its magnitude 5 all the same. -/
theorem push_records_magnitude_witness :
    sy_handle_event scenario_config no_heap (scenario_state 4 4)
      (plain_event INPUT_REL_Y 5) = some suppress_out ∧
    suppress_out.event.value = 0 ∧
    ∃ b1, (scenario_state 4 4).history1 = some b1 ∧
      (scenario_state 4 4).y_index < b1.length ∧
      suppress_out.data.history1 =
        some (b1.set (scenario_state 4 4).y_index (plain_event INPUT_REL_Y 5).value.natAbs) ∧
      suppress_out.data.y_index =
        ((scenario_state 4 4).y_index + 1) % scenario_config.history_size ∧
      suppress_out.data.y_captured =
        min ((scenario_state 4 4).y_captured + 1) scenario_config.history_size ∧
      suppress_out.data.history0 = (scenario_state 4 4).history0 ∧
      suppress_out.data.x_index = (scenario_state 4 4).x_index ∧
      suppress_out.data.x_captured = (scenario_state 4 4).x_captured :=
  ⟨by decide, rfl,
   (push_records_magnitude scenario_config no_heap (scenario_state 4 4)
     (plain_event INPUT_REL_Y 5) suppress_out rfl (by decide) (by decide)).2 rfl⟩

/-! ## The well-formedness invariant -/

/-- The lock state machine never sets both flags. -/
theorem update_lock_exclusive (config : zip_axis_clamper_config)
    (data : zip_axis_clamper_data) (x_percent y_percent : Nat)
    (h : ¬ (data.clamped_to_x = true ∧ data.clamped_to_y = true)) :
    ¬ ((update_lock config data x_percent y_percent).clamped_to_x = true ∧
       (update_lock config data x_percent y_percent).clamped_to_y = true) := by
  unfold update_lock
  split_ifs with h1 h2 h3 h4 h5 h6 h7
  · simp [h1.2]
  · simp [h1.1]
  · exact h
  · simp
  · exact h
  · simp
  · exact h
  · exact h

/-- The push keeps a captured count within `history_size`. -/
theorem push_captured_le (config : zip_axis_clamper_config)
    (data d1 : zip_axis_clamper_data) (event : input_event)
    (h : push config data event = some d1)
    (hx : data.x_captured ≤ config.history_size)
    (hy : data.y_captured ≤ config.history_size) :
    d1.x_captured ≤ config.history_size ∧ d1.y_captured ≤ config.history_size := by
  have hc : ∀ c : Nat, CLAMP (c + 1) 0 config.history_size % 2 ^ 16 ≤ config.history_size := by
    intro c
    refine le_trans (Nat.mod_le _ _) ?_
    unfold CLAMP
    split_ifs <;> omega
  rcases push_code config data d1 event h with hcode | hcode
  · obtain ⟨b0, -, -, -, he⟩ := push_x_eq config data d1 event hcode h
    rw [he]
    exact ⟨hc _, hy⟩
  · obtain ⟨b1, -, -, -, he⟩ := push_y_eq config data d1 event hcode h
    rw [he]
    exact ⟨hx, hc _⟩

/-- In every reachable state the captured counts are within `history_size` and
the two lock flags are not both set. -/
theorem captured_le_of_reachable (config : zip_axis_clamper_config)
    (data : zip_axis_clamper_data) (h1 : 1 ≤ config.history_size)
    (hr : Reachable config data) :
    data.x_captured ≤ config.history_size ∧ data.y_captured ≤ config.history_size ∧
      ¬ (data.clamped_to_x = true ∧ data.clamped_to_y = true) := by
  induction hr with
  | init => exact ⟨Nat.zero_le _, Nat.zero_le _, by simp [fresh]⟩
  | event heap d e out hr hout ih =>
    have hwf := wellFormed_of_reachable config d h1 hr
    obtain ⟨d0, h0, hcase⟩ := sy_handle_event_cases config heap d e out hout
    rw [ensure_init_of_initialized config heap d hwf.1.1, Option.some.injEq] at h0
    subst h0
    have hpush : ∀ d1, push config d e = some d1 →
        d1.x_captured ≤ config.history_size ∧ d1.y_captured ≤ config.history_size ∧
          ¬ (d1.clamped_to_x = true ∧ d1.clamped_to_y = true) := by
      intro d1 hp
      obtain ⟨cx, cy⟩ := push_captured_le config d d1 e hp ih.1 ih.2.1
      obtain ⟨fx, fy, -⟩ := push_flags config d d1 e hp
      refine ⟨cx, cy, ?_⟩
      rw [fx, fy]
      exact ih.2.2
    rcases hcase with ⟨-, -, rfl⟩ | ⟨d1, hp, -, rfl⟩ | ⟨c, -, hp, -, -, rfl⟩ |
      ⟨c, -, hp, -, -, rfl⟩
    · exact ih
    · exact hpush d1 hp
    · exact hpush c.data hp
    · obtain ⟨cx, cy, hf⟩ := hpush c.data hp
      obtain ⟨fx, fy, e'⟩ := update_lock_frame config c.data c.x_percent c.y_percent
      refine ⟨?_, ?_, update_lock_exclusive config c.data _ _ hf⟩
      · simp only [e']
        exact cx
      · simp only [e']
        exact cy
  | decay d d' hr hc _ =>
    have hwf := wellFormed_of_reachable config d h1 hr
    rw [clear_history_eq_fresh config d hwf.1, Option.some.injEq] at hc
    rw [← hc]
    exact ⟨Nat.zero_le _, Nat.zero_le _, by simp [fresh]⟩

/-- C13: with `1 ≤ history_size = N`, every state reached from the fresh instance
by handled events and decay firings has `x_index < N`, `y_index < N`,
`x_captured ≤ N`, `y_captured ≤ N`, and never both lock flags set: the lock
state is exactly one of Unlocked, LockedX and LockedY. -/
theorem state_well_formed (config : zip_axis_clamper_config)
    (data : zip_axis_clamper_data) (h1 : 1 ≤ config.history_size)
    (hr : Reachable config data) :
    data.x_index < config.history_size ∧ data.y_index < config.history_size ∧
    data.x_captured ≤ config.history_size ∧ data.y_captured ≤ config.history_size ∧
    ¬ (data.clamped_to_x = true ∧ data.clamped_to_y = true) ∧
    (Unlocked data ∨ LockedX data ∨ LockedY data) ∧
    ¬ (Unlocked data ∧ LockedX data) ∧ ¬ (Unlocked data ∧ LockedY data) ∧
    ¬ (LockedX data ∧ LockedY data) := by
  have hwf := wellFormed_of_reachable config data h1 hr
  obtain ⟨cx, cy, hf⟩ := captured_le_of_reachable config data h1 hr
  refine ⟨hwf.2.1, hwf.2.2, cx, cy, hf, ?_, ?_, ?_, ?_⟩
  · unfold Unlocked LockedX LockedY
    cases hx : data.clamped_to_x <;> cases hy : data.clamped_to_y
    · exact Or.inl ⟨rfl, rfl⟩
    · exact Or.inr (Or.inr ⟨rfl, rfl⟩)
    · exact Or.inr (Or.inl ⟨rfl, rfl⟩)
    · exact absurd ⟨hx, hy⟩ hf
  · rintro ⟨a, b⟩
    exact absurd (a.1.symm.trans b.1) (by decide)
  · rintro ⟨a, b⟩
    exact absurd (a.2.symm.trans b.2) (by decide)
  · rintro ⟨a, b⟩
    exact absurd (a.1.symm.trans b.1) (by decide)

/-- Witness of C13: the state `still_state`, reached by eight events. -/
theorem state_well_formed_witness :
    Reachable scenario_config still_state ∧
    still_state.x_index < 4 ∧ still_state.y_index < 4 ∧
    still_state.x_captured ≤ 4 ∧ still_state.y_captured ≤ 4 ∧
    ¬ (still_state.clamped_to_x = true ∧ still_state.clamped_to_y = true) := by
  have hr : Reachable scenario_config still_state :=
    reachable_of_run_state scenario_config no_heap still_events (fresh scenario_config)
      still_state Reachable.init (by decide)
  obtain ⟨a, b, c, d, e, -⟩ := state_well_formed scenario_config still_state (by decide) hr
  exact ⟨hr, a, b, c, d, e⟩

/-! ## Where the code leaves the specified behaviour -/

/-- With `hysteresis > threshold` the `uint32_t` difference of lines 100 and 104
wraps around to `2^32 - (hysteresis - threshold)`. -/
theorem release_bound_wrapped (config : zip_axis_clamper_config)
    (hh : config.threshold < config.hysteresis) (hlt : config.hysteresis < 2 ^ 32) :
    release_bound config = 2 ^ 32 - (config.hysteresis - config.threshold) := by
  unfold release_bound
  rw [Nat.mod_eq_of_lt hlt]
  exact Nat.mod_eq_of_lt (by omega) |>.trans (by omega)

/-- C14 (the code at the failing input): with threshold 35 and hysteresis 40 the
release bound is `2^32 - 5` and not 0; the X axis locks on the fourth event of
X 10, X 10, Y 1, Y 1, and the next X event of 10, whose cycle computes
`x_percent = 90`, releases the lock. -/
theorem release_bound_underflows :
    wrap_config.threshold < wrap_config.hysteresis ∧
    release_bound wrap_config = 4294967291 ∧
    (run wrap_config no_heap (fresh wrap_config) wrap_events).map Prod.fst =
      some (scenario_state 2 2) ∧
    LockedX (scenario_state 2 2) ∧
    (cycle wrap_config no_heap (scenario_state 2 2) (plain_event INPUT_REL_X 10)).map
      Cycle.x_percent = some 90 ∧
    (sy_handle_event wrap_config no_heap (scenario_state 2 2)
      (plain_event INPUT_REL_X 10)).map Outcome.data =
      some { scenario_state 3 2 with clamped_to_x := false } ∧
    Unlocked { scenario_state 3 2 with clamped_to_x := false } := by decide

/-- C16 (the code at the failing input): with `history_size = 1` the bound
`history_size / 2` is 0, so the first X event gets past the warm-up guard with
`y_captured = 0`, and line 85 divides by zero. -/
theorem division_by_zero_at_size_one :
    1 ≤ one_config.history_size ∧
    push one_config (fresh one_config) (plain_event INPUT_REL_X 10) = some one_pushed ∧
    history_sums one_config one_pushed = some (10, 0) ∧
    warming_up one_config one_pushed = false ∧
    one_pushed.y_captured = 0 ∧
    average 0 one_pushed.y_captured = none ∧
    sy_handle_event one_config no_heap (fresh one_config) (plain_event INPUT_REL_X 10) =
      none := by decide

/-- From `history_size = 2` on, a call on a reachable state always returns: past
the warm-up guard both captured counts are at least 1. -/
theorem sy_handle_event_returns (config : zip_axis_clamper_config) (heap : Heap)
    (data : zip_axis_clamper_data) (event : input_event)
    (h2 : 2 ≤ config.history_size) (hN : config.history_size ≤ 65535)
    (hr : Reachable config data) :
    ∃ out, sy_handle_event config heap data event = some out := by
  have hwf := wellFormed_of_reachable config data (by omega) hr
  by_cases hcode : event.code = INPUT_REL_X ∨ event.code = INPUT_REL_Y
  · obtain ⟨d1, -, hwarm, hcyc⟩ :=
      sy_handle_event_total config heap data event (by omega) hN hwf hcode
    cases hw : warming_up config d1 with
    | true => exact ⟨_, hwarm hw⟩
    | false =>
      have hb : config.history_size / 2 ≤ d1.x_captured ∧
          config.history_size / 2 ≤ d1.y_captured := by
        simpa [warming_up] using hw
      have hpos : 1 ≤ config.history_size / 2 := by omega
      obtain ⟨c, hc, -⟩ := hcyc hw (by omega) (by omega)
      rw [sy_handle_event_of_cycle config heap data event c hc]
      split_ifs
      · exact ⟨_, rfl⟩
      · exact ⟨_, rfl⟩
  · push_neg at hcode
    unfold sy_handle_event
    rw [ensure_init_of_initialized config heap data hwf.1.1]
    simp [hcode.1, hcode.2]

/-- C18 (the code after a failed allocation): when `data_init` cannot allocate
one of the buffers, the handler goes on all the same, and for every X or Y
event it faults on a NULL buffer instead of handing the event on. -/
theorem allocation_failure_faults (config : zip_axis_clamper_config) (heap : Heap)
    (data : zip_axis_clamper_data) (event : input_event)
    (hinit : data.initialized = false)
    (hfail : heap.first = none ∨ heap.second = none)
    (hcode : event.code = INPUT_REL_X ∨ event.code = INPUT_REL_Y) :
    sy_handle_event config heap data event = none := by
  have hm : malloc config.history_size heap.first = none ∨
      malloc config.history_size heap.second = none := by
    rcases hfail with h | h
    · exact Or.inl (by rw [h]; rfl)
    · exact Or.inr (by rw [h]; rfl)
  have h0 : ensure_init config heap data =
      some { data with
        history0 := malloc config.history_size heap.first,
        history1 := malloc config.history_size heap.second } := by
    unfold ensure_init data_init
    rw [if_pos hinit]
    simp only
    rw [if_pos hm]
  unfold sy_handle_event
  rw [h0]
  simp only [hcode, if_true]
  cases hp : push config _ event with
  | none => rfl
  | some d1 =>
    simp only
    have hnull : d1.history0 = none ∨ d1.history1 = none := by
      rcases hcode with hc | hc
      · obtain ⟨b0, hb, -, -, he⟩ := push_x_eq config _ d1 event hc hp
        simp only at hb
        rcases hm with h | h
        · rw [h] at hb
          exact absurd hb (by simp)
        · rw [he]
          exact Or.inr h
      · obtain ⟨b1, hb, -, -, he⟩ := push_y_eq config _ d1 event hc hp
        simp only at hb
        rcases hm with h | h
        · rw [he]
          exact Or.inl h
        · rw [h] at hb
          exact absurd hb (by simp)
    have hz : config.history_size ≠ 0 := by
      rcases hcode with hc | hc
      · obtain ⟨_, -, -, hz, -⟩ := push_x_eq config _ d1 event hc hp
        exact hz
      · obtain ⟨_, -, -, hz, -⟩ := push_y_eq config _ d1 event hc hp
        exact hz
    have hs : history_sums config d1 = none := by
      unfold history_sums
      split_ifs
      · obtain ⟨n, hn⟩ := Nat.exists_eq_succ_of_ne_zero hz
        rw [hn]
        unfold sum_loop
        rcases hnull with h | h
        · rw [h]
          simp [load]
        · rw [h]
          cases load d1.history0 0 <;> simp [load]
      · rfl
    rw [hs]

/-- Witness of C18: the first allocation succeeds and the second fails; the
first X event is written into the uninitialised X block and the summing loop
then reads the NULL Y buffer. -/
theorem allocation_failure_faults_witness :
    data_init scenario_config half_heap static_data =
      some { static_data with history0 := some [7, 7, 7, 7] } ∧
    push scenario_config { static_data with history0 := some [7, 7, 7, 7] }
        (plain_event INPUT_REL_X 5) =
      some { static_data with history0 := some [5, 7, 7, 7], x_index := 1, x_captured := 1 } ∧
    sy_handle_event scenario_config half_heap static_data (plain_event INPUT_REL_X 5) = none :=
  ⟨by decide, by decide,
   allocation_failure_faults scenario_config half_heap static_data
     (plain_event INPUT_REL_X 5) rfl (Or.inr rfl) (Or.inl rfl)⟩

/-! ## Which axis wins the lock -/

/-- Lines 93-98: what the state machine does in Unlocked. -/
theorem update_lock_of_unlocked (config : zip_axis_clamper_config)
    (data : zip_axis_clamper_data) (x_percent y_percent : Nat) (h : Unlocked data) :
    update_lock config data x_percent y_percent =
      if config.threshold ≤ x_percent then { data with clamped_to_x := true }
      else if config.threshold ≤ y_percent then { data with clamped_to_y := true }
      else data := by
  simp [update_lock, h.1, h.2]

/-- Without wraparound the two truncated shares add up to at most 100. -/
theorem percent_sum_le (x y : Nat) (hx : x * 100 < 2 ^ 32) (hy : y * 100 < 2 ^ 32)
    (ht : x + y < 2 ^ 32) (hpos : 0 < x + y) :
    percent_of x (total_of x y) + percent_of y (total_of x y) ≤ 100 := by
  unfold percent_of total_of
  rw [Nat.mod_eq_of_lt hx, Nat.mod_eq_of_lt hy, Nat.mod_eq_of_lt ht]
  have h1 : (x + y) * (x * 100 / (x + y)) ≤ x * 100 := Nat.mul_div_le _ _
  have h2 : (x + y) * (y * 100 / (x + y)) ≤ y * 100 := Nat.mul_div_le _ _
  have h3 : (x + y) * (x * 100 / (x + y) + y * 100 / (x + y)) ≤ (x + y) * 100 := by
    rw [Nat.mul_add]
    omega
  exact Nat.le_of_mul_le_mul_left h3 hpos

/-- C17 (counterexample): with `N = 2` and threshold 35, an X event of 2 followed
by a Y event of 3 gives `x_percent = 40` and `y_percent = 60`; the state goes
from Unlocked to LockedX although X has the smaller share. -/
theorem x_wins_with_smaller_share :
    Unlocked share_state ∧
    (run share_config no_heap (fresh share_config) [plain_event INPUT_REL_X 2]).map
      Prod.fst = some share_state ∧
    cycle share_config no_heap share_state (plain_event INPUT_REL_Y 3) = some share_cycle ∧
    share_cycle.x_percent = 40 ∧ share_cycle.y_percent = 60 ∧
    ¬ (share_cycle.x_percent ≥ share_cycle.y_percent) ∧
    (sy_handle_event share_config no_heap share_state (plain_event INPUT_REL_Y 3)).map
      Outcome.data = some { share_cycle.data with clamped_to_x := true } ∧
    LockedX { share_cycle.data with clamped_to_x := true } := by decide

/-- C17 (amended): an event handled in state Unlocked that moves the state to
LockedX ran a cycle with `x_percent ≥ threshold`; `x_percent ≥ y_percent` follows
when `threshold ≥ 50` and nothing wraps around, and not otherwise. A move to
LockedY comes only with `x_percent < threshold ≤ y_percent`, so the Y axis never
wins with the smaller share. -/
theorem lock_goes_to_x_at_threshold (config : zip_axis_clamper_config) (heap : Heap)
    (data : zip_axis_clamper_data) (event : input_event) (out : Outcome)
    (hinit : data.initialized = true) (hun : Unlocked data)
    (hout : sy_handle_event config heap data event = some out) :
    (LockedX out.data →
      ∃ c, cycle config heap data event = some c ∧ c.total ≠ 0 ∧
        config.threshold ≤ c.x_percent ∧
        (50 ≤ config.threshold → c.x_avg * 100 < 2 ^ 32 → c.y_avg * 100 < 2 ^ 32 →
          c.x_avg + c.y_avg < 2 ^ 32 → c.y_percent ≤ c.x_percent)) ∧
    (LockedY out.data →
      ∃ c, cycle config heap data event = some c ∧ c.total ≠ 0 ∧
        c.x_percent < config.threshold ∧ config.threshold ≤ c.y_percent ∧
        c.x_percent < c.y_percent) := by
  obtain ⟨d0, h0, hcase⟩ := sy_handle_event_cases config heap data event out hout
  rw [ensure_init_of_initialized config heap data hinit, Option.some.injEq] at h0
  subst h0
  have nolock : ∀ d1 : zip_axis_clamper_data, d1.clamped_to_x = data.clamped_to_x →
      d1.clamped_to_y = data.clamped_to_y → ¬ LockedX d1 ∧ ¬ LockedY d1 := by
    intro d1 fx fy
    constructor
    · intro h
      exact absurd (h.1.symm.trans (fx.trans hun.1)) (by decide)
    · intro h
      exact absurd (h.2.symm.trans (fy.trans hun.2)) (by decide)
  rcases hcase with ⟨-, -, rfl⟩ | ⟨d1, hp, -, rfl⟩ | ⟨c, -, hp, -, -, rfl⟩ |
    ⟨c, hc, hp, -, ht, rfl⟩
  · exact ⟨fun h => absurd h (nolock data rfl rfl).1, fun h => absurd h (nolock data rfl rfl).2⟩
  · obtain ⟨fx, fy, -⟩ := push_flags config data d1 event hp
    exact ⟨fun h => absurd h (nolock d1 fx fy).1, fun h => absurd h (nolock d1 fx fy).2⟩
  · obtain ⟨fx, fy, -⟩ := push_flags config data c.data event hp
    exact ⟨fun h => absurd h (nolock c.data fx fy).1,
      fun h => absurd h (nolock c.data fx fy).2⟩
  · obtain ⟨fx, fy, -⟩ := push_flags config data c.data event hp
    have hunc : Unlocked c.data := ⟨fx.trans hun.1, fy.trans hun.2⟩
    have hu := update_lock_of_unlocked config c.data c.x_percent c.y_percent hunc
    simp only [hu]
    constructor
    · intro hl
      by_cases hx : config.threshold ≤ c.x_percent
      · refine ⟨c, hc, ht, hx, ?_⟩
        intro h50 wx wy wt
        have hpos : 0 < c.x_avg + c.y_avg := by
          have : c.total = c.x_avg + c.y_avg := Nat.mod_eq_of_lt wt
          omega
        have hsum := percent_sum_le c.x_avg c.y_avg wx wy wt hpos
        have ex : c.x_percent = percent_of c.x_avg (total_of c.x_avg c.y_avg) := rfl
        have ey : c.y_percent = percent_of c.y_avg (total_of c.x_avg c.y_avg) := rfl
        omega
      · rw [if_neg hx] at hl
        by_cases hy : config.threshold ≤ c.y_percent
        · rw [if_pos hy] at hl
          exact absurd (hl.1.symm.trans hunc.1) (by decide)
        · rw [if_neg hy] at hl
          exact absurd (hl.1.symm.trans hunc.1) (by decide)
    · intro hl
      by_cases hx : config.threshold ≤ c.x_percent
      · rw [if_pos hx] at hl
        exact absurd (hl.2.symm.trans hunc.2) (by decide)
      · rw [if_neg hx] at hl
        by_cases hy : config.threshold ≤ c.y_percent
        · exact ⟨c, hc, ht, by omega, hy, by omega⟩
        · rw [if_neg hy] at hl
          exact absurd (hl.2.symm.trans hunc.2) (by decide)

/-- Witness of C17 (amended): in the share example the lock goes to X with
`x_percent = 40 ≥ 35`. -/
theorem lock_goes_to_x_at_threshold_witness :
    Unlocked share_state ∧
    ∃ c, cycle share_config no_heap share_state (plain_event INPUT_REL_Y 3) = some c ∧
      c.total ≠ 0 ∧ share_config.threshold ≤ c.x_percent :=
  ⟨by decide,
   match (lock_goes_to_x_at_threshold share_config no_heap share_state
      (plain_event INPUT_REL_Y 3)
      { ret := 0, data := { share_cycle.data with clamped_to_x := true },
        event := { plain_event INPUT_REL_Y 3 with value := 0, sync := false } }
      rfl (by decide) (by decide)).1 (by decide) with
   | ⟨c, h1, h2, h3, _⟩ => ⟨c, h1, h2, h3⟩⟩

/-! ## The sums and the shares without wraparound -/

/-- The summing loop computes the sums of the slots modulo `2^32`. -/
theorem sum_loop_eq (b0 b1 : List Nat) :
    ∀ (n i x_sum y_sum : Nat), i + n = b0.length → i + n = b1.length →
      x_sum < 2 ^ 32 → y_sum < 2 ^ 32 →
      sum_loop (some b0) (some b1) n i x_sum y_sum =
        some ((x_sum + (b0.drop i).sum) % 2 ^ 32, (y_sum + (b1.drop i).sum) % 2 ^ 32) := by
  intro n
  induction n with
  | zero =>
    intro i x_sum y_sum h0 h1 hx hy
    have d0 : b0.drop i = [] := List.drop_eq_nil_of_le (by omega)
    have d1 : b1.drop i = [] := List.drop_eq_nil_of_le (by omega)
    have hx' : x_sum % 2 ^ 32 = x_sum := Nat.mod_eq_of_lt hx
    have hy' : y_sum % 2 ^ 32 = y_sum := Nat.mod_eq_of_lt hy
    rw [d0, d1]
    simp only [sum_loop, List.sum_nil, Nat.add_zero, hx', hy']
  | succ n ih =>
    intro i x_sum y_sum h0 h1 _ _
    have l0 : i < b0.length := by omega
    have l1 : i < b1.length := by omega
    unfold sum_loop
    simp only [load, List.get?_eq_getElem?, List.getElem?_eq_getElem l0,
      List.getElem?_eq_getElem l1]
    rw [ih (i + 1) _ _ (by omega) (by omega) (Nat.mod_lt _ (by norm_num))
      (Nat.mod_lt _ (by norm_num))]
    rw [List.drop_eq_getElem_cons l0, List.drop_eq_getElem_cons l1]
    simp only [List.sum_cons, Nat.mod_add_mod, Nat.add_assoc]

/-- Lines 73-78 on allocated buffers: the sums of all slots modulo `2^32`. -/
theorem history_sums_eq (config : zip_axis_clamper_config) (data : zip_axis_clamper_data)
    (b0 b1 : List Nat) (e0 : data.history0 = some b0) (e1 : data.history1 = some b1)
    (l0 : b0.length = config.history_size) (l1 : b1.length = config.history_size)
    (hN : config.history_size ≤ 65535) :
    history_sums config data = some (b0.sum % 2 ^ 32, b1.sum % 2 ^ 32) := by
  unfold history_sums
  rw [if_pos (by omega), e0, e1,
    sum_loop_eq b0 b1 config.history_size 0 0 0 (by omega) (by omega) (by norm_num)
      (by norm_num)]
  simp

/-- Overwriting one slot adds at most one non-zero slot. -/
theorem nonzero_slots_set (b : List Nat) (i v : Nat) :
    nonzero_slots (b.set i v) ≤ nonzero_slots b + 1 := by
  unfold nonzero_slots
  induction b generalizing i with
  | nil => simp
  | cons a l ih =>
    cases i with
    | zero =>
      simp only [List.set_cons_zero, List.countP_cons]
      split_ifs <;> omega
    | succ i =>
      simp only [List.set_cons_succ, List.countP_cons]
      have := ih i
      split_ifs <;> omega

/-- A buffer with slots of at most `M` sums to at most `M` per non-zero slot. -/
theorem sum_le_nonzero_slots (M : Nat) (b : List Nat) (h : ∀ x ∈ b, x ≤ M) :
    b.sum ≤ nonzero_slots b * M := by
  unfold nonzero_slots
  induction b with
  | nil => simp
  | cons a l ih =>
    have ha : a ≤ M := h a (List.mem_cons_self a l)
    have hl := ih (fun x hx => h x (List.mem_cons_of_mem a hx))
    rw [List.sum_cons, List.countP_cons]
    by_cases hz : a = 0
    · have hd : decide (a ≠ 0) = false := by simp [hz]
      rw [hd, hz]
      simpa using hl
    · have hd : decide (a ≠ 0) = true := by simp [hz]
      rw [hd, if_pos rfl, Nat.add_mul]
      omega

/-- In every reachable state a buffer has at most as many non-zero slots as its
captured count says. -/
theorem nonzero_le_captured (config : zip_axis_clamper_config)
    (data : zip_axis_clamper_data) (h1 : 1 ≤ config.history_size)
    (hN : config.history_size ≤ 65535) (hr : Reachable config data) :
    ∃ b0 b1, data.history0 = some b0 ∧ data.history1 = some b1 ∧
      b0.length = config.history_size ∧ b1.length = config.history_size ∧
      nonzero_slots b0 ≤ data.x_captured ∧ nonzero_slots b1 ≤ data.y_captured := by
  induction hr with
  | init =>
    refine ⟨_, _, rfl, rfl, by simp, by simp, ?_, ?_⟩
    · simp [nonzero_slots, fresh]
    · simp [nonzero_slots, fresh]
  | event heap d e out hr hout ih =>
    have hwf := wellFormed_of_reachable config d h1 hr
    obtain ⟨b0, b1, e0, e1, l0, l1, n0, n1⟩ := ih
    by_cases hcode : e.code = INPUT_REL_X ∨ e.code = INPUT_REL_Y
    · obtain ⟨d0, d1, s, h0, hp, -, -, fx, fy, hd⟩ :=
        sy_handle_event_pushed config heap d e out hout hcode
      rw [ensure_init_of_initialized config heap d hwf.1.1, Option.some.injEq] at h0
      subst h0
      have hn : config.history_size < 2 ^ 16 := by omega
      rcases hcode with hc | hc
      · obtain ⟨b0', hb, -, -, he⟩ := push_x_eq config d d1 e hc hp
        rw [e0, Option.some.injEq] at hb
        subst hb
        rw [hd, he]
        refine ⟨_, b1, rfl, e1, by simp [l0], l1, ?_, n1⟩
        simp only
        rw [CLAMP_eq_min _ _ hn]
        have hs := nonzero_slots_set b0 d.x_index (abs_u32 e.value)
        have hl : nonzero_slots (b0.set d.x_index (abs_u32 e.value)) ≤
            (b0.set d.x_index (abs_u32 e.value)).length := List.countP_le_length _
        rw [List.length_set, l0] at hl
        omega
      · obtain ⟨b1', hb, -, -, he⟩ := push_y_eq config d d1 e hc hp
        rw [e1, Option.some.injEq] at hb
        subst hb
        rw [hd, he]
        refine ⟨b0, _, e0, rfl, l0, by simp [l1], n0, ?_⟩
        simp only
        rw [CLAMP_eq_min _ _ hn]
        have hs := nonzero_slots_set b1 d.y_index (abs_u32 e.value)
        have hl : nonzero_slots (b1.set d.y_index (abs_u32 e.value)) ≤
            (b1.set d.y_index (abs_u32 e.value)).length := List.countP_le_length _
        rw [List.length_set, l1] at hl
        omega
    · push_neg at hcode
      rw [sy_handle_event_other_code config heap d e hwf.1.1 hcode.1 hcode.2,
        Option.some.injEq] at hout
      rw [← hout]
      exact ⟨b0, b1, e0, e1, l0, l1, n0, n1⟩
  | decay d d' hr hc _ =>
    have hwf := wellFormed_of_reachable config d h1 hr
    rw [clear_history_eq_fresh config d hwf.1, Option.some.injEq] at hc
    rw [← hc]
    refine ⟨_, _, rfl, rfl, by simp, by simp, ?_, ?_⟩
    · simp [nonzero_slots, fresh]
    · simp [nonzero_slots, fresh]

/-- Without wraparound the two truncated shares add up to at least 99. -/
theorem percent_sum_ge (x y : Nat) (hx : x * 100 < 2 ^ 32) (hy : y * 100 < 2 ^ 32)
    (ht : x + y < 2 ^ 32) (hpos : 0 < x + y) :
    99 ≤ percent_of x (total_of x y) + percent_of y (total_of x y) := by
  unfold percent_of total_of
  rw [Nat.mod_eq_of_lt hx, Nat.mod_eq_of_lt hy, Nat.mod_eq_of_lt ht]
  have h1 := Nat.lt_mul_div_succ (x * 100) hpos
  have h2 := Nat.lt_mul_div_succ (y * 100) hpos
  have h3 : (x + y) * 100 <
      (x + y) * (x * 100 / (x + y) + y * 100 / (x + y) + 2) := by
    have e : (x + y) * (x * 100 / (x + y) + y * 100 / (x + y) + 2) =
        (x + y) * (x * 100 / (x + y) + 1) + (x + y) * (y * 100 / (x + y) + 1) := by ring
    rw [e]
    omega
  have h4 := Nat.lt_of_mul_lt_mul_left h3
  omega

/-- In a cycle on a reachable state whose stored magnitudes, the one just pushed
included, are at most 65535, no `uint32_t` operation wraps around: the sums are
the sums of the slots, the averages are at most 65535, and `total` is the sum
of the averages. -/
theorem cycle_exact (config : zip_axis_clamper_config) (heap : Heap)
    (data : zip_axis_clamper_data) (event : input_event) (c : Cycle)
    (h1 : 1 ≤ config.history_size) (hN : config.history_size ≤ 65535)
    (hr : Reachable config data) (hc : cycle config heap data event = some c)
    (hs : SlotsWithin 65535 c.data) :
    ∃ b0 b1, c.data.history0 = some b0 ∧ c.data.history1 = some b1 ∧
      b0.length = config.history_size ∧ b1.length = config.history_size ∧
      c.x_sum = b0.sum ∧ c.y_sum = b1.sum ∧
      c.x_avg = b0.sum / c.data.x_captured ∧ c.y_avg = b1.sum / c.data.y_captured ∧
      c.x_avg ≤ 65535 ∧ c.y_avg ≤ 65535 := by
  have hex : ∃ out fx fy, sy_handle_event config heap data event = some out ∧
      out.data = { c.data with clamped_to_x := fx, clamped_to_y := fy } := by
    rw [sy_handle_event_of_cycle config heap data event c hc]
    split_ifs
    · exact ⟨_, c.data.clamped_to_x, c.data.clamped_to_y, rfl, rfl⟩
    · obtain ⟨fx, fy, e⟩ := update_lock_frame config c.data c.x_percent c.y_percent
      exact ⟨_, fx, fy, rfl, e⟩
  obtain ⟨out, fx, fy, hout, hd⟩ := hex
  have hro : Reachable config out.data := Reachable.event heap data event out hr hout
  obtain ⟨b0, b1, e0, e1, l0, l1, n0, n1⟩ := nonzero_le_captured config out.data h1 hN hro
  obtain ⟨cx, cy, -⟩ := captured_le_of_reachable config out.data h1 hro
  rw [hd] at e0 e1 n0 n1 cx cy
  simp only at e0 e1 n0 n1 cx cy
  obtain ⟨d0, -, -, hsum, -, hax, hay⟩ := cycle_inv config heap data event c hc
  rw [history_sums_eq config c.data b0 b1 e0 e1 l0 l1 hN, Option.some.injEq,
    Prod.mk.injEq] at hsum
  have s0 : b0.sum ≤ c.data.x_captured * 65535 :=
    le_trans (sum_le_nonzero_slots 65535 b0 (hs.1 b0 e0)) (Nat.mul_le_mul_right _ n0)
  have s1 : b1.sum ≤ c.data.y_captured * 65535 :=
    le_trans (sum_le_nonzero_slots 65535 b1 (hs.2 b1 e1)) (Nat.mul_le_mul_right _ n1)
  have t0 : c.data.x_captured * 65535 ≤ 65535 * 65535 :=
    Nat.mul_le_mul_right _ (le_trans cx hN)
  have t1 : c.data.y_captured * 65535 ≤ 65535 * 65535 :=
    Nat.mul_le_mul_right _ (le_trans cy hN)
  have m0 : b0.sum % 2 ^ 32 = b0.sum := Nat.mod_eq_of_lt (by omega)
  have m1 : b1.sum % 2 ^ 32 = b1.sum := Nat.mod_eq_of_lt (by omega)
  rw [m0, m1] at hsum
  have ax : c.x_avg = c.x_sum / c.data.x_captured := by
    unfold average at hax
    split_ifs at hax
    exact (Option.some.inj hax).symm
  have ay : c.y_avg = c.y_sum / c.data.y_captured := by
    unfold average at hay
    split_ifs at hay
    exact (Option.some.inj hay).symm
  rw [← hsum.1] at ax
  rw [← hsum.2] at ay
  refine ⟨b0, b1, e0, e1, l0, l1, hsum.1.symm, hsum.2.symm, ax, ay, ?_, ?_⟩
  · rw [ax]
    exact Nat.div_le_of_le_mul s0
  · rw [ay]
    exact Nat.div_le_of_le_mul s1

/-- C15 (counterexample): with `N = 2`, an X event of 50000000 (below `2^31`)
followed by a Y event of 1 gives `x_avg = 50000000` and `total = 50000001`; the
product `x_avg * 100` wraps around and the code computes `x_percent = 14`,
where the exact share is 99. -/
theorem percent_wraps_around :
    (50000000 : Nat) ≤ 2 ^ 31 - 1 ∧
    (run share_config no_heap (fresh share_config)
      [plain_event INPUT_REL_X 50000000]).map Prod.fst = some big_state ∧
    cycle share_config no_heap big_state (plain_event INPUT_REL_Y 1) = some big_cycle ∧
    big_cycle.x_percent = 14 ∧
    big_cycle.x_avg * 100 / (big_cycle.x_avg + big_cycle.y_avg) = 99 := by decide

/-- C15 (amended): with `1 ≤ history_size ≤ 65535`, in every cycle on a reachable
state in which the stored magnitudes, the one just pushed included, are at most
65535, `x_avg` and `y_avg` are the sums of the axis's slots divided by its
captured count, and `x_percent` and `y_percent` are `x_avg * 100` and
`y_avg * 100` divided by `x_avg + y_avg`, all in exact arithmetic with
truncating division. -/
theorem shares_exact_up_to_65535 (config : zip_axis_clamper_config) (heap : Heap)
    (data : zip_axis_clamper_data) (event : input_event) (c : Cycle)
    (h1 : 1 ≤ config.history_size) (hN : config.history_size ≤ 65535)
    (hr : Reachable config data) (hc : cycle config heap data event = some c)
    (hs : SlotsWithin 65535 c.data) :
    ∃ b0 b1, c.data.history0 = some b0 ∧ c.data.history1 = some b1 ∧
      c.x_avg = b0.sum / c.data.x_captured ∧ c.y_avg = b1.sum / c.data.y_captured ∧
      c.total = c.x_avg + c.y_avg ∧
      c.x_percent = c.x_avg * 100 / (c.x_avg + c.y_avg) ∧
      c.y_percent = c.y_avg * 100 / (c.x_avg + c.y_avg) := by
  obtain ⟨b0, b1, e0, e1, -, -, -, -, ax, ay, bx, bylt⟩ :=
    cycle_exact config heap data event c h1 hN hr hc hs
  have ht : c.total = c.x_avg + c.y_avg := Nat.mod_eq_of_lt (by omega)
  refine ⟨b0, b1, e0, e1, ax, ay, ht, ?_, ?_⟩
  · unfold Cycle.x_percent percent_of
    rw [ht, Nat.mod_eq_of_lt (by omega)]
  · unfold Cycle.y_percent percent_of
    rw [ht, Nat.mod_eq_of_lt (by omega)]

/-- C19: with `1 ≤ history_size ≤ 65535` and `threshold ≤ 50`, on a reachable
state whose stored magnitudes, the one just pushed included, are at most 65535,
an X or Y event handled in Unlocked that gets past the warm-up guard with
`total > 0` ends in LockedX or LockedY: `x_percent + y_percent` is 99 or 100, so
one of the two is at least 50. -/
theorem low_threshold_always_locks (config : zip_axis_clamper_config) (heap : Heap)
    (data : zip_axis_clamper_data) (event : input_event) (c : Cycle)
    (h1 : 1 ≤ config.history_size) (hN : config.history_size ≤ 65535)
    (hthr : config.threshold ≤ 50)
    (hr : Reachable config data) (hun : Unlocked data)
    (hc : cycle config heap data event = some c) (ht : 0 < c.total)
    (hs : SlotsWithin 65535 c.data) :
    ∃ out, sy_handle_event config heap data event = some out ∧
      (LockedX out.data ∨ LockedY out.data) ∧
      (c.x_percent + c.y_percent = 99 ∨ c.x_percent + c.y_percent = 100) ∧
      (50 ≤ c.x_percent ∨ 50 ≤ c.y_percent) := by
  obtain ⟨b0, b1, -, -, -, -, -, -, -, -, bx, bylt⟩ :=
    cycle_exact config heap data event c h1 hN hr hc hs
  have hwf := wellFormed_of_reachable config data h1 hr
  have htot : c.total = c.x_avg + c.y_avg := Nat.mod_eq_of_lt (by omega)
  have hpos : 0 < c.x_avg + c.y_avg := by omega
  have hle := percent_sum_le c.x_avg c.y_avg (by omega) (by omega) (by omega) hpos
  have hge := percent_sum_ge c.x_avg c.y_avg (by omega) (by omega) (by omega) hpos
  have ex : c.x_percent = percent_of c.x_avg (total_of c.x_avg c.y_avg) := rfl
  have ey : c.y_percent = percent_of c.y_avg (total_of c.x_avg c.y_avg) := rfl
  rw [← ex, ← ey] at hle hge
  obtain ⟨fx, fy⟩ := cycle_flags config heap data event c hwf.1.1 hc
  have hunc : Unlocked c.data := ⟨fx.trans hun.1, fy.trans hun.2⟩
  rw [sy_handle_event_of_cycle config heap data event c hc,
    if_neg (Nat.pos_iff_ne_zero.mp ht),
    update_lock_of_unlocked config c.data c.x_percent c.y_percent hunc]
  refine ⟨_, rfl, ?_, by omega, by omega⟩
  by_cases hx : config.threshold ≤ c.x_percent
  · simp only [if_pos hx]
    exact Or.inl ⟨rfl, hunc.2⟩
  · have hy : config.threshold ≤ c.y_percent := by omega
    simp only [if_neg hx, if_pos hy]
    exact Or.inr ⟨hunc.1, rfl⟩

/-- The share example satisfies the hypotheses on the state and the slots. -/
theorem share_example_facts :
    Reachable share_config share_state ∧ SlotsWithin 65535 share_cycle.data := by
  refine ⟨?_, ?_, ?_⟩
  · exact reachable_of_run_state share_config no_heap [plain_event INPUT_REL_X 2]
      (fresh share_config) share_state Reachable.init (by decide)
  · intro b hb
    have e : b = [2, 0] := (Option.some.inj hb).symm
    subst e
    decide
  · intro b hb
    have e : b = [3, 0] := (Option.some.inj hb).symm
    subst e
    decide

/-- Witness of C15 (amended): the share example, where `x_avg = 2`, `y_avg = 3`
and the shares are 40 and 60. -/
theorem shares_exact_up_to_65535_witness :
    Reachable share_config share_state ∧
    cycle share_config no_heap share_state (plain_event INPUT_REL_Y 3) = some share_cycle ∧
    SlotsWithin 65535 share_cycle.data ∧
    share_cycle.x_percent = 40 ∧ share_cycle.y_percent = 60 ∧
    ∃ b0 b1, share_cycle.data.history0 = some b0 ∧ share_cycle.data.history1 = some b1 ∧
      share_cycle.x_avg = b0.sum / share_cycle.data.x_captured ∧
      share_cycle.y_avg = b1.sum / share_cycle.data.y_captured ∧
      share_cycle.total = share_cycle.x_avg + share_cycle.y_avg ∧
      share_cycle.x_percent =
        share_cycle.x_avg * 100 / (share_cycle.x_avg + share_cycle.y_avg) ∧
      share_cycle.y_percent =
        share_cycle.y_avg * 100 / (share_cycle.x_avg + share_cycle.y_avg) :=
  ⟨share_example_facts.1, by decide, share_example_facts.2, by decide, by decide,
   shares_exact_up_to_65535 share_config no_heap share_state (plain_event INPUT_REL_Y 3)
     share_cycle (by decide) (by decide) share_example_facts.1 (by decide)
     share_example_facts.2⟩

/-- Witness of C19: the share example with its threshold 35; the cycle starts in
Unlocked and ends locked. -/
theorem low_threshold_always_locks_witness :
    Reachable share_config share_state ∧ Unlocked share_state ∧
    share_config.threshold ≤ 50 ∧
    cycle share_config no_heap share_state (plain_event INPUT_REL_Y 3) = some share_cycle ∧
    0 < share_cycle.total ∧
    ∃ out, sy_handle_event share_config no_heap share_state (plain_event INPUT_REL_Y 3) =
        some out ∧
      (LockedX out.data ∨ LockedY out.data) :=
  ⟨share_example_facts.1, by decide, by decide, by decide, by decide,
   match low_threshold_always_locks share_config no_heap share_state
      (plain_event INPUT_REL_Y 3) share_cycle (by decide) (by decide) (by decide)
      share_example_facts.1 (by decide) (by decide) (by decide) share_example_facts.2 with
   | ⟨out, h, hl, _⟩ => ⟨out, h, hl⟩⟩

/-! ## The rolling window -/

/-- The slots of the window add up to the last `min k N` magnitudes. -/
theorem ring_window_sum (N : Nat) (vs : List Nat) :
    (ring_window N vs).sum = (last_magnitudes N vs).sum := by
  unfold ring_window last_magnitudes
  rw [List.drop_append_eq_append_drop, List.drop_replicate, List.sum_append,
    List.length_replicate]
  have hz : (List.replicate (N - vs.length) 0).sum = 0 := by simp
  have he : vs.length - min vs.length N = vs.length - N := by omega
  rw [hz, he, Nat.zero_add]

/-- A buffer that is a ring adds up to the last `min k N` magnitudes. -/
theorem ring_sum (N : Nat) (b : List Nat) (index : Nat) (vs : List Nat)
    (h : b.rotate index = ring_window N vs) :
    b.sum = (last_magnitudes N vs).sum := by
  rw [← ring_window_sum, ← h]
  exact ((List.rotate_perm b index).sum_eq).symm

/-- Two residues that differ by less than the modulus are different. -/
theorem mod_shift_ne (N j r : Nat) (hj : j + 1 < N) (hr : r < N) :
    (j + 1 + r) % N ≠ r := by
  by_cases hlt : j + 1 + r < N
  · rw [Nat.mod_eq_of_lt hlt]
    omega
  · rw [Nat.mod_eq_sub_mod (by omega), Nat.mod_eq_of_lt (by omega)]
    omega

/-- Lines 62-64 on a ring: the push overwrites the oldest slot and moves the
cursor to the next oldest. -/
theorem ring_push (N : Nat) (b : List Nat) (index captured : Nat) (vs : List Nat) (v : Nat)
    (hpos : 0 < N) (hn : N < 2 ^ 16)
    (h : RingOf N (some b) index captured vs) :
    RingOf N (some (b.set index v)) ((index + 1) % N % 2 ^ 16)
      (CLAMP (captured + 1) 0 N % 2 ^ 16) (vs ++ [v]) := by
  obtain ⟨b', hb, hl, hi, hcap, hrot⟩ := h
  rw [Option.some.injEq] at hb
  subst hb
  have hidx : (index + 1) % N % 2 ^ 16 = (vs ++ [v]).length % N := by
    rw [Nat.mod_eq_of_lt (lt_trans (Nat.mod_lt _ hpos) hn), hi, List.length_append,
      List.length_singleton, Nat.mod_add_mod]
  refine ⟨b.set index v, rfl, by rw [List.length_set, hl], hidx, ?_, ?_⟩
  · rw [CLAMP_eq_min _ _ hn, hcap, List.length_append, List.length_singleton]
    omega
  · rw [hidx, List.length_append, List.length_singleton]
    have hir : index < N := by
      rw [hi]
      exact Nat.mod_lt _ hpos
    apply List.ext_getElem?
    intro j
    by_cases hj : j < N
    · have hlen : j < (b.set index v).length := by rw [List.length_set, hl]; exact hj
      rw [List.getElem?_rotate hlen, List.length_set, hl, Nat.add_mod_mod]
      unfold ring_window
      rw [List.getElem?_drop, List.length_append, List.length_singleton, ← List.append_assoc]
      by_cases hlast : j + 1 = N
      · have e1 : (j + (vs.length + 1)) % N = index := by
          have : j + (vs.length + 1) = vs.length + N := by omega
          rw [this, Nat.add_mod_right, hi]
        have e2 : vs.length + 1 + j = (List.replicate N 0 ++ vs).length := by
          rw [List.length_append, List.length_replicate]
          omega
        rw [e1, e2, List.getElem?_concat_length,
          List.getElem?_set_self (by rw [hl]; exact hir)]
      · have hj1 : j + 1 < N := by omega
        have e1 : (j + (vs.length + 1)) % N = (j + 1 + index) % N := by
          rw [hi, Nat.add_mod_mod]
          congr 1
          omega
        have hne : index ≠ (j + 1 + index) % N :=
          fun e => mod_shift_ne N j index hj1 hir e.symm
        rw [e1, List.getElem?_set_ne hne]
        have hold : (b.rotate index)[j + 1]? = (ring_window N vs)[j + 1]? := by rw [hrot]
        rw [List.getElem?_rotate (by rw [hl]; exact hj1), hl] at hold
        unfold ring_window at hold
        rw [List.getElem?_drop] at hold
        have hr : ((List.replicate N 0 ++ vs) ++ [v])[vs.length + 1 + j]? =
            (List.replicate N 0 ++ vs)[vs.length + 1 + j]? :=
          List.getElem?_append_left (by
            rw [List.length_append, List.length_replicate]
            omega)
        have hidx2 : vs.length + (j + 1) = vs.length + 1 + j := by omega
        rw [hold, hr, hidx2]
    · have hl1 : ((b.set index v).rotate (vs.length + 1 )).length ≤ j := by
        rw [List.length_rotate, List.length_set, hl]
        omega
      have hl2 : (ring_window N (vs ++ [v])).length ≤ j := by
        unfold ring_window
        rw [List.length_drop, List.length_append, List.length_append, List.length_replicate,
          List.length_singleton]
        omega
      have hmod : ((b.set index v).rotate ((vs.length + 1) % N)) =
          (b.set index v).rotate (vs.length + 1) := by
        have := List.rotate_mod (b.set index v) (vs.length + 1)
        rw [List.length_set, hl] at this
        exact this
      rw [hmod, List.getElem?_eq_none hl1, List.getElem?_eq_none hl2]

/-- The fresh instance holds two empty rings. -/
theorem ring_fresh (config : zip_axis_clamper_config) :
    RingState config (fresh config) [] [] := by
  have hr : RingOf config.history_size (some (List.replicate config.history_size 0)) 0 0 [] := by
    refine ⟨_, rfl, by simp, ?_, ?_, ?_⟩
    · simp
    · simp
    · simp [ring_window]
  exact ⟨rfl, hr, hr⟩

/-- The magnitudes of a list of events, event by event. -/
theorem magnitudes_cons (e : input_event) (rest : List input_event) :
    x_magnitudes (e :: rest) = x_magnitudes [e] ++ x_magnitudes rest ∧
    y_magnitudes (e :: rest) = y_magnitudes [e] ++ y_magnitudes rest := by
  unfold x_magnitudes y_magnitudes
  constructor
  · by_cases h : e.code = INPUT_REL_X <;> simp [List.filter_cons, h]
  · by_cases h : e.code = INPUT_REL_Y <;> simp [List.filter_cons, h]

/-- The magnitudes of a single event. -/
theorem magnitudes_single (e : input_event) :
    (e.code = INPUT_REL_X →
      x_magnitudes [e] = [abs_u32 e.value] ∧ y_magnitudes [e] = []) ∧
    (e.code = INPUT_REL_Y →
      x_magnitudes [e] = [] ∧ y_magnitudes [e] = [abs_u32 e.value]) ∧
    (e.code ≠ INPUT_REL_X → e.code ≠ INPUT_REL_Y →
      x_magnitudes [e] = [] ∧ y_magnitudes [e] = []) := by
  have hxy : ¬ INPUT_REL_X = INPUT_REL_Y := by decide
  have hyx : ¬ INPUT_REL_Y = INPUT_REL_X := by decide
  unfold x_magnitudes y_magnitudes
  refine ⟨?_, ?_, ?_⟩
  · intro h
    simp [List.filter_cons, h, hxy]
  · intro h
    simp [List.filter_cons, h, hyx]
  · intro hx hy
    simp [List.filter_cons, hx, hy]

/-- The magnitudes of a list of events followed by another. -/
theorem magnitudes_append (xs ys : List input_event) :
    x_magnitudes (xs ++ ys) = x_magnitudes xs ++ x_magnitudes ys ∧
    y_magnitudes (xs ++ ys) = y_magnitudes xs ++ y_magnitudes ys := by
  unfold x_magnitudes y_magnitudes
  simp [List.filter_append]

/-- The push of an event keeps the two rings, with the event's magnitude added
to the ring of its axis. -/
theorem ring_push_state (config : zip_axis_clamper_config)
    (data d1 : zip_axis_clamper_data) (e : input_event) (xs ys : List Nat)
    (hn : config.history_size < 2 ^ 16) (h : RingState config data xs ys)
    (hp : push config data e = some d1) :
    RingState config d1 (xs ++ x_magnitudes [e]) (ys ++ y_magnitudes [e]) := by
  obtain ⟨hi, hx, hy⟩ := h
  rcases push_code config data d1 e hp with hc | hc
  · obtain ⟨b0, hb, -, hz, he⟩ := push_x_eq config data d1 e hc hp
    obtain ⟨mx, my⟩ := (magnitudes_single e).1 hc
    rw [mx, my, List.append_nil, he]
    rw [hb] at hx
    exact ⟨hi, ring_push config.history_size b0 data.x_index data.x_captured xs _
      (Nat.pos_of_ne_zero hz) hn hx, hy⟩
  · obtain ⟨b1, hb, -, hz, he⟩ := push_y_eq config data d1 e hc hp
    obtain ⟨mx, my⟩ := (magnitudes_single e).2.1 hc
    rw [mx, my, List.append_nil, he]
    rw [hb] at hy
    exact ⟨hi, hx, ring_push config.history_size b1 data.y_index data.y_captured ys _
      (Nat.pos_of_ne_zero hz) hn hy⟩

/-- A returning call keeps the two rings, with the event's magnitude added to the
ring of its axis. -/
theorem ring_step (config : zip_axis_clamper_config) (heap : Heap)
    (data : zip_axis_clamper_data) (e : input_event) (out : Outcome) (xs ys : List Nat)
    (h : RingState config data xs ys)
    (hout : sy_handle_event config heap data e = some out) :
    RingState config out.data (xs ++ x_magnitudes [e]) (ys ++ y_magnitudes [e]) := by
  by_cases hcode : e.code = INPUT_REL_X ∨ e.code = INPUT_REL_Y
  · obtain ⟨d0, d1, s, h0, hp, hs, -, fx, fy, hd⟩ :=
      sy_handle_event_pushed config heap data e out hout hcode
    rw [ensure_init_of_initialized config heap data h.1, Option.some.injEq] at h0
    subst h0
    have hr := ring_push_state config data d1 e xs ys (history_sums_bound config d1 s hs) h hp
    rw [hd]
    exact hr
  · push_neg at hcode
    obtain ⟨mx, my⟩ := (magnitudes_single e).2.2 hcode.1 hcode.2
    rw [sy_handle_event_other_code config heap data e h.1 hcode.1 hcode.2,
      Option.some.injEq] at hout
    rw [← hout, mx, my, List.append_nil, List.append_nil]
    exact h

/-- A run keeps the two rings, with the magnitudes of its events added. -/
theorem ring_run (config : zip_axis_clamper_config) (heap : Heap) :
    ∀ (evs : List input_event) (data final : zip_axis_clamper_data)
      (outs : List input_event) (xs ys : List Nat),
      RingState config data xs ys → run config heap data evs = some (final, outs) →
      RingState config final (xs ++ x_magnitudes evs) (ys ++ y_magnitudes evs) := by
  intro evs
  induction evs with
  | nil =>
    intro data final outs xs ys h hrun
    simp only [run, Option.some.injEq, Prod.mk.injEq] at hrun
    rw [← hrun.1]
    simpa [x_magnitudes, y_magnitudes] using h
  | cons e rest ih =>
    intro data final outs xs ys h hrun
    rw [run_cons] at hrun
    cases hs : sy_handle_event config heap data e with
    | none =>
      rw [hs] at hrun
      exact absurd hrun (by simp)
    | some out =>
      rw [hs] at hrun
      simp only at hrun
      cases hr : run config heap out.data rest with
      | none =>
        rw [hr] at hrun
        exact absurd hrun (by simp)
      | some p =>
        obtain ⟨f, os⟩ := p
        rw [hr] at hrun
        simp only [Option.some.injEq, Prod.mk.injEq] at hrun
        have h1 := ring_step config heap data e out xs ys h hs
        have h2 := ih out.data f os _ _ h1 hr
        rw [List.append_assoc, List.append_assoc, ← (magnitudes_cons e rest).1,
          ← (magnitudes_cons e rest).2, hrun.1] at h2
        exact h2

/-- On a ring, the sum of lines 73-78 and the average of lines 84-85 are those of
the last `min k N` magnitudes. -/
theorem window_mean_of_ring (N : Nat) (b : List Nat) (index captured : Nat)
    (vs : List Nat) (sum avg : Nat)
    (h : RingOf N (some b) index captured vs)
    (hsum : sum = b.sum % 2 ^ 32) (havg : average sum captured = some avg) :
    WindowMean N vs captured sum avg := by
  obtain ⟨b', hb, -, -, hcap, hrot⟩ := h
  rw [Option.some.injEq] at hb
  subst hb
  have hs := ring_sum N b index vs hrot
  have ha : avg = sum / captured := by
    unfold average at havg
    split_ifs at havg
    exact (Option.some.inj havg).symm
  rw [hs] at hsum
  refine ⟨hcap, hsum, ha, ?_, ?_⟩
  · intro hlt
    rw [ha, hsum, Nat.mod_eq_of_lt hlt, hcap]
  · intro hz
    have h0 : (last_magnitudes N vs).sum = 0 := List.sum_eq_zero hz
    rw [ha, hsum, h0]
    simp

/-- C11: with `1 ≤ history_size = N ≤ 65535`, after any run of handled events
from the fresh (or just reset) instance, each axis's captured count is
`m = min k N`, where `k` counts the events of that axis, and its `N` slots add
up to the last `m` magnitudes of that axis; and in the cycle of any further
event the sum is that of the last `m` magnitudes modulo `2^32` and the average
is the sum divided by `m`: the truncated mean of the last `m` magnitudes when
the sum does not wrap around, and 0 when those magnitudes are all 0. -/
theorem rolling_window_mean (config : zip_axis_clamper_config) (heap : Heap)
    (evs : List input_event) (final : zip_axis_clamper_data) (outs : List input_event)
    (hN : config.history_size ≤ 65535)
    (hrun : run config heap (fresh config) evs = some (final, outs)) :
    (∃ b0 b1, final.history0 = some b0 ∧ final.history1 = some b1 ∧
      b0.length = config.history_size ∧ b1.length = config.history_size ∧
      final.x_captured = min (x_magnitudes evs).length config.history_size ∧
      final.y_captured = min (y_magnitudes evs).length config.history_size ∧
      b0.sum = (last_magnitudes config.history_size (x_magnitudes evs)).sum ∧
      b1.sum = (last_magnitudes config.history_size (y_magnitudes evs)).sum) ∧
    (∀ e c, cycle config heap final e = some c →
      WindowMean config.history_size (x_magnitudes (evs ++ [e]))
        c.data.x_captured c.x_sum c.x_avg ∧
      WindowMean config.history_size (y_magnitudes (evs ++ [e]))
        c.data.y_captured c.y_sum c.y_avg) := by
  have hring := ring_run config heap evs (fresh config) final outs [] []
    (ring_fresh config) hrun
  rw [List.nil_append, List.nil_append] at hring
  constructor
  · obtain ⟨-, ⟨b0, e0, l0, -, c0, r0⟩, ⟨b1, e1, l1, -, c1, r1⟩⟩ := hring
    exact ⟨b0, b1, e0, e1, l0, l1, c0, c1, ring_sum _ b0 _ _ r0, ring_sum _ b1 _ _ r1⟩
  · intro e c hc
    obtain ⟨d0, h0, hp, hs, -, hax, hay⟩ := cycle_inv config heap final e c hc
    rw [ensure_init_of_initialized config heap final hring.1, Option.some.injEq] at h0
    subst h0
    have hn : config.history_size < 2 ^ 16 := by omega
    have hr := ring_push_state config final c.data e _ _ hn hring hp
    rw [← (magnitudes_append evs [e]).1, ← (magnitudes_append evs [e]).2] at hr
    obtain ⟨-, hx, hy⟩ := hr
    obtain ⟨b0, e0, l0, i0, c0, r0⟩ := hx
    obtain ⟨b1, e1, l1, i1, c1, r1⟩ := hy
    rw [history_sums_eq config c.data b0 b1 e0 e1 l0 l1 hN, Option.some.injEq,
      Prod.mk.injEq] at hs
    exact ⟨window_mean_of_ring _ b0 _ _ _ _ _ ⟨b0, rfl, l0, i0, c0, r0⟩ hs.1.symm hax,
      window_mean_of_ring _ b1 _ _ _ _ _ ⟨b1, rfl, l1, i1, c1, r1⟩ hs.2.symm hay⟩

/-- Witness of C11: the alternating interleaving of the scenario followed by one
more X event of 1, which overwrites the oldest X slot; the X slots add up to
31, the sum of the last four of the five X magnitudes. -/
theorem rolling_window_mean_witness :
    run scenario_config no_heap (fresh scenario_config)
        (scenario_events ++ [plain_event INPUT_REL_X 1]) =
      some (drift_state 1 1 1 true, scenario_outs ++ [plain_event INPUT_REL_X 1]) ∧
    x_magnitudes (scenario_events ++ [plain_event INPUT_REL_X 1]) = [10, 10, 10, 10, 1] ∧
    last_magnitudes 4 [10, 10, 10, 10, 1] = [10, 10, 10, 1] ∧
    (drift_state 1 1 1 true).history0 = some [1, 10, 10, 10] ∧
    ∃ b0 b1, (drift_state 1 1 1 true).history0 = some b0 ∧
      (drift_state 1 1 1 true).history1 = some b1 ∧
      b0.length = scenario_config.history_size ∧ b1.length = scenario_config.history_size ∧
      (drift_state 1 1 1 true).x_captured =
        min (x_magnitudes (scenario_events ++ [plain_event INPUT_REL_X 1])).length
          scenario_config.history_size ∧
      (drift_state 1 1 1 true).y_captured =
        min (y_magnitudes (scenario_events ++ [plain_event INPUT_REL_X 1])).length
          scenario_config.history_size ∧
      b0.sum =
        (last_magnitudes scenario_config.history_size
          (x_magnitudes (scenario_events ++ [plain_event INPUT_REL_X 1]))).sum ∧
      b1.sum =
        (last_magnitudes scenario_config.history_size
          (y_magnitudes (scenario_events ++ [plain_event INPUT_REL_X 1]))).sum :=
  ⟨by decide, by decide, by decide, by decide,
   (rolling_window_mean scenario_config no_heap
     (scenario_events ++ [plain_event INPUT_REL_X 1]) (drift_state 1 1 1 true)
     (scenario_outs ++ [plain_event INPUT_REL_X 1]) (by decide) (by decide)).1⟩

end AxisClamper
